import Mathlib

/-!
# The decode ("unpack") path of the PMIx buffer operations

A shallow embedding of `src/buffer_ops/unpack.c`.

* A buffer is a record of its storage (the bytes that start at `base_ptr`), the
  offsets of the pack and unpack pointers from `base_ptr`, and the two size fields.
* A destination (`void *dest`) is the array the caller handed in: a function from the
  slot index to the slot contents, so that a decoder maps the old destination to the
  new one.
* `int32_t` counts are integers; `size_t` arithmetic is done modulo `2 ^ 64`.
* Every decoder returns its status together with the buffer, the destination and the
  count cell (`int32_t *num_vals`) as they are when it returns.
-/

namespace PmixUnpack

/-! ## Data model -/

/-- Status codes named by `unpack.c`; their numeric values live in a header and play
no role here, only that they are pairwise different. -/
inductive pmix_status_t where
  | PMIX_SUCCESS
  | PMIX_ERROR
  | PMIX_ERR_BAD_PARAM
  | PMIX_ERR_UNPACK_INADEQUATE_SPACE
  | PMIX_ERR_UNPACK_READ_PAST_END_OF_BUFFER
  | PMIX_ERR_PACK_MISMATCH
  | PMIX_ERR_UNPACK_FAILURE
  | PMIX_ERR_OUT_OF_RESOURCE
  deriving DecidableEq, Repr

open pmix_status_t

/-- The two wire modes of a buffer (`buffer->type`). -/
inductive pmix_bfrop_buffer_type_t where
  | PMIX_BFROP_BUFFER_NON_DESC
  | PMIX_BFROP_BUFFER_FULLY_DESC
  deriving DecidableEq, Repr

open pmix_bfrop_buffer_type_t

/-- One octet. -/
abbrev uint8_t := Fin 256

/-- A type tag: an integer over the enumeration of wire types. -/
abbrev pmix_data_type_t := Nat

/-- Modelled from the spec: the tag of the string type; the numeric value is declared in
`types.h`, which is not part of the sources at hand. Only distinctness from the other
tags is used. -/
def PMIX_STRING : pmix_data_type_t := 3

/-- Modelled from the spec: the tag of the 32-bit signed integer type, which is also the
type of every count; the numeric value is declared in `types.h`, which is not part of
the sources at hand. Only distinctness from the other tags is used. -/
def PMIX_INT32 : pmix_data_type_t := 9

/-! ### The other type tags

The numeric values are declared in `types.h`, which is not part of the sources at hand.
Only the distinctness of the tags is used. -/

/-- Modelled from the spec: the tag of the boolean type. -/
def PMIX_BOOL : pmix_data_type_t := 1

/-- Modelled from the spec: the tag of the byte type. -/
def PMIX_BYTE : pmix_data_type_t := 2

/-- Modelled from the spec: the tag of the size type. -/
def PMIX_SIZE : pmix_data_type_t := 4

/-- Modelled from the spec: the tag of the process id type. -/
def PMIX_PID : pmix_data_type_t := 5

/-- Modelled from the spec: the tag of the host integer type. -/
def PMIX_INT : pmix_data_type_t := 6

/-- Modelled from the spec: the tag of the 8-bit signed integer type. -/
def PMIX_INT8 : pmix_data_type_t := 7

/-- Modelled from the spec: the tag of the 16-bit signed integer type. -/
def PMIX_INT16 : pmix_data_type_t := 8

/-- Modelled from the spec: the tag of the 64-bit signed integer type. -/
def PMIX_INT64 : pmix_data_type_t := 10

/-- Modelled from the spec: the tag of the host unsigned integer type. -/
def PMIX_UINT : pmix_data_type_t := 11

/-- Modelled from the spec: the tag of the 8-bit unsigned integer type. -/
def PMIX_UINT8 : pmix_data_type_t := 12

/-- Modelled from the spec: the tag of the 16-bit unsigned integer type. -/
def PMIX_UINT16 : pmix_data_type_t := 13

/-- Modelled from the spec: the tag of the 32-bit unsigned integer type. -/
def PMIX_UINT32 : pmix_data_type_t := 14

/-- Modelled from the spec: the tag of the 64-bit unsigned integer type. -/
def PMIX_UINT64 : pmix_data_type_t := 15

/-- Modelled from the spec: the tag of the float type. -/
def PMIX_FLOAT : pmix_data_type_t := 16

/-- Modelled from the spec: the tag of the double type. -/
def PMIX_DOUBLE : pmix_data_type_t := 17

/-- Modelled from the spec: the tag of the timeval type. -/
def PMIX_TIMEVAL : pmix_data_type_t := 18

/-- Modelled from the spec: the tag of the type of type tags. -/
def PMIX_DATA_TYPE : pmix_data_type_t := 20

/-- Modelled from the spec: the tag of the byte object type. -/
def PMIX_BYTE_OBJECT : pmix_data_type_t := 21

/-- Modelled from the spec: the tag of the array type with elements of type `PMIX_FLOAT`. -/
def PMIX_FLOAT_ARRAY : pmix_data_type_t := 30

/-- Modelled from the spec: the tag of the array type with elements of type `PMIX_DOUBLE`. -/
def PMIX_DOUBLE_ARRAY : pmix_data_type_t := 31

/-- Modelled from the spec: the tag of the array type with elements of type `PMIX_STRING`. -/
def PMIX_STRING_ARRAY : pmix_data_type_t := 32

/-- Modelled from the spec: the tag of the array type with elements of type `PMIX_BOOL`. -/
def PMIX_BOOL_ARRAY : pmix_data_type_t := 33

/-- Modelled from the spec: the tag of the array type with elements of type `PMIX_SIZE`. -/
def PMIX_SIZE_ARRAY : pmix_data_type_t := 34

/-- Modelled from the spec: the tag of the array type with elements of type `PMIX_BYTE`. -/
def PMIX_BYTE_ARRAY : pmix_data_type_t := 35

/-- Modelled from the spec: the tag of the array type with elements of type `PMIX_INT`. -/
def PMIX_INT_ARRAY : pmix_data_type_t := 36

/-- Modelled from the spec: the tag of the array type with elements of type `PMIX_INT8`. -/
def PMIX_INT8_ARRAY : pmix_data_type_t := 37

/-- Modelled from the spec: the tag of the array type with elements of type `PMIX_INT16`. -/
def PMIX_INT16_ARRAY : pmix_data_type_t := 38

/-- Modelled from the spec: the tag of the array type with elements of type `PMIX_INT32`. -/
def PMIX_INT32_ARRAY : pmix_data_type_t := 39

/-- Modelled from the spec: the tag of the array type with elements of type `PMIX_INT64`. -/
def PMIX_INT64_ARRAY : pmix_data_type_t := 40

/-- Modelled from the spec: the tag of the array type with elements of type `PMIX_UINT`. -/
def PMIX_UINT_ARRAY : pmix_data_type_t := 41

/-- Modelled from the spec: the tag of the array type with elements of type `PMIX_UINT8`. -/
def PMIX_UINT8_ARRAY : pmix_data_type_t := 42

/-- Modelled from the spec: the tag of the array type with elements of type `PMIX_UINT16`. -/
def PMIX_UINT16_ARRAY : pmix_data_type_t := 43

/-- Modelled from the spec: the tag of the array type with elements of type `PMIX_UINT32`. -/
def PMIX_UINT32_ARRAY : pmix_data_type_t := 44

/-- Modelled from the spec: the tag of the array type with elements of type `PMIX_UINT64`. -/
def PMIX_UINT64_ARRAY : pmix_data_type_t := 45

/-- Modelled from the spec: the tag of the array type with elements of type `PMIX_PID`. -/
def PMIX_PID_ARRAY : pmix_data_type_t := 46

/-- Modelled from the spec: the tag of the array type with elements of type `PMIX_TIMEVAL`. -/
def PMIX_TIMEVAL_ARRAY : pmix_data_type_t := 47

/-- Modelled from the spec: `PMIX_DATA_TYPE_T`, the wire type that carries a type tag. The
wire format gives a tag as an int32 in network order. -/
def PMIX_DATA_TYPE_T : pmix_data_type_t := PMIX_INT32

/-- The buffer record `pmix_buffer_t`. `base_ptr` holds the bytes stored from the base
address on; `pack_ptr` and `unpack_ptr` are kept as offsets from the base address. -/
structure pmix_buffer_t where
  type : pmix_bfrop_buffer_type_t
  base_ptr : List uint8_t
  pack_ptr : Nat
  unpack_ptr : Nat
  bytes_allocated : Nat
  bytes_used : Nat
  deriving DecidableEq, Repr

/-- What a decoder leaves behind: the returned status, the buffer, the destination and
the count cell. -/
structure Outcome (β δ ν : Type) where
  rc : pmix_status_t
  buffer : β
  dest : δ
  num_vals : ν

/-- The uniform signature of the per-type decoders,
`(buffer, dest, num_vals, type) -> status`. -/
abbrev pmix_bfrop_unpack_fn_t (δ : Type) :=
  pmix_buffer_t → δ → Int → pmix_data_type_t → Outcome pmix_buffer_t δ Int

/-- An entry of the type registry; only the decode routine is used on this path. -/
structure pmix_bfrop_type_info_t (δ : Type) where
  odti_unpack_fn : pmix_bfrop_unpack_fn_t δ

/-! ## Machine arithmetic -/

/-- Conversion of a signed count to `size_t` (64 bits): reduction modulo `2 ^ 64`. -/
def to_size_t (n : Int) : Nat := (n % (2 : Int) ^ 64).toNat

/-- Product of two `size_t` values, modulo `2 ^ 64`. -/
def size_mul (a b : Nat) : Nat := (a * b) % 2 ^ 64

/-- Reading a 32-bit pattern as an `int32_t` (two's complement). -/
def to_int32 (u : Nat) : Int := if u % 2 ^ 32 < 2 ^ 31 then ((u % 2 ^ 32 : Nat) : Int)
  else ((u % 2 ^ 32 : Nat) : Int) - (2 : Int) ^ 32

/-- The byte stored `off` bytes after the base address. -/
def byte_at (mem : List uint8_t) (off : Nat) : uint8_t := mem.getD off 0

/-- The `w` bytes stored from offset `off` on, in storage order. -/
def wire_bytes (mem : List uint8_t) (off w : Nat) : List uint8_t :=
  (List.range w).map (fun j => byte_at mem (off + j))

/-- The effect of `memcpy(&tmp, buffer->unpack_ptr, w)`: the `w` bytes found at the
unpack pointer, in storage order. -/
def memcpy_tmp (buffer : pmix_buffer_t) (w : Nat) : List uint8_t :=
  wire_bytes buffer.base_ptr buffer.unpack_ptr w

/-- Value of a byte string taken in network byte order (most significant byte first):
what `ntohs`, `ntohl` and `ntoh64` yield on the host for a value copied from the wire. -/
def ntoh (raw : List uint8_t) : Nat := raw.foldl (fun acc b => acc * 256 + b.val) 0

/-- Network to host, 16 bits. -/
def ntohs (raw : List uint8_t) : Nat := ntoh raw

/-- Network to host, 32 bits. -/
def ntohl (raw : List uint8_t) : Nat := ntoh raw

/-- Network to host, 64 bits. -/
def ntoh64 (raw : List uint8_t) : Nat := ntoh raw

/-- The effect of `memcpy(dest, buffer->unpack_ptr, n)` on a byte destination. -/
def memcpy (dest : Nat → uint8_t) (buffer : pmix_buffer_t) (n : Nat) : Nat → uint8_t :=
  fun i => if i < n then byte_at buffer.base_ptr (buffer.unpack_ptr + i) else dest i

/-- The effect of `buffer->unpack_ptr += k` for a signed `k`. -/
def advance (buffer : pmix_buffer_t) (k : Int) : pmix_buffer_t :=
  { buffer with unpack_ptr := ((buffer.unpack_ptr : Int) + k).toNat }

/-! ## Helpers declared in `internal.h` -/

/-- Modelled from the spec: `pmix_bfrop_too_small` is declared in `internal.h` and defined
outside the sources at hand. The spec requires `count * width` bytes remaining, the
remaining bytes being those between the unpack cursor and the end of the used region
(`base + bytes_used`). -/
def pmix_bfrop_too_small (buffer : pmix_buffer_t) (bytes_reqd : Nat) : Bool :=
  decide (buffer.bytes_used - buffer.unpack_ptr < bytes_reqd)

/-! ## Fixed-width decoders -/

/-- Decoder `pmix_bfrop_unpack_null` (unpack.c, 273-289). -/
def pmix_bfrop_unpack_null : pmix_bfrop_unpack_fn_t (Nat → uint8_t) :=
  fun buffer dest num_vals _type =>
    if pmix_bfrop_too_small buffer (to_size_t num_vals) then
      ⟨PMIX_ERR_UNPACK_READ_PAST_END_OF_BUFFER, buffer, dest, num_vals⟩
    else
      ⟨PMIX_SUCCESS, advance buffer num_vals, memcpy dest buffer (to_size_t num_vals), num_vals⟩

/-- Decoder `pmix_bfrop_unpack_byte` for BYTE, CHAR, INT8 (unpack.c, 294-310). -/
def pmix_bfrop_unpack_byte : pmix_bfrop_unpack_fn_t (Nat → uint8_t) :=
  fun buffer dest num_vals _type =>
    if pmix_bfrop_too_small buffer (to_size_t num_vals) then
      ⟨PMIX_ERR_UNPACK_READ_PAST_END_OF_BUFFER, buffer, dest, num_vals⟩
    else
      ⟨PMIX_SUCCESS, advance buffer num_vals, memcpy dest buffer (to_size_t num_vals), num_vals⟩

/-- The element loop shared by the 16, 32 and 64 bit decoders,
`for (i = 0; i < *num_vals; ++i) { memcpy(&tmp, unpack_ptr, w); tmp = conv(tmp);
desttmp[i] = tmp; unpack_ptr += w; }`, with `k` iterations still to run and `i` the
current index. -/
def unpack_loop (w : Nat) (conv : List uint8_t → Nat) :
    Nat → Nat → pmix_buffer_t → (Nat → Nat) → pmix_buffer_t × (Nat → Nat)
  | 0, _, buffer, desttmp => (buffer, desttmp)
  | k + 1, i, buffer, desttmp =>
    let tmp := conv (memcpy_tmp buffer w)
    unpack_loop w conv k (i + 1) (advance buffer (w : Int)) (Function.update desttmp i tmp)

/-- Decoder `pmix_bfrop_unpack_int16` (unpack.c, 312-333). -/
def pmix_bfrop_unpack_int16 : pmix_bfrop_unpack_fn_t (Nat → Nat) :=
  fun buffer dest num_vals _type =>
    if pmix_bfrop_too_small buffer (size_mul (to_size_t num_vals) 2) then
      ⟨PMIX_ERR_UNPACK_READ_PAST_END_OF_BUFFER, buffer, dest, num_vals⟩
    else
      let r := unpack_loop 2 ntohs num_vals.toNat 0 buffer dest
      ⟨PMIX_SUCCESS, r.1, r.2, num_vals⟩

/-- Decoder `pmix_bfrop_unpack_int32` (unpack.c, 335-356). -/
def pmix_bfrop_unpack_int32 : pmix_bfrop_unpack_fn_t (Nat → Nat) :=
  fun buffer dest num_vals _type =>
    if pmix_bfrop_too_small buffer (size_mul (to_size_t num_vals) 4) then
      ⟨PMIX_ERR_UNPACK_READ_PAST_END_OF_BUFFER, buffer, dest, num_vals⟩
    else
      let r := unpack_loop 4 ntohl num_vals.toNat 0 buffer dest
      ⟨PMIX_SUCCESS, r.1, r.2, num_vals⟩

/-- Decoder `pmix_bfrop_unpack_int64` (unpack.c, 358-379). -/
def pmix_bfrop_unpack_int64 : pmix_bfrop_unpack_fn_t (Nat → Nat) :=
  fun buffer dest num_vals _type =>
    if pmix_bfrop_too_small buffer (size_mul (to_size_t num_vals) 8) then
      ⟨PMIX_ERR_UNPACK_READ_PAST_END_OF_BUFFER, buffer, dest, num_vals⟩
    else
      let r := unpack_loop 8 ntoh64 num_vals.toNat 0 buffer dest
      ⟨PMIX_SUCCESS, r.1, r.2, num_vals⟩

/-! ## Inline type tags -/

/-- Modelled from the spec: `pmix_bfrop_get_data_type` is declared in `internal.h` and
defined outside the sources at hand. It reads one inline type tag, which the wire
format gives as an int32 in network order, and moves the cursor past it; a failed read
is reported with the status of the read. -/
def pmix_bfrop_get_data_type (buffer : pmix_buffer_t) :
    pmix_status_t × pmix_buffer_t × pmix_data_type_t :=
  let r := pmix_bfrop_unpack_int32 buffer (fun _ => 0) 1 PMIX_INT32
  (r.rc, r.buffer, r.dest 0)

/-! ## Generic dispatch and the batch decoder -/

/-- Generic dispatch `pmix_bfrop_unpack_buffer` (unpack.c, 102-131). The registry
`pmix_bfrop_types` is consumed as a read-only mapping from tag to entry;
`pmix_pointer_array_get_item` is the application of that mapping (`none` for NULL). -/
def pmix_bfrop_unpack_buffer {δ : Type}
    (pmix_bfrop_types : pmix_data_type_t → Option (pmix_bfrop_type_info_t δ)) :
    pmix_bfrop_unpack_fn_t δ :=
  fun buffer dst num_vals type =>
    let lookup : pmix_buffer_t → Outcome pmix_buffer_t δ Int := fun buffer =>
      match pmix_bfrop_types type with
      | none => ⟨PMIX_ERR_UNPACK_FAILURE, buffer, dst, num_vals⟩
      | some info => info.odti_unpack_fn buffer dst num_vals type
    if buffer.type = PMIX_BFROP_BUFFER_FULLY_DESC then
      match pmix_bfrop_get_data_type buffer with
      | (rc, buffer, local_type) =>
        if rc ≠ PMIX_SUCCESS then ⟨rc, buffer, dst, num_vals⟩
        else if type ≠ local_type then ⟨PMIX_ERR_PACK_MISMATCH, buffer, dst, num_vals⟩
        else lookup buffer
    else lookup buffer

/-- Batch decoder `pmix_bfrop_unpack` (unpack.c, 30-100). An absent (NULL) argument is
`none`. The local `local_num` is passed to the count read as a one-slot array. -/
def pmix_bfrop_unpack {δ : Type}
    (pmix_bfrop_types : pmix_data_type_t → Option (pmix_bfrop_type_info_t δ)) :
    Option pmix_buffer_t → Option δ → Option Int → pmix_data_type_t →
      Outcome (Option pmix_buffer_t) (Option δ) (Option Int)
  | some buffer, some dst, some num_vals, type =>
    let count_and_values : pmix_buffer_t →
        Outcome (Option pmix_buffer_t) (Option δ) (Option Int) := fun buffer =>
      let r := pmix_bfrop_unpack_int32 buffer (fun _ => 0) 1 PMIX_INT32
      if r.rc ≠ PMIX_SUCCESS then ⟨r.rc, some r.buffer, some dst, some 0⟩
      else
        let local_num := to_int32 (r.dest 0)
        if local_num > num_vals then
          let v := pmix_bfrop_unpack_buffer pmix_bfrop_types r.buffer dst num_vals type
          if v.rc ≠ PMIX_SUCCESS then ⟨v.rc, some v.buffer, some v.dest, some 0⟩
          else ⟨PMIX_ERR_UNPACK_INADEQUATE_SPACE, some v.buffer, some v.dest, some num_vals⟩
        else
          let v := pmix_bfrop_unpack_buffer pmix_bfrop_types r.buffer dst local_num type
          if v.rc ≠ PMIX_SUCCESS then ⟨v.rc, some v.buffer, some v.dest, some 0⟩
          else ⟨PMIX_SUCCESS, some v.buffer, some v.dest, some local_num⟩
    if num_vals = 0 then
      ⟨PMIX_ERR_UNPACK_INADEQUATE_SPACE, some buffer, some dst, some num_vals⟩
    else if buffer.type = PMIX_BFROP_BUFFER_FULLY_DESC then
      match pmix_bfrop_get_data_type buffer with
      | (rc, buffer, local_type) =>
        if rc ≠ PMIX_SUCCESS then ⟨rc, some buffer, some dst, some 0⟩
        else if PMIX_INT32 ≠ local_type then
          ⟨PMIX_ERR_UNPACK_FAILURE, some buffer, some dst, some 0⟩
        else count_and_values buffer
    else count_and_values buffer
  | buffer, dst, num_vals, _ => ⟨PMIX_ERR_BAD_PARAM, buffer, dst, num_vals⟩

/-! ## The network-order encoding of the symmetric encoder -/

/-- Encoding of `x` in `w` bytes, most significant byte first (network byte order), as
the spec describes the wire form of a fixed-width integer. -/
def hton : Nat → Nat → List uint8_t
  | 0, _ => []
  | w + 1, x => hton w (x / 256) ++ [Fin.ofNat (x % 256)]

/-- Encoding of a run of fixed-width integers: the encodings of the elements, one after
the other. -/
def pack_ints (w : Nat) : List Nat → List uint8_t
  | [] => []
  | x :: xs => hton w x ++ pack_ints w xs

/-! ## The common shape of the wide decoders -/

/-- The common shape of the 16, 32 and 64 bit decoders. -/
def unpack_fixed (w : Nat) (conv : List uint8_t → Nat) : pmix_bfrop_unpack_fn_t (Nat → Nat) :=
  fun buffer dest num_vals _type =>
    if pmix_bfrop_too_small buffer (size_mul (to_size_t num_vals) w) then
      ⟨PMIX_ERR_UNPACK_READ_PAST_END_OF_BUFFER, buffer, dest, num_vals⟩
    else
      ⟨PMIX_SUCCESS, (unpack_loop w conv num_vals.toNat 0 buffer dest).1,
        (unpack_loop w conv num_vals.toNat 0 buffer dest).2, num_vals⟩

/-! ## Sample inputs -/

/-- A non-described buffer holding the eight bytes `00 05 00 07 00 00 01 02`, cursor at
the start. -/
def sample_buffer : pmix_buffer_t :=
  ⟨PMIX_BFROP_BUFFER_NON_DESC, [0, 5, 0, 7, 0, 0, 1, 2], 8, 0, 8, 8⟩

/-- A non-described buffer whose used region is the four bytes `00 05 00 07`. -/
def sample_int16_buffer : pmix_buffer_t :=
  ⟨PMIX_BFROP_BUFFER_NON_DESC, [0, 5, 0, 7], 4, 0, 4, 4⟩

/-- A registry with one entry: the int32 decoder under the int32 tag. -/
def int32_registry : pmix_data_type_t → Option (pmix_bfrop_type_info_t (Nat → Nat)) :=
  fun t => if t = PMIX_INT32 then some ⟨pmix_bfrop_unpack_int32⟩ else none

/-- A non-described batch: the count 5 followed by the int32 values 1, 2, 3, 4, 5. -/
def sample_batch : pmix_buffer_t :=
  ⟨PMIX_BFROP_BUFFER_NON_DESC,
    [0, 0, 0, 5, 0, 0, 0, 1, 0, 0, 0, 2, 0, 0, 0, 3, 0, 0, 0, 4, 0, 0, 0, 5], 24, 0, 24, 24⟩

/-- A non-described batch that is cut short: the count 2 followed by one int32 value. -/
def sample_short_batch : pmix_buffer_t :=
  ⟨PMIX_BFROP_BUFFER_NON_DESC, [0, 0, 0, 2, 0, 0, 0, 1], 8, 0, 8, 8⟩

/-- A self-describing buffer that starts with the inline tag of a string, followed by the
length 2 and the bytes `68 69`. -/
def sample_described_string : pmix_buffer_t :=
  ⟨PMIX_BFROP_BUFFER_FULLY_DESC, [0, 0, 0, 3, 0, 0, 0, 2, 104, 105], 10, 0, 10, 10⟩

/-- A self-describing buffer that starts with the inline tag of an int32, followed by the
value 7. -/
def sample_described_int32 : pmix_buffer_t :=
  ⟨PMIX_BFROP_BUFFER_FULLY_DESC, [0, 0, 0, 9, 0, 0, 0, 7], 8, 0, 8, 8⟩

/-! ## Strings and the allocator -/

/-- A `char *` cell: `none` is the NULL pointer (the absent marker), `some bytes` is a
pointer to a region that holds `bytes`. -/
abbrev c_string := Option (List uint8_t)

/-- The C string that a `char *` cell designates: the bytes before the first NUL byte of
the region. The result `none` stands for the two cases in which reading the cell as a C
string is undefined in C: the NULL pointer, and a region that holds no NUL byte (the read
runs past the region). -/
def c_str : c_string → Option (List uint8_t)
  | none => none
  | some bytes =>
    if (0 : uint8_t) ∈ bytes then some (bytes.takeWhile (fun b => decide (b ≠ 0))) else none

/-- The region that `malloc(size)` hands out when it succeeds. Its contents are
indeterminate in C; they are taken as zero bytes here. -/
def malloc_region (size : Nat) : List uint8_t := List.replicate size 0

/-- A region seen as the destination of a byte copy. -/
def region_dest (region : List uint8_t) : Nat → uint8_t := fun i => region.getD i 0

/-- The first `size` bytes of a byte destination, as the contents of a region. -/
def region_of_dest (size : Nat) (dest : Nat → uint8_t) : List uint8_t :=
  (List.range size).map dest

/-- The element loop of `pmix_bfrop_unpack_string`, with `k` iterations still to run and
`i` the current index. The allocator is the parameter `malloc`: `malloc size` tells
whether `malloc(size)` returns a region (`true`) or NULL (`false`). -/
def unpack_string_loop (malloc : Nat → Bool) :
    Nat → Nat → pmix_buffer_t → (Nat → c_string) →
      pmix_status_t × pmix_buffer_t × (Nat → c_string)
  | 0, _, buffer, sdest => (PMIX_SUCCESS, buffer, sdest)
  | k + 1, i, buffer, sdest =>
    let r := pmix_bfrop_unpack_int32 buffer (fun _ => 0) 1 PMIX_INT32
    if r.rc ≠ PMIX_SUCCESS then (r.rc, r.buffer, sdest)
    else
      let len := to_int32 (r.dest 0)
      if len = 0 then
        unpack_string_loop malloc k (i + 1) r.buffer (Function.update sdest i none)
      else if malloc (to_size_t len) = false then
        (PMIX_ERR_OUT_OF_RESOURCE, r.buffer, Function.update sdest i none)
      else
        let c := pmix_bfrop_unpack_byte r.buffer (region_dest (malloc_region (to_size_t len)))
          len PMIX_BYTE
        if c.rc ≠ PMIX_SUCCESS then
          (c.rc, c.buffer, Function.update sdest i (some (malloc_region (to_size_t len))))
        else
          unpack_string_loop malloc k (i + 1) c.buffer
            (Function.update sdest i (some (region_of_dest (to_size_t len) c.dest)))

/-- Decoder `pmix_bfrop_unpack_string` (unpack.c, 381-406). -/
def pmix_bfrop_unpack_string (malloc : Nat → Bool) : pmix_bfrop_unpack_fn_t (Nat → c_string) :=
  fun buffer dest num_vals _type =>
    let r := unpack_string_loop malloc num_vals.toNat 0 buffer dest
    ⟨r.1, r.2.1, r.2.2, num_vals⟩

/-- An allocator that never fails. -/
def malloc_always : Nat → Bool := fun _ => true

/-- A non-described buffer holding three strings: `hi` (length 2), the absent string
(length 0) and `abc` (length 3). -/
def sample_strings : pmix_buffer_t :=
  ⟨PMIX_BFROP_BUFFER_NON_DESC,
    [0, 0, 0, 2, 104, 105, 0, 0, 0, 0, 0, 0, 0, 3, 97, 98, 99], 17, 0, 17, 17⟩

/-- A non-described buffer holding the string `hi` and then a string that announces
five bytes and holds two. -/
def sample_strings_cut : pmix_buffer_t :=
  ⟨PMIX_BFROP_BUFFER_NON_DESC,
    [0, 0, 0, 2, 104, 105, 0, 0, 0, 5, 97, 98], 12, 0, 12, 12⟩

/-! ## Float and double -/

/-- The element loop of `pmix_bfrop_unpack_float` and `pmix_bfrop_unpack_double`: one
string is decoded into the local `convert` and parsed (`strtof`, `strtod`) into slot
`i`; `k` iterations are still to run. The floating-point type `F` and the text parser
are parameters. The parser is handed the cell `convert` as the string decoder left it:
the NULL pointer after a wire length of 0, else the region of exactly the wire length.
In C the parser reads a C string, so the call is defined only when `c_str` of the cell
is present; on NULL or on a region without a NUL byte the call at unpack.c 428 and 455
is undefined, and the value and the success that the loop shows there are not
behaviour of the program. -/
def unpack_text_loop {F : Type} (malloc : Nat → Bool) (parse : c_string → F) :
    Nat → Nat → pmix_buffer_t → (Nat → F) → pmix_status_t × pmix_buffer_t × (Nat → F)
  | 0, _, buffer, desttmp => (PMIX_SUCCESS, buffer, desttmp)
  | k + 1, i, buffer, desttmp =>
    let s := pmix_bfrop_unpack_string malloc buffer (fun _ => none) 1 PMIX_STRING
    if s.rc ≠ PMIX_SUCCESS then (s.rc, s.buffer, desttmp)
    else
      unpack_text_loop malloc parse k (i + 1) s.buffer
        (Function.update desttmp i (parse (s.dest 0)))

/-- Decoder `pmix_bfrop_unpack_float` (unpack.c, 408-433); `sizeof(float)` is 4. -/
def pmix_bfrop_unpack_float {F : Type} (malloc : Nat → Bool) (strtof : c_string → F) :
    pmix_bfrop_unpack_fn_t (Nat → F) :=
  fun buffer dest num_vals _type =>
    if pmix_bfrop_too_small buffer (size_mul (to_size_t num_vals) 4) then
      ⟨PMIX_ERR_UNPACK_READ_PAST_END_OF_BUFFER, buffer, dest, num_vals⟩
    else
      let r := unpack_text_loop malloc strtof num_vals.toNat 0 buffer dest
      ⟨r.1, r.2.1, r.2.2, num_vals⟩

/-- Decoder `pmix_bfrop_unpack_double` (unpack.c, 435-460); `sizeof(double)` is 8. -/
def pmix_bfrop_unpack_double {F : Type} (malloc : Nat → Bool) (strtod : c_string → F) :
    pmix_bfrop_unpack_fn_t (Nat → F) :=
  fun buffer dest num_vals _type =>
    if pmix_bfrop_too_small buffer (size_mul (to_size_t num_vals) 8) then
      ⟨PMIX_ERR_UNPACK_READ_PAST_END_OF_BUFFER, buffer, dest, num_vals⟩
    else
      let r := unpack_text_loop malloc strtod num_vals.toNat 0 buffer dest
      ⟨r.1, r.2.1, r.2.2, num_vals⟩

/-- What the spec sets float and double against: `N` successive decodes of one string
each, from the same starting cursor, stopping at the first failure. The result is the
status, the buffer, and the strings decoded, in order. -/
def successive_string_decodes (malloc : Nat → Bool) :
    Nat → pmix_buffer_t → pmix_status_t × pmix_buffer_t × List c_string
  | 0, buffer => (PMIX_SUCCESS, buffer, [])
  | k + 1, buffer =>
    let s := pmix_bfrop_unpack_string malloc buffer (fun _ => none) 1 PMIX_STRING
    if s.rc ≠ PMIX_SUCCESS then (s.rc, s.buffer, [])
    else
      let r := successive_string_decodes malloc k s.buffer
      (r.1, r.2.1, s.dest 0 :: r.2.2)

/-- A stand-in for the text parser on the samples: the number of bytes of the text. -/
def sample_parse : c_string → Nat := fun s => (s.map List.length).getD 0

/-- A non-described buffer holding one string, the one-character text `1`. -/
def sample_short_text : pmix_buffer_t :=
  ⟨PMIX_BFROP_BUFFER_NON_DESC, [0, 0, 0, 1, 49], 5, 0, 5, 5⟩

/-- A stand-in for a text parser that reads a C string: the number of bytes of the text
before the NUL byte. -/
def sample_strtod : c_string → Nat := fun s => ((c_str s).map List.length).getD 0

/-- A non-described buffer holding the two NUL-terminated texts `1.5` and `2.25`. -/
def sample_texts_terminated : pmix_buffer_t :=
  ⟨PMIX_BFROP_BUFFER_NON_DESC,
    [0, 0, 0, 4, 49, 46, 53, 0, 0, 0, 0, 5, 50, 46, 50, 53, 0], 17, 0, 17, 17⟩

/-! ## Byte objects -/

/-- The record `pmix_byte_object_t`: a size and a pointer to the bytes. -/
structure pmix_byte_object_t where
  size : Int
  bytes : c_string
  deriving DecidableEq, Repr

/-- The size of a `pmix_byte_object_t` on a 64-bit host: an int32, padding and a
pointer. -/
def sizeof_pmix_byte_object_t : Nat := 16

/-- The element loop of `pmix_bfrop_unpack_byte_object`, with `k` iterations still to run
and `i` the current index. A slot holds `none` for NULL and `some object` for a pointer
to an object; the fields of a newly allocated object are indeterminate in C and are
taken as size 0 and NULL here. -/
def unpack_byte_object_loop (malloc : Nat → Bool) :
    Nat → Nat → pmix_buffer_t → (Nat → Option pmix_byte_object_t) →
      pmix_status_t × pmix_buffer_t × (Nat → Option pmix_byte_object_t)
  | 0, _, buffer, dbyteptr => (PMIX_SUCCESS, buffer, dbyteptr)
  | k + 1, i, buffer, dbyteptr =>
    if malloc sizeof_pmix_byte_object_t = false then
      (PMIX_ERR_OUT_OF_RESOURCE, buffer, Function.update dbyteptr i none)
    else
      let r := pmix_bfrop_unpack_int32 buffer (fun _ => 0) 1 PMIX_INT32
      if r.rc ≠ PMIX_SUCCESS then
        (r.rc, r.buffer, Function.update dbyteptr i (some ⟨0, none⟩))
      else
        let size := to_int32 (r.dest 0)
        if 0 < size then
          if malloc (to_size_t size) = false then
            (PMIX_ERR_OUT_OF_RESOURCE, r.buffer,
              Function.update dbyteptr i (some ⟨size, none⟩))
          else
            let c := pmix_bfrop_unpack_byte r.buffer
              (region_dest (malloc_region (to_size_t size))) size PMIX_BYTE
            if c.rc ≠ PMIX_SUCCESS then
              (c.rc, c.buffer, Function.update dbyteptr i
                (some ⟨c.num_vals, some (malloc_region (to_size_t size))⟩))
            else
              unpack_byte_object_loop malloc k (i + 1) c.buffer
                (Function.update dbyteptr i
                  (some ⟨c.num_vals, some (region_of_dest (to_size_t size) c.dest)⟩))
        else
          unpack_byte_object_loop malloc k (i + 1) r.buffer
            (Function.update dbyteptr i (some ⟨size, none⟩))

/-- Decoder `pmix_bfrop_unpack_byte_object` (unpack.c, 535-571). -/
def pmix_bfrop_unpack_byte_object (malloc : Nat → Bool) :
    pmix_bfrop_unpack_fn_t (Nat → Option pmix_byte_object_t) :=
  fun buffer dest num _type =>
    let r := unpack_byte_object_loop malloc num.toNat 0 buffer dest
    ⟨r.1, r.2.1, r.2.2, num⟩

/-- A non-described buffer holding two byte objects: one of size 0 and one with the
three bytes `01 02 03`. -/
def sample_byte_objects : pmix_buffer_t :=
  ⟨PMIX_BFROP_BUFFER_NON_DESC, [0, 0, 0, 0, 0, 0, 0, 3, 1, 2, 3], 11, 0, 11, 11⟩

/-! ## The generic scalar decoder for bool -/

/-- Modelled from the spec: `pmix_bfrop_peek_type` is declared in `internal.h` and defined
outside the sources at hand. It determines the type tag that comes next on the wire
without consuming it: the status and the tag are those of reading the tag, and the
buffer is left as it is. -/
def pmix_bfrop_peek_type (buffer : pmix_buffer_t) : pmix_status_t × pmix_data_type_t :=
  ((pmix_bfrop_get_data_type buffer).1, (pmix_bfrop_get_data_type buffer).2.2)

/-- Decoder `pmix_bfrop_unpack_bool` (unpack.c, 139-166). The host's wire type for bool,
`BFROP_TYPE_BOOL`, and the slow path `UNPACK_SIZE_MISMATCH` (a macro of `internal.h`
that decodes with the wire-indicated width and converts) are defined outside the
sources at hand and are parameters. -/
def pmix_bfrop_unpack_bool {δ : Type}
    (pmix_bfrop_types : pmix_data_type_t → Option (pmix_bfrop_type_info_t δ))
    (BFROP_TYPE_BOOL : pmix_data_type_t)
    (UNPACK_SIZE_MISMATCH : pmix_data_type_t → pmix_buffer_t → δ → Int →
      Outcome pmix_buffer_t δ Int) :
    pmix_bfrop_unpack_fn_t δ :=
  fun buffer dest num_vals _type =>
    let unpack_remote : pmix_buffer_t → pmix_data_type_t → Outcome pmix_buffer_t δ Int :=
      fun buffer remote_type =>
        if remote_type = BFROP_TYPE_BOOL then
          pmix_bfrop_unpack_buffer pmix_bfrop_types buffer dest num_vals BFROP_TYPE_BOOL
        else UNPACK_SIZE_MISMATCH remote_type buffer dest num_vals
    if buffer.type = PMIX_BFROP_BUFFER_FULLY_DESC then
      match pmix_bfrop_peek_type buffer with
      | (ret, remote_type) =>
        if ret ≠ PMIX_SUCCESS then ⟨ret, buffer, dest, num_vals⟩
        else unpack_remote buffer remote_type
    else
      match pmix_bfrop_get_data_type buffer with
      | (ret, buffer, remote_type) =>
        if ret ≠ PMIX_SUCCESS then ⟨ret, buffer, dest, num_vals⟩
        else unpack_remote buffer remote_type

/-- Modelled from the spec: the macro `UNPACK_SIZE_MISMATCH` is defined in `internal.h`,
outside the sources at hand. The spec has the slow path of a generic scalar decoder
decode with the wire-indicated width and then narrow or widen into the local
representation, failing if the value cannot be represented without loss. The elements
are decoded for the wire type through generic dispatch, as the fast path decodes them
for the host type, into the temporary `tmpbuf`; a failed decode gives its status and
leaves the destination as it was; after a successful decode `narrow` stores the
converted elements in the destination and gives the status of the conversion. The
temporary and the conversion are parameters. -/
def UNPACK_SIZE_MISMATCH {δ : Type}
    (pmix_bfrop_types : pmix_data_type_t → Option (pmix_bfrop_type_info_t δ))
    (tmpbuf : δ) (narrow : pmix_data_type_t → δ → δ → Int → pmix_status_t × δ) :
    pmix_data_type_t → pmix_buffer_t → δ → Int → Outcome pmix_buffer_t δ Int :=
  fun remote_type buffer dest num_vals =>
    let r := pmix_bfrop_unpack_buffer pmix_bfrop_types buffer tmpbuf num_vals remote_type
    if r.rc ≠ PMIX_SUCCESS then ⟨r.rc, r.buffer, dest, r.num_vals⟩
    else
      let c := narrow remote_type r.dest dest r.num_vals
      ⟨c.1, r.buffer, c.2, r.num_vals⟩

/-! ## Values -/

/-- Decoder `pmix_bfrop_unpack_data_type` (unpack.c, 525-530). -/
def pmix_bfrop_unpack_data_type {δ : Type}
    (pmix_bfrop_types : pmix_data_type_t → Option (pmix_bfrop_type_info_t δ)) :
    pmix_bfrop_unpack_fn_t δ :=
  fun buffer dest num_vals _type =>
    pmix_bfrop_unpack_buffer pmix_bfrop_types buffer dest num_vals PMIX_DATA_TYPE_T

/-- The members of the union `data` of a `pmix_value_t`, by the names `unpack.c` uses. -/
inductive pmix_value_member where
  | flag
  | byte
  | string
  | size
  | pid
  | integer
  | int8
  | int16
  | int32
  | int64
  | uint
  | uint8
  | uint16
  | uint32
  | uint64
  | bo
  | fval
  | dval
  | tv
  | fval_array
  | dval_array
  | string_array
  | flag_array
  | size_array
  | byte_array
  | integer_array
  | int8_array
  | int16_array
  | int32_array
  | int64_array
  | uint_array
  | uint8_array
  | uint16_array
  | uint32_array
  | uint64_array
  | pid_array
  | tv_array
  deriving DecidableEq, Repr

/-- The union `data` of a `pmix_value_t`, as the member that was written last:
`unset` after construction; a scalar member with its cell as the registered decoder
left it; the byte object `bo`; or an array member with the int32 value of its `size`
field. The `data` pointer of an array member is never assigned in `unpack.c`, so an
array member holds no element storage. -/
inductive pmix_value_data (δ : Type) where
  | unset
  | scalar (member : pmix_value_member) (cell : δ)
  | bo (size : Int) (bytes : c_string)
  | array (member : pmix_value_member) (size : Int)

/-- The member of the union that holds the payload, if any. -/
def pmix_value_data.member {δ : Type} : pmix_value_data δ → Option pmix_value_member
  | .unset => none
  | .scalar member _ => some member
  | .bo _ _ => some pmix_value_member.bo
  | .array member _ => some member

/-- The record `pmix_value_t`: the key, the cell of the type tag as the registered
decoder left it, and the union. -/
structure pmix_value_t (δ : Type) where
  key : c_string
  type : δ
  data : pmix_value_data δ

/-- Modelled from the spec: what `unpack.c` needs of the object system and of the typed
cells it hands to the registered decoders as `void *`, all declared outside the sources
at hand. `obj_new` tells whether `OBJ_NEW(pmix_value_t)` yields an object (`false`:
NULL); `cell` is a cell of a new object; `load_type` and `load_int32` read a type tag
and an int32 from a cell. -/
structure pmix_value_cells (δ : Type) where
  obj_new : Bool
  cell : δ
  load_type : δ → pmix_data_type_t
  load_int32 : δ → Int

/-- The arms of the `switch (ptr[i]->type)` of `pmix_bfrop_unpack_value`: a scalar arm
`unpack_buffer(buffer, &data.member, &m, type)`, the byte object arm, or an array arm
`unpack_buffer(buffer, &data.member.size, &m, PMIX_INT32)` followed by
`unpack_buffer(buffer, data.member.data, &data.member.size, type)`. -/
inductive pmix_value_arm where
  | scalar (member : pmix_value_member) (type : pmix_data_type_t)
  | byte_object
  | array (member : pmix_value_member) (type : pmix_data_type_t)
  deriving DecidableEq, Repr

/-- The `switch (ptr[i]->type)` of `pmix_bfrop_unpack_value` (unpack.c, 603-1003), arm by
arm in source order; `none` is the `default` arm. -/
def pmix_value_switch (type : pmix_data_type_t) : Option pmix_value_arm :=
  if type = PMIX_BOOL then some (.scalar .flag PMIX_BOOL)
  else if type = PMIX_BYTE then some (.scalar .byte PMIX_BYTE)
  else if type = PMIX_STRING then some (.scalar .string PMIX_STRING)
  else if type = PMIX_SIZE then some (.scalar .size PMIX_SIZE)
  else if type = PMIX_PID then some (.scalar .pid PMIX_PID)
  else if type = PMIX_INT then some (.scalar .integer PMIX_INT)
  else if type = PMIX_INT8 then some (.scalar .int8 PMIX_INT8)
  else if type = PMIX_INT16 then some (.scalar .int16 PMIX_INT16)
  else if type = PMIX_INT32 then some (.scalar .int32 PMIX_INT32)
  else if type = PMIX_INT64 then some (.scalar .int64 PMIX_INT64)
  else if type = PMIX_UINT then some (.scalar .uint PMIX_UINT)
  else if type = PMIX_UINT8 then some (.scalar .uint8 PMIX_UINT8)
  else if type = PMIX_UINT16 then some (.scalar .uint16 PMIX_UINT16)
  else if type = PMIX_UINT32 then some (.scalar .uint32 PMIX_UINT32)
  else if type = PMIX_UINT64 then some (.scalar .uint64 PMIX_UINT64)
  else if type = PMIX_BYTE_OBJECT then some (.byte_object)
  else if type = PMIX_FLOAT then some (.scalar .fval PMIX_FLOAT)
  else if type = PMIX_DOUBLE then some (.scalar .dval PMIX_DOUBLE)
  else if type = PMIX_TIMEVAL then some (.scalar .tv PMIX_TIMEVAL)
  else if type = PMIX_FLOAT_ARRAY then some (.array .fval_array PMIX_FLOAT)
  else if type = PMIX_DOUBLE_ARRAY then some (.array .dval_array PMIX_DOUBLE)
  else if type = PMIX_STRING_ARRAY then some (.array .string_array PMIX_STRING)
  else if type = PMIX_BOOL_ARRAY then some (.array .flag_array PMIX_BOOL)
  else if type = PMIX_SIZE_ARRAY then some (.array .size_array PMIX_SIZE)
  else if type = PMIX_BYTE_ARRAY then some (.array .byte_array PMIX_BYTE)
  else if type = PMIX_INT_ARRAY then some (.array .integer_array PMIX_INT)
  else if type = PMIX_INT8_ARRAY then some (.array .int8_array PMIX_INT8)
  else if type = PMIX_INT16_ARRAY then some (.array .int16_array PMIX_INT16)
  else if type = PMIX_INT32_ARRAY then some (.array .int32_array PMIX_INT32)
  else if type = PMIX_INT64_ARRAY then some (.array .int64_array PMIX_INT64)
  else if type = PMIX_UINT_ARRAY then some (.array .uint_array PMIX_UINT)
  else if type = PMIX_UINT8_ARRAY then some (.array .uint8_array PMIX_UINT8)
  else if type = PMIX_UINT16_ARRAY then some (.array .uint16_array PMIX_UINT16)
  else if type = PMIX_UINT32_ARRAY then some (.array .uint32_array PMIX_UINT32)
  else if type = PMIX_UINT64_ARRAY then some (.array .uint64_array PMIX_UINT64)
  else if type = PMIX_PID_ARRAY then some (.array .pid_array PMIX_PID)
  else if type = PMIX_TIMEVAL_ARRAY then some (.array .tv_array PMIX_TIMEVAL)
  else none

/-- One arm of the switch of `pmix_bfrop_unpack_value`, run on the buffer after the type
tag: the status, the buffer and the union as the arm leaves them. In an array arm the
element decoder is handed the `data` pointer of the new object, which `unpack.c` never
allocates: the status and the buffer are those of the registered decoder run on a
scratch cell, nothing it stores becomes part of the Value, and in C every store
through that pointer is undefined (`unpack_value_arm_unallocated`). -/
def unpack_value_arm {δ : Type}
    (pmix_bfrop_types : pmix_data_type_t → Option (pmix_bfrop_type_info_t δ))
    (cells : pmix_value_cells δ) (malloc : Nat → Bool) (buffer : pmix_buffer_t) :
    pmix_value_arm → pmix_status_t × pmix_buffer_t × pmix_value_data δ
  | .scalar member type =>
    let v := pmix_bfrop_unpack_buffer pmix_bfrop_types buffer cells.cell 1 type
    (v.rc, v.buffer, .scalar member v.dest)
  | .byte_object =>
    let r := pmix_bfrop_unpack_int32 buffer (fun _ => 0) 1 PMIX_INT32
    if r.rc ≠ PMIX_SUCCESS then (r.rc, r.buffer, .bo 0 none)
    else
      let size := to_int32 (r.dest 0)
      if 0 < size then
        if malloc (to_size_t size) = false then
          (PMIX_ERR_OUT_OF_RESOURCE, r.buffer, .bo size none)
        else
          let c := pmix_bfrop_unpack_byte r.buffer
            (region_dest (malloc_region (to_size_t size))) size PMIX_BYTE
          if c.rc ≠ PMIX_SUCCESS then
            (c.rc, c.buffer, .bo c.num_vals (some (malloc_region (to_size_t size))))
          else
            (PMIX_SUCCESS, c.buffer,
              .bo c.num_vals (some (region_of_dest (to_size_t size) c.dest)))
      else (PMIX_SUCCESS, r.buffer, .bo size none)
  | .array member type =>
    let s := pmix_bfrop_unpack_buffer pmix_bfrop_types buffer cells.cell 1 PMIX_INT32
    if s.rc ≠ PMIX_SUCCESS then
      (s.rc, s.buffer, .array member (cells.load_int32 s.dest))
    else
      let v := pmix_bfrop_unpack_buffer pmix_bfrop_types s.buffer cells.cell
        (cells.load_int32 s.dest) type
      (v.rc, v.buffer, .array member v.num_vals)

/-- Whether an arm hands the element decoder a positive count together with a pointer
that `unpack.c` never allocates: an array arm whose count decodes to a positive value.
Every element the decoder then stores goes through that pointer, which is undefined in
C. The scalar arms and the byte object arm store into the new object or into storage
they allocate. -/
def unpack_value_arm_unallocated {δ : Type}
    (pmix_bfrop_types : pmix_data_type_t → Option (pmix_bfrop_type_info_t δ))
    (cells : pmix_value_cells δ) (buffer : pmix_buffer_t) : pmix_value_arm → Bool
  | .array _ _ =>
    let s := pmix_bfrop_unpack_buffer pmix_bfrop_types buffer cells.cell 1 PMIX_INT32
    decide (s.rc = PMIX_SUCCESS ∧ 0 < cells.load_int32 s.dest)
  | _ => false

/-- The body of the element loop of `pmix_bfrop_unpack_value` (unpack.c, 587-1003): the
status, the buffer, and the pointer left in `ptr[i]` (`none` for NULL, `some value` for
a pointer to a value). -/
def unpack_value_element {δ : Type}
    (pmix_bfrop_types : pmix_data_type_t → Option (pmix_bfrop_type_info_t δ))
    (cells : pmix_value_cells δ) (malloc : Nat → Bool) (buffer : pmix_buffer_t) :
    pmix_status_t × pmix_buffer_t × Option (pmix_value_t δ) :=
  if cells.obj_new = false then (PMIX_ERR_OUT_OF_RESOURCE, buffer, none)
  else
    let ks := pmix_bfrop_unpack_string malloc buffer (fun _ => none) 1 PMIX_STRING
    if ks.rc ≠ PMIX_SUCCESS then
      (ks.rc, ks.buffer, some ⟨ks.dest 0, cells.cell, .unset⟩)
    else
      let ts := pmix_bfrop_unpack_data_type pmix_bfrop_types ks.buffer cells.cell 1
        PMIX_DATA_TYPE
      if ts.rc ≠ PMIX_SUCCESS then
        (ts.rc, ts.buffer, some ⟨ks.dest 0, ts.dest, .unset⟩)
      else
        match pmix_value_switch (cells.load_type ts.dest) with
        | none => (PMIX_ERROR, ts.buffer, some ⟨ks.dest 0, ts.dest, .unset⟩)
        | some arm =>
          let a := unpack_value_arm pmix_bfrop_types cells malloc ts.buffer arm
          (a.1, a.2.1, some ⟨ks.dest 0, ts.dest, a.2.2⟩)

/-- The element loop of `pmix_bfrop_unpack_value`, with `k` iterations still to run and
`i` the current index: a failing element returns at once. -/
def unpack_value_loop {δ : Type}
    (pmix_bfrop_types : pmix_data_type_t → Option (pmix_bfrop_type_info_t δ))
    (cells : pmix_value_cells δ) (malloc : Nat → Bool) :
    Nat → Nat → pmix_buffer_t → (Nat → Option (pmix_value_t δ)) →
      pmix_status_t × pmix_buffer_t × (Nat → Option (pmix_value_t δ))
  | 0, _, buffer, ptr => (PMIX_SUCCESS, buffer, ptr)
  | k + 1, i, buffer, ptr =>
    let e := unpack_value_element pmix_bfrop_types cells malloc buffer
    if e.1 ≠ PMIX_SUCCESS then (e.1, e.2.1, Function.update ptr i e.2.2)
    else
      unpack_value_loop pmix_bfrop_types cells malloc k (i + 1) e.2.1
        (Function.update ptr i e.2.2)

/-- Decoder `pmix_bfrop_unpack_value` (unpack.c, 576-1007). -/
def pmix_bfrop_unpack_value {δ : Type}
    (pmix_bfrop_types : pmix_data_type_t → Option (pmix_bfrop_type_info_t δ))
    (cells : pmix_value_cells δ) (malloc : Nat → Bool) :
    pmix_bfrop_unpack_fn_t (Nat → Option (pmix_value_t δ)) :=
  fun buffer dest num_vals _type =>
    let r := unpack_value_loop pmix_bfrop_types cells malloc num_vals.toNat 0 buffer dest
    ⟨r.1, r.2.1, r.2.2, num_vals⟩

/-- The variant that each type tag of a Value designates, as the spec names them
(BOOL -> flag, INT32 -> int32, BYTE_OBJECT -> bo, INT32_ARRAY -> int32_array, and so on
for every supported tag). -/
def designated_variants : List (pmix_data_type_t × pmix_value_member) :=
  [(PMIX_BOOL, .flag), (PMIX_BYTE, .byte), (PMIX_STRING, .string), (PMIX_SIZE, .size),
    (PMIX_PID, .pid), (PMIX_INT, .integer), (PMIX_INT8, .int8), (PMIX_INT16, .int16),
    (PMIX_INT32, .int32), (PMIX_INT64, .int64), (PMIX_UINT, .uint), (PMIX_UINT8, .uint8),
    (PMIX_UINT16, .uint16), (PMIX_UINT32, .uint32), (PMIX_UINT64, .uint64),
    (PMIX_BYTE_OBJECT, .bo), (PMIX_FLOAT, .fval), (PMIX_DOUBLE, .dval),
    (PMIX_TIMEVAL, .tv), (PMIX_FLOAT_ARRAY, .fval_array),
    (PMIX_DOUBLE_ARRAY, .dval_array), (PMIX_STRING_ARRAY, .string_array),
    (PMIX_BOOL_ARRAY, .flag_array), (PMIX_SIZE_ARRAY, .size_array),
    (PMIX_BYTE_ARRAY, .byte_array), (PMIX_INT_ARRAY, .integer_array),
    (PMIX_INT8_ARRAY, .int8_array), (PMIX_INT16_ARRAY, .int16_array),
    (PMIX_INT32_ARRAY, .int32_array), (PMIX_INT64_ARRAY, .int64_array),
    (PMIX_UINT_ARRAY, .uint_array), (PMIX_UINT8_ARRAY, .uint8_array),
    (PMIX_UINT16_ARRAY, .uint16_array), (PMIX_UINT32_ARRAY, .uint32_array),
    (PMIX_UINT64_ARRAY, .uint64_array), (PMIX_PID_ARRAY, .pid_array),
    (PMIX_TIMEVAL_ARRAY, .tv_array)]

/-- The variant that a type tag designates, `none` for a tag that is not one of the
supported Value variants. -/
def designated_variant (type : pmix_data_type_t) : Option pmix_value_member :=
  (designated_variants.find? (fun p => p.1 = type)).map (fun p => p.2)

/-- The union member that an arm of the switch writes. -/
def pmix_value_arm.member : pmix_value_arm → pmix_value_member
  | .scalar member _ => member
  | .byte_object => .bo
  | .array member _ => member

/-! ## Sample inputs for values -/

/-- Cells for the samples: numeric slots, all zero in a new object; a type tag and an
int32 are read from slot 0. -/
def sample_cells : pmix_value_cells (Nat → Nat) :=
  ⟨true, fun _ => 0, fun d => d 0, fun d => to_int32 (d 0)⟩

/-- The byte decoder with numeric destination slots, for the sample registry: one byte
per element. -/
def sample_unpack_uint8 : pmix_bfrop_unpack_fn_t (Nat → Nat) := unpack_fixed 1 ntoh

/-- A registry of the fixed-width decoders for the samples. -/
def sample_fixed_registry : pmix_data_type_t → Option (pmix_bfrop_type_info_t (Nat → Nat)) :=
  fun t =>
    if t = PMIX_INT32 ∨ t = PMIX_UINT32 then some ⟨pmix_bfrop_unpack_int32⟩
    else if t = PMIX_INT16 ∨ t = PMIX_UINT16 then some ⟨pmix_bfrop_unpack_int16⟩
    else if t = PMIX_INT64 ∨ t = PMIX_UINT64 then some ⟨pmix_bfrop_unpack_int64⟩
    else if t = PMIX_INT8 ∨ t = PMIX_UINT8 ∨ t = PMIX_BYTE then some ⟨sample_unpack_uint8⟩
    else none

/-- A stand-in for the slow path of the generic scalar decoders on the samples. -/
def sample_size_mismatch : pmix_data_type_t → pmix_buffer_t → (Nat → Nat) → Int →
    Outcome pmix_buffer_t (Nat → Nat) Int :=
  fun _ buffer dest num_vals => ⟨PMIX_ERR_UNPACK_FAILURE, buffer, dest, num_vals⟩

/-- The sample registry: the fixed-width decoders and the bool decoder, whose wire type
on the host is the 8-bit unsigned integer. -/
def sample_registry : pmix_data_type_t → Option (pmix_bfrop_type_info_t (Nat → Nat)) :=
  fun t =>
    if t = PMIX_BOOL then
      some ⟨pmix_bfrop_unpack_bool sample_fixed_registry PMIX_UINT8 sample_size_mismatch⟩
    else sample_fixed_registry t

/-- A stand-in for the conversion of the slow path on the samples: the decoded elements
are stored as they are. -/
def sample_narrow : pmix_data_type_t → (Nat → Nat) → (Nat → Nat) → Int →
    pmix_status_t × (Nat → Nat) :=
  fun _ tmpbuf dest num_vals =>
    (PMIX_SUCCESS, fun i => if (i : Int) < num_vals then tmpbuf i else dest i)

/-- The sample registry with the slow path of the bool decoder in place: the fixed-width
decoders and the bool decoder, whose wire type on the host is the 8-bit unsigned
integer and which decodes another wire type through the slow path. -/
def sample_registry_slow : pmix_data_type_t → Option (pmix_bfrop_type_info_t (Nat → Nat)) :=
  fun t =>
    if t = PMIX_BOOL then
      some ⟨pmix_bfrop_unpack_bool sample_fixed_registry PMIX_UINT8
        (UNPACK_SIZE_MISMATCH sample_fixed_registry (fun _ => 0) sample_narrow)⟩
    else sample_fixed_registry t

/-- A non-described buffer holding a Value with an absent key and the tag of bool,
followed by the wire type of the bool, here the 32-bit integer, and two of the four
bytes of the value. -/
def sample_value_bool_wide_cut : pmix_buffer_t :=
  ⟨PMIX_BFROP_BUFFER_NON_DESC, [0, 0, 0, 0, 0, 0, 0, 1, 0, 0, 0, 9, 0, 0], 14, 0, 14, 14⟩

/-- A non-described buffer holding a Value with an absent key and the type tag 99, which
is not a supported variant. -/
def sample_value_unsupported : pmix_buffer_t :=
  ⟨PMIX_BFROP_BUFFER_NON_DESC, [0, 0, 0, 0, 0, 0, 0, 99], 8, 0, 8, 8⟩

/-- A self-describing buffer that holds two bytes only, fewer than an inline tag. -/
def sample_described_short : pmix_buffer_t :=
  ⟨PMIX_BFROP_BUFFER_FULLY_DESC, [0, 0], 2, 0, 2, 2⟩

/-- A non-described buffer holding a Value with an absent key, the tag of the int32
scalar and the value 7. -/
def sample_value_int32 : pmix_buffer_t :=
  ⟨PMIX_BFROP_BUFFER_NON_DESC, [0, 0, 0, 0, 0, 0, 0, 9, 0, 0, 0, 7], 12, 0, 12, 12⟩

/-- A non-described buffer holding a Value with key `k`, the tag of the int32 array, the
count 2 and the elements 7 and 9. -/
def sample_value_int32_array : pmix_buffer_t :=
  ⟨PMIX_BFROP_BUFFER_NON_DESC,
    [0, 0, 0, 1, 107, 0, 0, 0, 39, 0, 0, 0, 2, 0, 0, 0, 7, 0, 0, 0, 9], 21, 0, 21, 21⟩

/-- A non-described buffer holding a Value with an absent key and the tag of the byte
object, followed by the size 0. -/
def sample_value_empty_bo : pmix_buffer_t :=
  ⟨PMIX_BFROP_BUFFER_NON_DESC, [0, 0, 0, 0, 0, 0, 0, 21, 0, 0, 0, 0], 12, 0, 12, 12⟩

/-- A non-described buffer holding a Value with an absent key and the tag of bool,
followed by the wire type of the bool (8-bit unsigned) and no value byte. -/
def sample_value_bool_cut : pmix_buffer_t :=
  ⟨PMIX_BFROP_BUFFER_NON_DESC, [0, 0, 0, 0, 0, 0, 0, 1, 0, 0, 0, 12], 12, 0, 12, 12⟩

/-- The homogeneous array variants of a Value as the spec lists them: the array tag, the
union member, and the type of the elements. -/
def array_variants : List (pmix_data_type_t × pmix_value_member × pmix_data_type_t) :=
  [(PMIX_FLOAT_ARRAY, .fval_array, PMIX_FLOAT),
    (PMIX_DOUBLE_ARRAY, .dval_array, PMIX_DOUBLE),
    (PMIX_STRING_ARRAY, .string_array, PMIX_STRING),
    (PMIX_BOOL_ARRAY, .flag_array, PMIX_BOOL), (PMIX_SIZE_ARRAY, .size_array, PMIX_SIZE),
    (PMIX_BYTE_ARRAY, .byte_array, PMIX_BYTE),
    (PMIX_INT_ARRAY, .integer_array, PMIX_INT),
    (PMIX_INT8_ARRAY, .int8_array, PMIX_INT8),
    (PMIX_INT16_ARRAY, .int16_array, PMIX_INT16),
    (PMIX_INT32_ARRAY, .int32_array, PMIX_INT32),
    (PMIX_INT64_ARRAY, .int64_array, PMIX_INT64),
    (PMIX_UINT_ARRAY, .uint_array, PMIX_UINT),
    (PMIX_UINT8_ARRAY, .uint8_array, PMIX_UINT8),
    (PMIX_UINT16_ARRAY, .uint16_array, PMIX_UINT16),
    (PMIX_UINT32_ARRAY, .uint32_array, PMIX_UINT32),
    (PMIX_UINT64_ARRAY, .uint64_array, PMIX_UINT64),
    (PMIX_PID_ARRAY, .pid_array, PMIX_PID),
    (PMIX_TIMEVAL_ARRAY, .tv_array, PMIX_TIMEVAL)]

/-! ## The generic scalar decoders for int, size_t and pid_t -/

/-- Decoder `pmix_bfrop_unpack_int` (unpack.c, 171-199). The host's wire type for int,
`BFROP_TYPE_INT`, and the slow path `UNPACK_SIZE_MISMATCH` (a macro of `internal.h`
that decodes with the wire-indicated width and converts) are defined outside the
sources at hand and are parameters. -/
def pmix_bfrop_unpack_int {δ : Type}
    (pmix_bfrop_types : pmix_data_type_t → Option (pmix_bfrop_type_info_t δ))
    (BFROP_TYPE_INT : pmix_data_type_t)
    (UNPACK_SIZE_MISMATCH : pmix_data_type_t → pmix_buffer_t → δ → Int →
      Outcome pmix_buffer_t δ Int) :
    pmix_bfrop_unpack_fn_t δ :=
  fun buffer dest num_vals _type =>
    let unpack_remote : pmix_buffer_t → pmix_data_type_t → Outcome pmix_buffer_t δ Int :=
      fun buffer remote_type =>
        if remote_type = BFROP_TYPE_INT then
          pmix_bfrop_unpack_buffer pmix_bfrop_types buffer dest num_vals BFROP_TYPE_INT
        else UNPACK_SIZE_MISMATCH remote_type buffer dest num_vals
    if buffer.type = PMIX_BFROP_BUFFER_FULLY_DESC then
      match pmix_bfrop_peek_type buffer with
      | (ret, remote_type) =>
        if ret ≠ PMIX_SUCCESS then ⟨ret, buffer, dest, num_vals⟩
        else unpack_remote buffer remote_type
    else
      match pmix_bfrop_get_data_type buffer with
      | (ret, buffer, remote_type) =>
        if ret ≠ PMIX_SUCCESS then ⟨ret, buffer, dest, num_vals⟩
        else unpack_remote buffer remote_type

/-- Decoder `pmix_bfrop_unpack_sizet` (unpack.c, 204-232). The host's wire type for
size_t, `BFROP_TYPE_SIZE_T`, and the slow path `UNPACK_SIZE_MISMATCH` are defined outside
the sources at hand and are parameters. -/
def pmix_bfrop_unpack_sizet {δ : Type}
    (pmix_bfrop_types : pmix_data_type_t → Option (pmix_bfrop_type_info_t δ))
    (BFROP_TYPE_SIZE_T : pmix_data_type_t)
    (UNPACK_SIZE_MISMATCH : pmix_data_type_t → pmix_buffer_t → δ → Int →
      Outcome pmix_buffer_t δ Int) :
    pmix_bfrop_unpack_fn_t δ :=
  fun buffer dest num_vals _type =>
    let unpack_remote : pmix_buffer_t → pmix_data_type_t → Outcome pmix_buffer_t δ Int :=
      fun buffer remote_type =>
        if remote_type = BFROP_TYPE_SIZE_T then
          pmix_bfrop_unpack_buffer pmix_bfrop_types buffer dest num_vals BFROP_TYPE_SIZE_T
        else UNPACK_SIZE_MISMATCH remote_type buffer dest num_vals
    if buffer.type = PMIX_BFROP_BUFFER_FULLY_DESC then
      match pmix_bfrop_peek_type buffer with
      | (ret, remote_type) =>
        if ret ≠ PMIX_SUCCESS then ⟨ret, buffer, dest, num_vals⟩
        else unpack_remote buffer remote_type
    else
      match pmix_bfrop_get_data_type buffer with
      | (ret, buffer, remote_type) =>
        if ret ≠ PMIX_SUCCESS then ⟨ret, buffer, dest, num_vals⟩
        else unpack_remote buffer remote_type

/-- Decoder `pmix_bfrop_unpack_pid` (unpack.c, 237-265). The host's wire type for pid_t,
`BFROP_TYPE_PID_T`, and the slow path `UNPACK_SIZE_MISMATCH` are defined outside the
sources at hand and are parameters. -/
def pmix_bfrop_unpack_pid {δ : Type}
    (pmix_bfrop_types : pmix_data_type_t → Option (pmix_bfrop_type_info_t δ))
    (BFROP_TYPE_PID_T : pmix_data_type_t)
    (UNPACK_SIZE_MISMATCH : pmix_data_type_t → pmix_buffer_t → δ → Int →
      Outcome pmix_buffer_t δ Int) :
    pmix_bfrop_unpack_fn_t δ :=
  fun buffer dest num_vals _type =>
    let unpack_remote : pmix_buffer_t → pmix_data_type_t → Outcome pmix_buffer_t δ Int :=
      fun buffer remote_type =>
        if remote_type = BFROP_TYPE_PID_T then
          pmix_bfrop_unpack_buffer pmix_bfrop_types buffer dest num_vals BFROP_TYPE_PID_T
        else UNPACK_SIZE_MISMATCH remote_type buffer dest num_vals
    if buffer.type = PMIX_BFROP_BUFFER_FULLY_DESC then
      match pmix_bfrop_peek_type buffer with
      | (ret, remote_type) =>
        if ret ≠ PMIX_SUCCESS then ⟨ret, buffer, dest, num_vals⟩
        else unpack_remote buffer remote_type
    else
      match pmix_bfrop_get_data_type buffer with
      | (ret, buffer, remote_type) =>
        if ret ≠ PMIX_SUCCESS then ⟨ret, buffer, dest, num_vals⟩
        else unpack_remote buffer remote_type

/-! ## Timeval -/

/-- Two's complement on 64 bits: the value of an `int64_t` whose bits are those of `u`. -/
def to_int64 (u : Nat) : Int :=
  if u % 2 ^ 64 < 2 ^ 63 then ((u % 2 ^ 64 : Nat) : Int)
  else ((u % 2 ^ 64 : Nat) : Int) - (2 : Int) ^ 64

/-- The record `struct timeval` on a 64-bit host: two signed 64-bit fields. -/
structure timeval where
  tv_sec : Int
  tv_usec : Int
  deriving DecidableEq, Repr

/-- The size of a `struct timeval` on a 64-bit host. -/
def sizeof_timeval : Nat := 16

/-- The element loop of `pmix_bfrop_unpack_timeval`, with `k` iterations still to run and
`i` the current index: two 64-bit integers are decoded into `tmp`, whose bits are read
as signed, and stored as one element. -/
def unpack_timeval_loop :
    Nat → Nat → pmix_buffer_t → (Nat → timeval) →
      pmix_status_t × pmix_buffer_t × (Nat → timeval)
  | 0, _, buffer, desttmp => (PMIX_SUCCESS, buffer, desttmp)
  | k + 1, i, buffer, desttmp =>
    let r := pmix_bfrop_unpack_int64 buffer (fun _ => 0) 2 PMIX_INT64
    if r.rc ≠ PMIX_SUCCESS then (r.rc, r.buffer, desttmp)
    else
      let tt : timeval := ⟨to_int64 (r.dest 0), to_int64 (r.dest 1)⟩
      unpack_timeval_loop k (i + 1) r.buffer (Function.update desttmp i tt)

/-- Decoder `pmix_bfrop_unpack_timeval` (unpack.c, 462-487). -/
def pmix_bfrop_unpack_timeval : pmix_bfrop_unpack_fn_t (Nat → timeval) :=
  fun buffer dest num_vals _type =>
    if pmix_bfrop_too_small buffer (size_mul (to_size_t num_vals) sizeof_timeval) then
      ⟨PMIX_ERR_UNPACK_READ_PAST_END_OF_BUFFER, buffer, dest, num_vals⟩
    else
      let r := unpack_timeval_loop num_vals.toNat 0 buffer dest
      ⟨r.1, r.2.1, r.2.2, num_vals⟩

/-- A non-described buffer holding two timevals: (1 s, 2 us) and (-1 s, 3 us). -/
def sample_timevals : pmix_buffer_t :=
  ⟨PMIX_BFROP_BUFFER_NON_DESC,
    [0, 0, 0, 0, 0, 0, 0, 1, 0, 0, 0, 0, 0, 0, 0, 2,
     255, 255, 255, 255, 255, 255, 255, 255, 0, 0, 0, 0, 0, 0, 0, 3],
    32, 0, 32, 32⟩

/-- A non-described buffer holding one int as the generic scalar decoders read it: the
inline tag INT32 and the value 7. -/
def sample_tagged_int : pmix_buffer_t :=
  ⟨PMIX_BFROP_BUFFER_NON_DESC, [0, 0, 0, 9, 0, 0, 0, 7], 8, 0, 8, 8⟩

/-- A registry of the string decoder for the samples. -/
def sample_string_registry :
    pmix_data_type_t → Option (pmix_bfrop_type_info_t (Nat → c_string)) :=
  fun t => if t = PMIX_STRING then some ⟨pmix_bfrop_unpack_string malloc_always⟩ else none

/-- A non-described buffer holding only a count header, whose int32 value is -1. -/
def sample_negative_count : pmix_buffer_t :=
  ⟨PMIX_BFROP_BUFFER_NON_DESC, [255, 255, 255, 255], 4, 0, 4, 4⟩

/-- A non-described buffer holding one byte object whose wire size is -1. -/
def sample_negative_size : pmix_buffer_t :=
  ⟨PMIX_BFROP_BUFFER_NON_DESC, [255, 255, 255, 255], 4, 0, 4, 4⟩

/-! ## Sub-buffers -/

/-- The element loop of `pmix_bfrop_unpack_buffer_contents`, with `k` iterations still to
run and `i` the current index. `OBJ_NEW` is what `OBJ_NEW(pmix_buffer_t)` yields: `none`
for NULL, or the newly constructed buffer (the constructor is defined outside the sources
at hand). `cell` is the local `nbytes` as the size_t decoder receives it, and
`load_size_t` reads a size_t from it. In the new buffer the pointers are offsets from
its own `base_ptr`, and `m = nbytes` is the conversion from size_t to int32. The source
does not check the result of `malloc(nbytes)`: a copy through NULL is undefined in C, and
a failed allocation leaves the new buffer without storage here. -/
def unpack_buffer_contents_loop {δ : Type}
    (pmix_bfrop_types : pmix_data_type_t → Option (pmix_bfrop_type_info_t δ))
    (BFROP_TYPE_SIZE_T : pmix_data_type_t)
    (UNPACK_SIZE_MISMATCH : pmix_data_type_t → pmix_buffer_t → δ → Int →
      Outcome pmix_buffer_t δ Int)
    (cell : δ) (load_size_t : δ → Nat) (OBJ_NEW : Option pmix_buffer_t)
    (malloc : Nat → Bool) :
    Nat → Nat → pmix_buffer_t → (Nat → Option pmix_buffer_t) →
      pmix_status_t × pmix_buffer_t × (Nat → Option pmix_buffer_t)
  | 0, _, buffer, ptr => (PMIX_SUCCESS, buffer, ptr)
  | k + 1, i, buffer, ptr =>
    match OBJ_NEW with
    | none => (PMIX_ERR_OUT_OF_RESOURCE, buffer, Function.update ptr i none)
    | some obj =>
      let s := pmix_bfrop_unpack_sizet pmix_bfrop_types BFROP_TYPE_SIZE_T
        UNPACK_SIZE_MISMATCH buffer cell 1 PMIX_SIZE
      if s.rc ≠ PMIX_SUCCESS then (s.rc, s.buffer, Function.update ptr i (some obj))
      else
        let nbytes := load_size_t s.dest
        let m := to_int32 nbytes
        if 0 < nbytes then
          let region : List uint8_t :=
            if malloc nbytes = false then [] else malloc_region nbytes
          let c := pmix_bfrop_unpack_byte s.buffer (region_dest region) m PMIX_BYTE
          if c.rc ≠ PMIX_SUCCESS then
            (c.rc, c.buffer, Function.update ptr i (some { obj with base_ptr := region }))
          else
            unpack_buffer_contents_loop pmix_bfrop_types BFROP_TYPE_SIZE_T
              UNPACK_SIZE_MISMATCH cell load_size_t OBJ_NEW malloc k (i + 1) c.buffer
              (Function.update ptr i (some
                { obj with
                  base_ptr := region_of_dest region.length c.dest
                  pack_ptr := c.num_vals.toNat
                  unpack_ptr := 0
                  bytes_allocated := nbytes
                  bytes_used := to_size_t c.num_vals }))
        else
          unpack_buffer_contents_loop pmix_bfrop_types BFROP_TYPE_SIZE_T
            UNPACK_SIZE_MISMATCH cell load_size_t OBJ_NEW malloc k (i + 1) s.buffer
            (Function.update ptr i (some
              { obj with
                pack_ptr := m.toNat
                unpack_ptr := 0
                bytes_allocated := nbytes
                bytes_used := to_size_t m }))

/-- Decoder `pmix_bfrop_unpack_buffer_contents` (unpack.c, 1012-1049). -/
def pmix_bfrop_unpack_buffer_contents {δ : Type}
    (pmix_bfrop_types : pmix_data_type_t → Option (pmix_bfrop_type_info_t δ))
    (BFROP_TYPE_SIZE_T : pmix_data_type_t)
    (UNPACK_SIZE_MISMATCH : pmix_data_type_t → pmix_buffer_t → δ → Int →
      Outcome pmix_buffer_t δ Int)
    (cell : δ) (load_size_t : δ → Nat) (OBJ_NEW : Option pmix_buffer_t)
    (malloc : Nat → Bool) :
    pmix_bfrop_unpack_fn_t (Nat → Option pmix_buffer_t) :=
  fun buffer dest num_vals _type =>
    let r := unpack_buffer_contents_loop pmix_bfrop_types BFROP_TYPE_SIZE_T
      UNPACK_SIZE_MISMATCH cell load_size_t OBJ_NEW malloc num_vals.toNat 0 buffer dest
    ⟨r.1, r.2.1, r.2.2, num_vals⟩

/-- A newly constructed buffer for the samples: non-described, without storage. -/
def sample_new_buffer : pmix_buffer_t := ⟨PMIX_BFROP_BUFFER_NON_DESC, [], 0, 0, 0, 0⟩

/-- A non-described parent buffer holding one sub-buffer: the inline tag UINT64, the byte
count 3 and the payload, which is the int16 value 258 followed by the byte 7. -/
def sample_parent : pmix_buffer_t :=
  ⟨PMIX_BFROP_BUFFER_NON_DESC, [0, 0, 0, 15, 0, 0, 0, 0, 0, 0, 0, 3, 1, 2, 7], 15, 0, 15, 15⟩

/-- A non-described parent buffer holding the inline tag UINT64, the byte count
2^32 + 5 and five bytes. -/
def sample_parent_wide : pmix_buffer_t :=
  ⟨PMIX_BFROP_BUFFER_NON_DESC,
    [0, 0, 0, 15, 0, 0, 0, 1, 0, 0, 0, 5, 1, 2, 3, 4, 5], 17, 0, 17, 17⟩

/-- The relation between a buffer and another one that holds the same used bytes with
the cursor at the same offset: equal cursors, equal `bytes_used`, and equal bytes below
`bytes_used`. -/
def same_used_region (a b : pmix_buffer_t) : Prop :=
  a.unpack_ptr = b.unpack_ptr ∧ a.bytes_used = b.bytes_used ∧
    ∀ j, j < a.bytes_used → byte_at a.base_ptr j = byte_at b.base_ptr j

/-! ## Info records and application descriptors -/

/-- Modelled from the spec: the tag of embedded sub-buffers. -/
def PMIX_BUFFER : pmix_data_type_t := 22

/-- Modelled from the spec: the tag of info records. -/
def PMIX_INFO : pmix_data_type_t := 23

/-- The record `pmix_info_t`: a key string and a value string. -/
structure pmix_info_t where
  key : c_string
  value : c_string
  deriving DecidableEq, Repr

/-- The body of the element loop of `pmix_bfrop_unpack_info` (unpack.c, 1062-1076): the
status, the buffer, and the pointer left in `ptr[i]`. `obj_new` tells whether
`OBJ_NEW(pmix_info_t)` yields an object (`false`: NULL); the strings of a new object are
taken as NULL. -/
def unpack_info_element (malloc : Nat → Bool) (obj_new : Bool) (buffer : pmix_buffer_t) :
    pmix_status_t × pmix_buffer_t × Option pmix_info_t :=
  if obj_new = false then (PMIX_ERR_OUT_OF_RESOURCE, buffer, none)
  else
    let ks := pmix_bfrop_unpack_string malloc buffer (fun _ => none) 1 PMIX_STRING
    if ks.rc ≠ PMIX_SUCCESS then (ks.rc, ks.buffer, some ⟨ks.dest 0, none⟩)
    else
      let vs := pmix_bfrop_unpack_string malloc ks.buffer (fun _ => none) 1 PMIX_STRING
      (vs.rc, vs.buffer, some ⟨ks.dest 0, vs.dest 0⟩)

/-- The element loop of `pmix_bfrop_unpack_info`, with `k` iterations still to run and
`i` the current index: a failing element returns at once. -/
def unpack_info_loop (malloc : Nat → Bool) (obj_new : Bool) :
    Nat → Nat → pmix_buffer_t → (Nat → Option pmix_info_t) →
      pmix_status_t × pmix_buffer_t × (Nat → Option pmix_info_t)
  | 0, _, buffer, ptr => (PMIX_SUCCESS, buffer, ptr)
  | k + 1, i, buffer, ptr =>
    let e := unpack_info_element malloc obj_new buffer
    if e.1 ≠ PMIX_SUCCESS then (e.1, e.2.1, Function.update ptr i e.2.2)
    else unpack_info_loop malloc obj_new k (i + 1) e.2.1 (Function.update ptr i e.2.2)

/-- Decoder `pmix_bfrop_unpack_info` (unpack.c, 1051-1079). -/
def pmix_bfrop_unpack_info (malloc : Nat → Bool) (obj_new : Bool) :
    pmix_bfrop_unpack_fn_t (Nat → Option pmix_info_t) :=
  fun buffer dest num_vals _type =>
    let r := unpack_info_loop malloc obj_new num_vals.toNat 0 buffer dest
    ⟨r.1, r.2.1, r.2.2, num_vals⟩

/-- The record `pmix_app_t` as `pmix_bfrop_unpack_apps` fills it: the command, the
argument count, the single ordered sequence `argv` that receives the arguments and the
environment strings, the process count, and the list of pointers to info records. -/
structure pmix_app_t where
  cmd : c_string
  argc : Int
  argv : List c_string
  maxprocs : Int
  info : List (Option pmix_info_t)
  deriving DecidableEq, Repr

/-- The copy that the C library makes of a C string (`strdup`): a new region that holds
the bytes before the first NUL byte and a closing NUL. The result `none` stands for the
cases in which the copy is undefined in C: the argument is the NULL pointer or designates
a region without a NUL byte. -/
def strdup (s : c_string) : c_string := (c_str s).map (fun text => text ++ [0])

/-- Modelled from the spec: `pmix_argv_append_nosize` is declared in `util/argv.h` and
defined outside the sources at hand. It appends a copy of the string to the end of the
ordered sequence; the caller ignores its status. The argument is a bare `char *` without
a length, so the copy is the copy of a C string; an entry `none` of the sequence stands
for a copy that is undefined in C. -/
def pmix_argv_append_nosize (argv : List c_string) (arg : c_string) : List c_string :=
  argv ++ [strdup arg]

/-- Modelled from the spec: `pmix_list_append` is declared in `class/pmix_list.h` and
defined outside the sources at hand. It appends the item to the end of the list. -/
def pmix_list_append (list : List (Option pmix_info_t)) (item : Option pmix_info_t) :
    List (Option pmix_info_t) :=
  list ++ [item]

/-- The two string loops of `pmix_bfrop_unpack_apps` (unpack.c, 1110-1117 for the
arguments and 1123-1130 for the environment), with `k` iterations still to run: each
iteration decodes one string into `tmp` and appends a copy of it to `argv`; `tmp` is
freed afterwards. The string decoder leaves in `tmp` a region of exactly the wire length
(or NULL for the wire length 0), the append reads it as a C string. -/
def unpack_argv_loop (malloc : Nat → Bool) :
    Nat → pmix_buffer_t → List c_string → pmix_status_t × pmix_buffer_t × List c_string
  | 0, buffer, argv => (PMIX_SUCCESS, buffer, argv)
  | k + 1, buffer, argv =>
    let s := pmix_bfrop_unpack_string malloc buffer (fun _ => none) 1 PMIX_STRING
    if s.rc ≠ PMIX_SUCCESS then (s.rc, s.buffer, argv)
    else unpack_argv_loop malloc k s.buffer (pmix_argv_append_nosize argv (s.dest 0))

/-- The info loop of `pmix_bfrop_unpack_apps` (unpack.c, 1142-1148), with `k` iterations
still to run: each iteration decodes one info record and appends it to the list. -/
def unpack_info_list_loop (malloc : Nat → Bool) (info_new : Bool) :
    Nat → pmix_buffer_t → List (Option pmix_info_t) →
      pmix_status_t × pmix_buffer_t × List (Option pmix_info_t)
  | 0, buffer, list => (PMIX_SUCCESS, buffer, list)
  | k + 1, buffer, list =>
    let r := pmix_bfrop_unpack_info malloc info_new buffer (fun _ => none) 1 PMIX_INFO
    if r.rc ≠ PMIX_SUCCESS then (r.rc, r.buffer, list)
    else unpack_info_list_loop malloc info_new k r.buffer (pmix_list_append list (r.dest 0))

/-- What `pmix_bfrop_unpack_apps` takes from outside the sources at hand. `obj_new` and
`info_new` tell whether `OBJ_NEW(pmix_app_t)` and `OBJ_NEW(pmix_info_t)` yield an object
(`false`: NULL); `cell` is an int as the int decoder receives it (a field of the new
object or the local `nval`), and `load_int` reads an int from it. -/
structure pmix_app_cells (δ : Type) where
  obj_new : Bool
  info_new : Bool
  cell : δ
  load_int : δ → Int

/-- The body of the element loop of `pmix_bfrop_unpack_apps` (unpack.c, 1094-1149): the
status, the buffer, and the pointer left in `ptr[i]`. The host's wire type for int,
`BFROP_TYPE_INT`, and the slow path `UNPACK_SIZE_MISMATCH` are those of
`pmix_bfrop_unpack_int`. The fields of a new object are taken as NULL, 0 and empty. The
local `nval` receives the environment count and later the info count. -/
def unpack_apps_element {δ : Type}
    (pmix_bfrop_types : pmix_data_type_t → Option (pmix_bfrop_type_info_t δ))
    (BFROP_TYPE_INT : pmix_data_type_t)
    (UNPACK_SIZE_MISMATCH : pmix_data_type_t → pmix_buffer_t → δ → Int →
      Outcome pmix_buffer_t δ Int)
    (cells : pmix_app_cells δ) (malloc : Nat → Bool) (buffer : pmix_buffer_t) :
    pmix_status_t × pmix_buffer_t × Option pmix_app_t :=
  if cells.obj_new = false then (PMIX_ERR_OUT_OF_RESOURCE, buffer, none)
  else
    let cs := pmix_bfrop_unpack_string malloc buffer (fun _ => none) 1 PMIX_STRING
    if cs.rc ≠ PMIX_SUCCESS then (cs.rc, cs.buffer, some ⟨cs.dest 0, 0, [], 0, []⟩)
    else
      let ac := pmix_bfrop_unpack_int pmix_bfrop_types BFROP_TYPE_INT UNPACK_SIZE_MISMATCH
        cs.buffer cells.cell 1 PMIX_INT
      let argc := cells.load_int ac.dest
      if ac.rc ≠ PMIX_SUCCESS then (ac.rc, ac.buffer, some ⟨cs.dest 0, argc, [], 0, []⟩)
      else
        let av := unpack_argv_loop malloc argc.toNat ac.buffer []
        if av.1 ≠ PMIX_SUCCESS then (av.1, av.2.1, some ⟨cs.dest 0, argc, av.2.2, 0, []⟩)
        else
          let ec := pmix_bfrop_unpack_int pmix_bfrop_types BFROP_TYPE_INT
            UNPACK_SIZE_MISMATCH av.2.1 cells.cell 1 PMIX_INT
          if ec.rc ≠ PMIX_SUCCESS then
            (ec.rc, ec.buffer, some ⟨cs.dest 0, argc, av.2.2, 0, []⟩)
          else
            let ev := unpack_argv_loop malloc (cells.load_int ec.dest).toNat ec.buffer av.2.2
            if ev.1 ≠ PMIX_SUCCESS then
              (ev.1, ev.2.1, some ⟨cs.dest 0, argc, ev.2.2, 0, []⟩)
            else
              let mp := pmix_bfrop_unpack_int pmix_bfrop_types BFROP_TYPE_INT
                UNPACK_SIZE_MISMATCH ev.2.1 cells.cell 1 PMIX_INT
              let maxprocs := cells.load_int mp.dest
              if mp.rc ≠ PMIX_SUCCESS then
                (mp.rc, mp.buffer, some ⟨cs.dest 0, argc, ev.2.2, maxprocs, []⟩)
              else
                let ic := pmix_bfrop_unpack_int pmix_bfrop_types BFROP_TYPE_INT
                  UNPACK_SIZE_MISMATCH mp.buffer ec.dest 1 PMIX_INT
                if ic.rc ≠ PMIX_SUCCESS then
                  (ic.rc, ic.buffer, some ⟨cs.dest 0, argc, ev.2.2, maxprocs, []⟩)
                else
                  let il := unpack_info_list_loop malloc cells.info_new
                    (cells.load_int ic.dest).toNat ic.buffer []
                  (il.1, il.2.1, some ⟨cs.dest 0, argc, ev.2.2, maxprocs, il.2.2⟩)

/-- The element loop of `pmix_bfrop_unpack_apps`, with `k` iterations still to run and
`i` the current index: a failing element returns at once. -/
def unpack_apps_loop {δ : Type}
    (pmix_bfrop_types : pmix_data_type_t → Option (pmix_bfrop_type_info_t δ))
    (BFROP_TYPE_INT : pmix_data_type_t)
    (UNPACK_SIZE_MISMATCH : pmix_data_type_t → pmix_buffer_t → δ → Int →
      Outcome pmix_buffer_t δ Int)
    (cells : pmix_app_cells δ) (malloc : Nat → Bool) :
    Nat → Nat → pmix_buffer_t → (Nat → Option pmix_app_t) →
      pmix_status_t × pmix_buffer_t × (Nat → Option pmix_app_t)
  | 0, _, buffer, ptr => (PMIX_SUCCESS, buffer, ptr)
  | k + 1, i, buffer, ptr =>
    let e := unpack_apps_element pmix_bfrop_types BFROP_TYPE_INT UNPACK_SIZE_MISMATCH cells
      malloc buffer
    if e.1 ≠ PMIX_SUCCESS then (e.1, e.2.1, Function.update ptr i e.2.2)
    else
      unpack_apps_loop pmix_bfrop_types BFROP_TYPE_INT UNPACK_SIZE_MISMATCH cells malloc k
        (i + 1) e.2.1 (Function.update ptr i e.2.2)

/-- Decoder `pmix_bfrop_unpack_apps` (unpack.c, 1081-1152). -/
def pmix_bfrop_unpack_apps {δ : Type}
    (pmix_bfrop_types : pmix_data_type_t → Option (pmix_bfrop_type_info_t δ))
    (BFROP_TYPE_INT : pmix_data_type_t)
    (UNPACK_SIZE_MISMATCH : pmix_data_type_t → pmix_buffer_t → δ → Int →
      Outcome pmix_buffer_t δ Int)
    (cells : pmix_app_cells δ) (malloc : Nat → Bool) :
    pmix_bfrop_unpack_fn_t (Nat → Option pmix_app_t) :=
  fun buffer dest num_vals _type =>
    let r := unpack_apps_loop pmix_bfrop_types BFROP_TYPE_INT UNPACK_SIZE_MISMATCH cells
      malloc num_vals.toNat 0 buffer dest
    ⟨r.1, r.2.1, r.2.2, num_vals⟩

/-- A non-described buffer holding an info record cut inside its key: the key has the
length prefix 5 and only two bytes follow. -/
def sample_info_cut : pmix_buffer_t :=
  ⟨PMIX_BFROP_BUFFER_NON_DESC, [0, 0, 0, 5, 107, 101], 6, 0, 6, 6⟩

/-- A self-describing top-level buffer whose used region is the three bytes `01 02 07`,
with two more bytes allocated after it. -/
def sample_top_level : pmix_buffer_t :=
  ⟨PMIX_BFROP_BUFFER_FULLY_DESC, [1, 2, 7, 9, 9], 3, 0, 5, 3⟩

/-- A non-described buffer holding two strings of wire length 0. -/
def sample_empty_texts : pmix_buffer_t :=
  ⟨PMIX_BFROP_BUFFER_NON_DESC, [0, 0, 0, 0, 0, 0, 0, 0], 8, 0, 8, 8⟩

/-! # Theorems -/

/-! ## Facts about the element loop -/

theorem advance_natCast (b : pmix_buffer_t) (w : Nat) :
    advance b (w : Int) = { b with unpack_ptr := b.unpack_ptr + w } := by
  unfold advance
  have h : ((b.unpack_ptr : Int) + (w : Int)).toNat = b.unpack_ptr + w := by omega
  rw [h]

theorem unpack_loop_fst (w : Nat) (conv : List uint8_t → Nat) :
    ∀ (k i : Nat) (b : pmix_buffer_t) (d : Nat → Nat),
      (unpack_loop w conv k i b d).1 = { b with unpack_ptr := b.unpack_ptr + k * w }
  | 0, _, b, _ => by simp [unpack_loop]
  | k + 1, i, b, d => by
    rw [unpack_loop, unpack_loop_fst w conv k, advance_natCast]
    simp only [pmix_buffer_t.mk.injEq, true_and, and_true]
    ring

theorem unpack_loop_snd (w : Nat) (conv : List uint8_t → Nat) :
    ∀ (k i : Nat) (b : pmix_buffer_t) (d : Nat → Nat) (j : Nat),
      (unpack_loop w conv k i b d).2 j =
        if i ≤ j ∧ j < i + k then
          conv (wire_bytes b.base_ptr (b.unpack_ptr + (j - i) * w) w)
        else d j
  | 0, i, b, d, j => by
    have h : ¬ (i ≤ j ∧ j < i + 0) := by omega
    rw [if_neg h]
    rfl
  | k + 1, i, b, d, j => by
    rw [unpack_loop, unpack_loop_snd w conv k, advance_natCast]
    by_cases hj : j = i
    · subst hj
      have h1 : ¬ (j + 1 ≤ j ∧ j < j + 1 + k) := by omega
      have h2 : j ≤ j ∧ j < j + (k + 1) := by omega
      simp [h1, h2, memcpy_tmp]
    · by_cases hr : i + 1 ≤ j ∧ j < i + 1 + k
      · have h2 : i ≤ j ∧ j < i + (k + 1) := by omega
        have h3 : b.unpack_ptr + w + (j - (i + 1)) * w = b.unpack_ptr + (j - i) * w := by
          obtain ⟨c, rfl⟩ : ∃ c, j = i + 1 + c := ⟨j - (i + 1), by omega⟩
          have e1 : i + 1 + c - (i + 1) = c := by omega
          have e2 : i + 1 + c - i = c + 1 := by omega
          rw [e1, e2]
          ring
        simp [hr, h2, h3]
      · have h2 : ¬ (i ≤ j ∧ j < i + (k + 1)) := by omega
        simp [hr, h2, Function.update, hj]

/-! ## Facts about the size computations -/

theorem to_size_t_of_nonneg (n : Int) (h0 : 0 ≤ n) (h31 : n < 2 ^ 31) :
    to_size_t n = n.toNat := by
  unfold to_size_t
  rw [Int.emod_eq_of_lt h0 (by omega)]

theorem size_mul_count (n : Int) (h0 : 0 ≤ n) (h31 : n < 2 ^ 31) (w : Nat) (hw : w ≤ 8) :
    size_mul (to_size_t n) w = n.toNat * w := by
  rw [to_size_t_of_nonneg n h0 h31]
  unfold size_mul
  apply Nat.mod_eq_of_lt
  have h1 : n.toNat < 2 ^ 31 := by omega
  calc n.toNat * w ≤ 2 ^ 31 * 8 := Nat.mul_le_mul (Nat.le_of_lt h1) hw
    _ < 2 ^ 64 := by norm_num

theorem pmix_bfrop_unpack_int16_eq : pmix_bfrop_unpack_int16 = unpack_fixed 2 ntohs := rfl

theorem pmix_bfrop_unpack_int32_eq : pmix_bfrop_unpack_int32 = unpack_fixed 4 ntohl := rfl

theorem pmix_bfrop_unpack_int64_eq : pmix_bfrop_unpack_int64 = unpack_fixed 8 ntoh64 := rfl

theorem pmix_bfrop_unpack_null_eq : pmix_bfrop_unpack_null = pmix_bfrop_unpack_byte := rfl

theorem unpack_fixed_rc_iff (w : Nat) (conv : List uint8_t → Nat) (hw : w ≤ 8)
    (buffer : pmix_buffer_t) (dest : Nat → Nat) (n : Int) (type : pmix_data_type_t)
    (h0 : 0 ≤ n) (h31 : n < 2 ^ 31) :
    (unpack_fixed w conv buffer dest n type).rc = PMIX_ERR_UNPACK_READ_PAST_END_OF_BUFFER ↔
      buffer.bytes_used - buffer.unpack_ptr < n.toNat * w := by
  unfold unpack_fixed pmix_bfrop_too_small
  rw [size_mul_count n h0 h31 w hw]
  by_cases h : buffer.bytes_used - buffer.unpack_ptr < n.toNat * w <;> simp [h]

theorem unpack_fixed_failed (w : Nat) (conv : List uint8_t → Nat)
    (buffer : pmix_buffer_t) (dest : Nat → Nat) (n : Int) (type : pmix_data_type_t)
    (h : (unpack_fixed w conv buffer dest n type).rc ≠ PMIX_SUCCESS) :
    unpack_fixed w conv buffer dest n type =
      ⟨PMIX_ERR_UNPACK_READ_PAST_END_OF_BUFFER, buffer, dest, n⟩ := by
  unfold unpack_fixed at h ⊢
  by_cases c : pmix_bfrop_too_small buffer (size_mul (to_size_t n) w) = true
  · simp [c]
  · simp [c] at h

theorem unpack_byte_rc_iff (buffer : pmix_buffer_t) (dest : Nat → uint8_t) (n : Int)
    (type : pmix_data_type_t) (h0 : 0 ≤ n) (h31 : n < 2 ^ 31) :
    (pmix_bfrop_unpack_byte buffer dest n type).rc = PMIX_ERR_UNPACK_READ_PAST_END_OF_BUFFER ↔
      buffer.bytes_used - buffer.unpack_ptr < n.toNat * 1 := by
  unfold pmix_bfrop_unpack_byte pmix_bfrop_too_small
  rw [to_size_t_of_nonneg n h0 h31, Nat.mul_one]
  by_cases h : buffer.bytes_used - buffer.unpack_ptr < n.toNat <;> simp [h]

theorem unpack_byte_failed (buffer : pmix_buffer_t) (dest : Nat → uint8_t) (n : Int)
    (type : pmix_data_type_t)
    (h : (pmix_bfrop_unpack_byte buffer dest n type).rc ≠ PMIX_SUCCESS) :
    pmix_bfrop_unpack_byte buffer dest n type =
      ⟨PMIX_ERR_UNPACK_READ_PAST_END_OF_BUFFER, buffer, dest, n⟩ := by
  unfold pmix_bfrop_unpack_byte at h ⊢
  by_cases c : pmix_bfrop_too_small buffer (to_size_t n) = true
  · simp [c]
  · simp [c] at h

/-! ## Fixed-width decoders: the bound check -/

/-- C1: for the byte and null decoders (width 1) and the int16, int32 and int64 decoders
(widths 2, 4, 8), every buffer state and every int32 count `n ≥ 0`, the status is
ReadPastEndOfBuffer exactly when fewer than `n * width` bytes remain between the unpack
cursor and the end of the used region, and in that case the buffer (cursor included) and
the destination are what they were before the call. -/
theorem fixed_width_bound_checked_before_copy (buffer : pmix_buffer_t) (n : Int)
    (type : pmix_data_type_t) (h0 : 0 ≤ n) (h31 : n < 2 ^ 31) :
    (∀ f ∈ [pmix_bfrop_unpack_byte, pmix_bfrop_unpack_null], ∀ dest : Nat → uint8_t,
      ((f buffer dest n type).rc = PMIX_ERR_UNPACK_READ_PAST_END_OF_BUFFER ↔
        buffer.bytes_used - buffer.unpack_ptr < n.toNat * 1) ∧
      ((f buffer dest n type).rc = PMIX_ERR_UNPACK_READ_PAST_END_OF_BUFFER →
        (f buffer dest n type).buffer = buffer ∧ (f buffer dest n type).dest = dest)) ∧
    (∀ p ∈ [(pmix_bfrop_unpack_int16, 2), (pmix_bfrop_unpack_int32, 4),
        (pmix_bfrop_unpack_int64, 8)], ∀ dest : Nat → Nat,
      ((p.1 buffer dest n type).rc = PMIX_ERR_UNPACK_READ_PAST_END_OF_BUFFER ↔
        buffer.bytes_used - buffer.unpack_ptr < n.toNat * p.2) ∧
      ((p.1 buffer dest n type).rc = PMIX_ERR_UNPACK_READ_PAST_END_OF_BUFFER →
        (p.1 buffer dest n type).buffer = buffer ∧ (p.1 buffer dest n type).dest = dest)) := by
  constructor
  · intro f hf dest
    have hf2 : f = pmix_bfrop_unpack_byte := by
      simp only [List.mem_cons, List.mem_singleton, List.not_mem_nil, or_false] at hf
      rcases hf with rfl | rfl
      · rfl
      · exact pmix_bfrop_unpack_null_eq
    subst hf2
    refine ⟨unpack_byte_rc_iff buffer dest n type h0 h31, fun h => ?_⟩
    rw [unpack_byte_failed buffer dest n type (by rw [h]; decide)]
    exact ⟨rfl, rfl⟩
  · intro p hp dest
    have key : ∀ (w : Nat) (conv : List uint8_t → Nat), w ≤ 8 →
        ((unpack_fixed w conv buffer dest n type).rc = PMIX_ERR_UNPACK_READ_PAST_END_OF_BUFFER ↔
          buffer.bytes_used - buffer.unpack_ptr < n.toNat * w) ∧
        ((unpack_fixed w conv buffer dest n type).rc = PMIX_ERR_UNPACK_READ_PAST_END_OF_BUFFER →
          (unpack_fixed w conv buffer dest n type).buffer = buffer ∧
          (unpack_fixed w conv buffer dest n type).dest = dest) := by
      intro w conv hw
      refine ⟨unpack_fixed_rc_iff w conv hw buffer dest n type h0 h31, fun h => ?_⟩
      rw [unpack_fixed_failed w conv buffer dest n type (by rw [h]; decide)]
      exact ⟨rfl, rfl⟩
    simp only [List.mem_cons, List.mem_singleton, List.not_mem_nil, or_false] at hp
    rcases hp with rfl | rfl | rfl
    · exact key 2 ntohs (by decide)
    · exact key 4 ntohl (by decide)
    · exact key 8 ntoh64 (by decide)

/-- Witness: three int32 elements need twelve bytes and the sample buffer has
eight, so the int32 decoder fails and leaves the buffer alone. -/
theorem fixed_width_bound_checked_before_copy_witness :
    (0 : Int) ≤ 3 ∧ (3 : Int) < 2 ^ 31 ∧
    (pmix_bfrop_unpack_int32 sample_buffer (fun _ => 0) 3 PMIX_INT32).buffer = sample_buffer :=
  ⟨by decide, by decide,
    (((fixed_width_bound_checked_before_copy sample_buffer 3 PMIX_INT32 (by decide)
      (by decide)).2 (pmix_bfrop_unpack_int32, 4) (by simp) (fun _ => 0)).2 (by decide)).1⟩

/-! ## Facts about the network-order encoding -/

theorem ntoh_append_singleton (l : List uint8_t) (b : uint8_t) :
    ntoh (l ++ [b]) = ntoh l * 256 + b.val := by
  simp [ntoh, List.foldl_append]

theorem length_hton : ∀ (w x : Nat), (hton w x).length = w
  | 0, _ => rfl
  | w + 1, x => by simp [hton, length_hton w]

theorem ntoh_hton : ∀ (w x : Nat), x < 256 ^ w → ntoh (hton w x) = x
  | 0, x, h => by
    have hx : x = 0 := by simpa using h
    subst hx
    rfl
  | w + 1, x, h => by
    have h1 : x / 256 < 256 ^ w := by
      apply Nat.div_lt_of_lt_mul
      rw [pow_succ] at h
      omega
    rw [hton, ntoh_append_singleton, ntoh_hton w (x / 256) h1]
    have h2 : (Fin.ofNat (x % 256) : uint8_t).val = x % 256 := by
      simp [Fin.ofNat]
    rw [h2]
    omega

theorem length_pack_ints (w : Nat) : ∀ xs : List Nat, (pack_ints w xs).length = xs.length * w
  | [] => by simp [pack_ints]
  | x :: xs => by
    simp [pack_ints, length_hton, length_pack_ints w xs]
    ring

theorem pack_ints_getElem? (w : Nat) : ∀ (xs : List Nat) (t j : Nat), t < xs.length → j < w →
    (pack_ints w xs)[t * w + j]? = (hton w (xs.getD t 0))[j]?
  | [], t, j, ht, _ => by simp at ht
  | x :: xs, 0, j, _, hj => by
    simp only [pack_ints, Nat.zero_mul, Nat.zero_add, List.getD_cons_zero]
    rw [List.getElem?_append_left (by rw [length_hton]; exact hj)]
  | x :: xs, t + 1, j, ht, hj => by
    have ht2 : t < xs.length := by simpa using ht
    simp only [pack_ints, List.getD_cons_succ]
    rw [List.getElem?_append_right (by rw [length_hton]; nlinarith)]
    rw [length_hton, ← pack_ints_getElem? w xs t j ht2 hj]
    congr 1
    have : (t + 1) * w = t * w + w := by ring
    omega

theorem byte_at_of_remaining (buffer : pmix_buffer_t) (l : List uint8_t)
    (h : (buffer.base_ptr.take buffer.bytes_used).drop buffer.unpack_ptr = l)
    (j : Nat) (hj : j < l.length) :
    byte_at buffer.base_ptr (buffer.unpack_ptr + j) = l.getD j 0 := by
  subst h
  have h1 : ((buffer.base_ptr.take buffer.bytes_used).drop buffer.unpack_ptr)[j]? =
      (buffer.base_ptr.take buffer.bytes_used)[buffer.unpack_ptr + j]? := by
    rw [List.getElem?_drop]
  have h2 : buffer.unpack_ptr + j < (buffer.base_ptr.take buffer.bytes_used).length := by
    rw [List.length_drop] at hj
    omega
  have h3 : buffer.unpack_ptr + j < buffer.bytes_used := by
    rw [List.length_take] at h2
    omega
  rw [List.getElem?_take_of_lt h3] at h1
  simp only [byte_at, List.getD_eq_getElem?_getD]
  rw [h1]

theorem remaining_ge_of_remaining (buffer : pmix_buffer_t) (l : List uint8_t)
    (h : (buffer.base_ptr.take buffer.bytes_used).drop buffer.unpack_ptr = l) :
    l.length ≤ buffer.bytes_used - buffer.unpack_ptr := by
  subst h
  rw [List.length_drop, List.length_take]
  omega

theorem wire_bytes_eq_of_getD (mem : List uint8_t) (off : Nat) (l : List uint8_t)
    (h : ∀ j, j < l.length → byte_at mem (off + j) = l.getD j 0) :
    wire_bytes mem off l.length = l := by
  apply List.ext_getElem
  · simp [wire_bytes]
  · intro j h1 h2
    simp only [wire_bytes, List.getElem_map, List.getElem_range]
    rw [h j h2]
    simp [List.getD_eq_getElem?_getD, h2]

/-! ## Fixed-width decoders: the successful path -/

theorem unpack_fixed_ok (w : Nat) (conv : List uint8_t → Nat)
    (b : pmix_buffer_t) (d : Nat → Nat) (n : Int) (type : pmix_data_type_t)
    (h : ¬ b.bytes_used - b.unpack_ptr < size_mul (to_size_t n) w) :
    unpack_fixed w conv b d n type =
      ⟨PMIX_SUCCESS, { b with unpack_ptr := b.unpack_ptr + n.toNat * w },
        fun j => if j < n.toNat then conv (wire_bytes b.base_ptr (b.unpack_ptr + j * w) w)
          else d j, n⟩ := by
  unfold unpack_fixed pmix_bfrop_too_small
  simp only [h, decide_False, Bool.false_eq_true, if_false, unpack_loop_fst]
  congr 1
  funext j
  rw [unpack_loop_snd]
  simp

theorem unpack_fixed_succeeds (w : Nat) (conv : List uint8_t → Nat)
    (b : pmix_buffer_t) (d : Nat → Nat) (n : Int) (type : pmix_data_type_t)
    (h : (unpack_fixed w conv b d n type).rc = PMIX_SUCCESS) :
    ¬ b.bytes_used - b.unpack_ptr < size_mul (to_size_t n) w := by
  intro c
  unfold unpack_fixed pmix_bfrop_too_small at h
  simp [c] at h

theorem unpack_byte_ok (b : pmix_buffer_t) (d : Nat → uint8_t) (n : Int)
    (type : pmix_data_type_t) (h0 : 0 ≤ n)
    (h : ¬ b.bytes_used - b.unpack_ptr < to_size_t n) :
    pmix_bfrop_unpack_byte b d n type =
      ⟨PMIX_SUCCESS, { b with unpack_ptr := b.unpack_ptr + n.toNat },
        memcpy d b (to_size_t n), n⟩ := by
  unfold pmix_bfrop_unpack_byte pmix_bfrop_too_small
  simp only [h, decide_False, Bool.false_eq_true, if_false]
  congr 1
  unfold advance
  have e : ((b.unpack_ptr : Int) + n).toNat = b.unpack_ptr + n.toNat := by omega
  rw [e]

theorem unpack_byte_succeeds (b : pmix_buffer_t) (d : Nat → uint8_t) (n : Int)
    (type : pmix_data_type_t)
    (h : (pmix_bfrop_unpack_byte b d n type).rc = PMIX_SUCCESS) :
    ¬ b.bytes_used - b.unpack_ptr < to_size_t n := by
  intro c
  unfold pmix_bfrop_unpack_byte pmix_bfrop_too_small at h
  simp [c] at h

theorem wire_bytes_congr (mem mem2 : List uint8_t) (off w : Nat)
    (h : ∀ t, t < w → byte_at mem2 (off + t) = byte_at mem (off + t)) :
    wire_bytes mem2 off w = wire_bytes mem off w := by
  unfold wire_bytes
  apply List.map_congr_left
  intro t ht
  exact h t (List.mem_range.mp ht)

theorem unpack_fixed_round_trip (w : Nat) (hw : w ≤ 8)
    (buffer : pmix_buffer_t) (dest : Nat → Nat) (xs : List Nat) (type : pmix_data_type_t)
    (hlen : xs.length < 2 ^ 31) (hx : ∀ x ∈ xs, x < 2 ^ (8 * w))
    (hrem : (buffer.base_ptr.take buffer.bytes_used).drop buffer.unpack_ptr = pack_ints w xs) :
    (unpack_fixed w ntoh buffer dest (xs.length : Int) type).rc = PMIX_SUCCESS ∧
    (∀ i (hi : i < xs.length),
      (unpack_fixed w ntoh buffer dest (xs.length : Int) type).dest i = xs[i] ∧
      (unpack_fixed w ntoh buffer dest (xs.length : Int) type).dest i =
        ntoh (wire_bytes buffer.base_ptr (buffer.unpack_ptr + i * w) w)) ∧
    (∀ i, xs.length ≤ i →
      (unpack_fixed w ntoh buffer dest (xs.length : Int) type).dest i = dest i) := by
  have h0 : (0 : Int) ≤ (xs.length : Int) := Int.natCast_nonneg _
  have h31 : (xs.length : Int) < 2 ^ 31 := by exact_mod_cast hlen
  have hsz : size_mul (to_size_t (xs.length : Int)) w = xs.length * w := by
    rw [size_mul_count _ h0 h31 w hw, Int.toNat_ofNat]
  have hge := remaining_ge_of_remaining buffer _ hrem
  rw [length_pack_ints] at hge
  have hnot : ¬ buffer.bytes_used - buffer.unpack_ptr <
      size_mul (to_size_t (xs.length : Int)) w := by
    rw [hsz]
    omega
  rw [unpack_fixed_ok w ntoh buffer dest _ type hnot]
  simp only [Int.toNat_ofNat]
  refine ⟨trivial, fun i hi => ?_, fun i hi => ?_⟩
  · have hval : ntoh (wire_bytes buffer.base_ptr (buffer.unpack_ptr + i * w) w) = xs[i] := by
      have hb : wire_bytes buffer.base_ptr (buffer.unpack_ptr + i * w) (hton w xs[i]).length =
          hton w xs[i] := by
        apply wire_bytes_eq_of_getD
        intro j hj
        rw [length_hton] at hj
        have hlt : i * w + j < (pack_ints w xs).length := by
          rw [length_pack_ints]
          have : (i + 1) * w ≤ xs.length * w := Nat.mul_le_mul_right w hi
          have e : (i + 1) * w = i * w + w := by ring
          omega
        have e1 := byte_at_of_remaining buffer _ hrem (i * w + j) hlt
        rw [← Nat.add_assoc] at e1
        rw [e1, List.getD_eq_getElem?_getD, pack_ints_getElem? w xs i j hi hj,
          List.getD_eq_getElem?_getD, List.getD_eq_getElem?_getD]
        simp [hi]
      rw [length_hton] at hb
      rw [hb]
      apply ntoh_hton
      have := hx xs[i] (List.getElem_mem hi)
      rwa [pow_mul] at this
    simp only [hi, if_true]
    exact ⟨hval, trivial⟩
  · have : ¬ i < xs.length := by omega
    simp only [this, if_false]

theorem unpack_fixed_frame (w : Nat) (conv : List uint8_t → Nat) (hw : w ≤ 8)
    (buffer : pmix_buffer_t) (dest : Nat → Nat) (n : Int) (type : pmix_data_type_t)
    (h0 : 0 ≤ n) (h31 : n < 2 ^ 31)
    (hs : (unpack_fixed w conv buffer dest n type).rc = PMIX_SUCCESS) :
    (unpack_fixed w conv buffer dest n type).buffer =
        { buffer with unpack_ptr := buffer.unpack_ptr + n.toNat * w } ∧
    ∀ mem : List uint8_t,
      (∀ j, j < buffer.bytes_used → byte_at mem j = byte_at buffer.base_ptr j) →
      (unpack_fixed w conv { buffer with base_ptr := mem } dest n type).rc = PMIX_SUCCESS ∧
      (unpack_fixed w conv { buffer with base_ptr := mem } dest n type).dest =
        (unpack_fixed w conv buffer dest n type).dest ∧
      (unpack_fixed w conv { buffer with base_ptr := mem } dest n type).buffer.unpack_ptr =
        (unpack_fixed w conv buffer dest n type).buffer.unpack_ptr := by
  have hnot := unpack_fixed_succeeds w conv buffer dest n type hs
  have hsz := size_mul_count n h0 h31 w hw
  refine ⟨by rw [unpack_fixed_ok w conv buffer dest n type hnot], fun mem hmem => ?_⟩
  have hnot2 : ¬ ({ buffer with base_ptr := mem } : pmix_buffer_t).bytes_used -
      ({ buffer with base_ptr := mem } : pmix_buffer_t).unpack_ptr <
        size_mul (to_size_t n) w := hnot
  rw [unpack_fixed_ok w conv _ dest n type hnot2, unpack_fixed_ok w conv buffer dest n type hnot]
  refine ⟨rfl, ?_, rfl⟩
  funext j
  by_cases hj : j < n.toNat
  · simp only [hj, if_true]
    congr 1
    apply wire_bytes_congr
    intro t ht
    apply hmem
    rw [hsz] at hnot
    have h1 : (j + 1) * w ≤ n.toNat * w := Nat.mul_le_mul_right w hj
    have e : (j + 1) * w = j * w + w := by ring
    omega
  · simp only [hj, if_false]

theorem unpack_byte_frame (buffer : pmix_buffer_t) (dest : Nat → uint8_t) (n : Int)
    (type : pmix_data_type_t) (h0 : 0 ≤ n) (h31 : n < 2 ^ 31)
    (hs : (pmix_bfrop_unpack_byte buffer dest n type).rc = PMIX_SUCCESS) :
    (pmix_bfrop_unpack_byte buffer dest n type).buffer =
        { buffer with unpack_ptr := buffer.unpack_ptr + n.toNat * 1 } ∧
    ∀ mem : List uint8_t,
      (∀ j, j < buffer.bytes_used → byte_at mem j = byte_at buffer.base_ptr j) →
      (pmix_bfrop_unpack_byte { buffer with base_ptr := mem } dest n type).rc = PMIX_SUCCESS ∧
      (pmix_bfrop_unpack_byte { buffer with base_ptr := mem } dest n type).dest =
        (pmix_bfrop_unpack_byte buffer dest n type).dest ∧
      (pmix_bfrop_unpack_byte { buffer with base_ptr := mem } dest n type).buffer.unpack_ptr =
        (pmix_bfrop_unpack_byte buffer dest n type).buffer.unpack_ptr := by
  have hnot := unpack_byte_succeeds buffer dest n type hs
  have hsz := to_size_t_of_nonneg n h0 h31
  refine ⟨by rw [unpack_byte_ok buffer dest n type h0 hnot, Nat.mul_one], fun mem hmem => ?_⟩
  have hnot2 : ¬ ({ buffer with base_ptr := mem } : pmix_buffer_t).bytes_used -
      ({ buffer with base_ptr := mem } : pmix_buffer_t).unpack_ptr < to_size_t n := hnot
  rw [unpack_byte_ok _ dest n type h0 hnot2, unpack_byte_ok buffer dest n type h0 hnot]
  refine ⟨rfl, ?_, rfl⟩
  funext j
  unfold memcpy
  by_cases hj : j < to_size_t n
  · simp only [hj, if_true]
    apply hmem
    omega
  · simp only [hj, if_false]

/-! ## Fixed-width decoders: round trip and frame -/

/-- C2: for every list `xs` of 16-bit (resp. 32-bit, 64-bit) values, the int16 (resp.
int32, int64) decoder, run with count `length xs` on a buffer whose remaining bytes are
the network-order encoding of `xs`, returns success, writes `xs` to the destination
slots `0 .. length xs - 1` (slot `i` being the big-endian value of the bytes
`[i * width, (i + 1) * width)` after the cursor), and leaves the other slots alone. -/
theorem fixed_width_round_trip (buffer : pmix_buffer_t) (dest : Nat → Nat) (xs : List Nat)
    (type : pmix_data_type_t) (hlen : xs.length < 2 ^ 31) :
    ∀ p ∈ [(pmix_bfrop_unpack_int16, 2), (pmix_bfrop_unpack_int32, 4),
        (pmix_bfrop_unpack_int64, 8)],
      (∀ x ∈ xs, x < 2 ^ (8 * p.2)) →
      (buffer.base_ptr.take buffer.bytes_used).drop buffer.unpack_ptr = pack_ints p.2 xs →
      (p.1 buffer dest (xs.length : Int) type).rc = PMIX_SUCCESS ∧
      (∀ i (hi : i < xs.length),
        (p.1 buffer dest (xs.length : Int) type).dest i = xs[i] ∧
        (p.1 buffer dest (xs.length : Int) type).dest i =
          ntoh (wire_bytes buffer.base_ptr (buffer.unpack_ptr + i * p.2) p.2)) ∧
      (∀ i, xs.length ≤ i → (p.1 buffer dest (xs.length : Int) type).dest i = dest i) := by
  intro p hp hx hrem
  simp only [List.mem_cons, List.mem_singleton, List.not_mem_nil, or_false] at hp
  rcases hp with rfl | rfl | rfl
  · exact unpack_fixed_round_trip 2 (by decide) buffer dest xs type hlen hx hrem
  · exact unpack_fixed_round_trip 4 (by decide) buffer dest xs type hlen hx hrem
  · exact unpack_fixed_round_trip 8 (by decide) buffer dest xs type hlen hx hrem

/-- Witness: the bytes `00 05 00 07` decode, as two int16 values, to 5 and 7. -/
theorem fixed_width_round_trip_witness :
    (pmix_bfrop_unpack_int16 sample_int16_buffer (fun _ => 0) 2 PMIX_INT32).rc = PMIX_SUCCESS ∧
    (pmix_bfrop_unpack_int16 sample_int16_buffer (fun _ => 0) 2 PMIX_INT32).dest 0 = 5 ∧
    (pmix_bfrop_unpack_int16 sample_int16_buffer (fun _ => 0) 2 PMIX_INT32).dest 1 = 7 := by
  have h := fixed_width_round_trip sample_int16_buffer (fun _ => 0) [5, 7] PMIX_INT32
    (by decide) (pmix_bfrop_unpack_int16, 2) (by simp) (by decide) (by decide)
  exact ⟨h.1, (h.2.1 0 (by decide)).1, (h.2.1 1 (by decide)).1⟩

/-- C3: for every successful decode of `n ≥ 0` elements by the byte, null, int16, int32
or int64 decoder, the buffer afterwards is the buffer before with the unpack cursor
moved forward by exactly `n * width` (base, pack pointer, bytes allocated, bytes used
and mode are unchanged), and no byte at or beyond the end of the used region is read:
replacing the storage by any storage that agrees with it below `bytes_used` gives the
same status, the same destination and the same cursor. -/
theorem fixed_width_cursor_and_frame (buffer : pmix_buffer_t) (n : Int)
    (type : pmix_data_type_t) (h0 : 0 ≤ n) (h31 : n < 2 ^ 31) :
    (∀ f ∈ [pmix_bfrop_unpack_byte, pmix_bfrop_unpack_null], ∀ dest : Nat → uint8_t,
      (f buffer dest n type).rc = PMIX_SUCCESS →
      (f buffer dest n type).buffer =
        { buffer with unpack_ptr := buffer.unpack_ptr + n.toNat * 1 } ∧
      ∀ mem : List uint8_t,
        (∀ j, j < buffer.bytes_used → byte_at mem j = byte_at buffer.base_ptr j) →
        (f { buffer with base_ptr := mem } dest n type).rc = PMIX_SUCCESS ∧
        (f { buffer with base_ptr := mem } dest n type).dest = (f buffer dest n type).dest ∧
        (f { buffer with base_ptr := mem } dest n type).buffer.unpack_ptr =
          (f buffer dest n type).buffer.unpack_ptr) ∧
    (∀ p ∈ [(pmix_bfrop_unpack_int16, 2), (pmix_bfrop_unpack_int32, 4),
        (pmix_bfrop_unpack_int64, 8)], ∀ dest : Nat → Nat,
      (p.1 buffer dest n type).rc = PMIX_SUCCESS →
      (p.1 buffer dest n type).buffer =
        { buffer with unpack_ptr := buffer.unpack_ptr + n.toNat * p.2 } ∧
      ∀ mem : List uint8_t,
        (∀ j, j < buffer.bytes_used → byte_at mem j = byte_at buffer.base_ptr j) →
        (p.1 { buffer with base_ptr := mem } dest n type).rc = PMIX_SUCCESS ∧
        (p.1 { buffer with base_ptr := mem } dest n type).dest =
          (p.1 buffer dest n type).dest ∧
        (p.1 { buffer with base_ptr := mem } dest n type).buffer.unpack_ptr =
          (p.1 buffer dest n type).buffer.unpack_ptr) := by
  constructor
  · intro f hf dest hs
    have hf2 : f = pmix_bfrop_unpack_byte := by
      simp only [List.mem_cons, List.mem_singleton, List.not_mem_nil, or_false] at hf
      rcases hf with rfl | rfl
      · rfl
      · exact pmix_bfrop_unpack_null_eq
    subst hf2
    exact unpack_byte_frame buffer dest n type h0 h31 hs
  · intro p hp dest hs
    simp only [List.mem_cons, List.mem_singleton, List.not_mem_nil, or_false] at hp
    rcases hp with rfl | rfl | rfl
    · exact unpack_fixed_frame 2 ntohs (by decide) buffer dest n type h0 h31 hs
    · exact unpack_fixed_frame 4 ntohl (by decide) buffer dest n type h0 h31 hs
    · exact unpack_fixed_frame 8 ntoh64 (by decide) buffer dest n type h0 h31 hs

/-- Witness: decoding two int32 values from the eight-byte sample buffer moves the
cursor from 0 to 8 and changes nothing else. -/
theorem fixed_width_cursor_and_frame_witness :
    (pmix_bfrop_unpack_int32 sample_buffer (fun _ => 0) 2 PMIX_INT32).buffer =
      { sample_buffer with unpack_ptr := 8 } :=
  ((fixed_width_cursor_and_frame sample_buffer 2 PMIX_INT32 (by decide) (by decide)).2
    (pmix_bfrop_unpack_int32, 4) (by simp) (fun _ => 0) (by decide)).1

/-! ## The tag and the count header -/

theorem unpack_int32_one (b : pmix_buffer_t) (d : Nat → Nat) (type : pmix_data_type_t)
    (h : 4 ≤ b.bytes_used - b.unpack_ptr) :
    pmix_bfrop_unpack_int32 b d 1 type =
      ⟨PMIX_SUCCESS, { b with unpack_ptr := b.unpack_ptr + 4 },
        fun j => if j < 1 then ntohl (wire_bytes b.base_ptr (b.unpack_ptr + j * 4) 4)
          else d j, 1⟩ := by
  have hsz : size_mul (to_size_t 1) 4 = 4 := by decide
  have hnot : ¬ b.bytes_used - b.unpack_ptr < size_mul (to_size_t 1) 4 := by
    rw [hsz]
    omega
  rw [pmix_bfrop_unpack_int32_eq, unpack_fixed_ok 4 ntohl b d 1 type hnot]
  rfl

theorem unpack_int32_one_short (b : pmix_buffer_t) (d : Nat → Nat) (type : pmix_data_type_t)
    (h : b.bytes_used - b.unpack_ptr < 4) :
    pmix_bfrop_unpack_int32 b d 1 type =
      ⟨PMIX_ERR_UNPACK_READ_PAST_END_OF_BUFFER, b, d, 1⟩ := by
  have hsz : size_mul (to_size_t 1) 4 = 4 := by decide
  unfold pmix_bfrop_unpack_int32 pmix_bfrop_too_small
  rw [hsz]
  simp [h]

theorem get_data_type_ok (b : pmix_buffer_t) (h : 4 ≤ b.bytes_used - b.unpack_ptr) :
    pmix_bfrop_get_data_type b =
      (PMIX_SUCCESS, { b with unpack_ptr := b.unpack_ptr + 4 },
        ntohl (wire_bytes b.base_ptr b.unpack_ptr 4)) := by
  unfold pmix_bfrop_get_data_type
  rw [unpack_int32_one b _ PMIX_INT32 h]
  simp

theorem get_data_type_short (b : pmix_buffer_t) (h : b.bytes_used - b.unpack_ptr < 4) :
    pmix_bfrop_get_data_type b = (PMIX_ERR_UNPACK_READ_PAST_END_OF_BUFFER, b, 0) := by
  unfold pmix_bfrop_get_data_type
  rw [unpack_int32_one_short b _ PMIX_INT32 h]

theorem get_data_type_success (b b1 : pmix_buffer_t) (t : pmix_data_type_t)
    (h : pmix_bfrop_get_data_type b = (PMIX_SUCCESS, b1, t)) :
    b1 = { b with unpack_ptr := b.unpack_ptr + 4 } ∧ 4 ≤ b.bytes_used - b.unpack_ptr ∧
      t = ntohl (wire_bytes b.base_ptr b.unpack_ptr 4) := by
  by_cases c : 4 ≤ b.bytes_used - b.unpack_ptr
  · rw [get_data_type_ok b c] at h
    simp only [Prod.mk.injEq, true_and] at h
    exact ⟨h.1.symm, c, h.2.symm⟩
  · rw [get_data_type_short b (by omega)] at h
    simp at h

/-! ## The batch decoder -/

theorem unpack_after_header {δ : Type}
    (reg : pmix_data_type_t → Option (pmix_bfrop_type_info_t δ))
    (buffer b1 : pmix_buffer_t) (dst : δ) (k : Int) (type : pmix_data_type_t)
    (hk : k ≠ 0)
    (hmode : (buffer.type = PMIX_BFROP_BUFFER_NON_DESC ∧ b1 = buffer) ∨
      (buffer.type = PMIX_BFROP_BUFFER_FULLY_DESC ∧
        pmix_bfrop_get_data_type buffer = (PMIX_SUCCESS, b1, PMIX_INT32)))
    (hcnt : 4 ≤ b1.bytes_used - b1.unpack_ptr) :
    pmix_bfrop_unpack reg (some buffer) (some dst) (some k) type =
      if to_int32 (ntohl (wire_bytes b1.base_ptr b1.unpack_ptr 4)) > k then
        if (pmix_bfrop_unpack_buffer reg { b1 with unpack_ptr := b1.unpack_ptr + 4 }
            dst k type).rc ≠ PMIX_SUCCESS then
          ⟨(pmix_bfrop_unpack_buffer reg { b1 with unpack_ptr := b1.unpack_ptr + 4 }
              dst k type).rc,
            some (pmix_bfrop_unpack_buffer reg { b1 with unpack_ptr := b1.unpack_ptr + 4 }
              dst k type).buffer,
            some (pmix_bfrop_unpack_buffer reg { b1 with unpack_ptr := b1.unpack_ptr + 4 }
              dst k type).dest, some 0⟩
        else
          ⟨PMIX_ERR_UNPACK_INADEQUATE_SPACE,
            some (pmix_bfrop_unpack_buffer reg { b1 with unpack_ptr := b1.unpack_ptr + 4 }
              dst k type).buffer,
            some (pmix_bfrop_unpack_buffer reg { b1 with unpack_ptr := b1.unpack_ptr + 4 }
              dst k type).dest, some k⟩
      else
        if (pmix_bfrop_unpack_buffer reg { b1 with unpack_ptr := b1.unpack_ptr + 4 }
            dst (to_int32 (ntohl (wire_bytes b1.base_ptr b1.unpack_ptr 4))) type).rc
              ≠ PMIX_SUCCESS then
          ⟨(pmix_bfrop_unpack_buffer reg { b1 with unpack_ptr := b1.unpack_ptr + 4 }
              dst (to_int32 (ntohl (wire_bytes b1.base_ptr b1.unpack_ptr 4))) type).rc,
            some (pmix_bfrop_unpack_buffer reg { b1 with unpack_ptr := b1.unpack_ptr + 4 }
              dst (to_int32 (ntohl (wire_bytes b1.base_ptr b1.unpack_ptr 4))) type).buffer,
            some (pmix_bfrop_unpack_buffer reg { b1 with unpack_ptr := b1.unpack_ptr + 4 }
              dst (to_int32 (ntohl (wire_bytes b1.base_ptr b1.unpack_ptr 4))) type).dest,
            some 0⟩
        else
          ⟨PMIX_SUCCESS,
            some (pmix_bfrop_unpack_buffer reg { b1 with unpack_ptr := b1.unpack_ptr + 4 }
              dst (to_int32 (ntohl (wire_bytes b1.base_ptr b1.unpack_ptr 4))) type).buffer,
            some (pmix_bfrop_unpack_buffer reg { b1 with unpack_ptr := b1.unpack_ptr + 4 }
              dst (to_int32 (ntohl (wire_bytes b1.base_ptr b1.unpack_ptr 4))) type).dest,
            some (to_int32 (ntohl (wire_bytes b1.base_ptr b1.unpack_ptr 4)))⟩ := by
  have hcount := unpack_int32_one b1 (fun _ => 0) PMIX_INT32 hcnt
  rcases hmode with ⟨hm, rfl⟩ | ⟨hm, hg⟩
  · simp [pmix_bfrop_unpack, hk, hm, hcount]
  · simp [pmix_bfrop_unpack, hk, hm, hg, hcount]

/-- C4: partial success of the batch decoder. If the count header of the buffer (the
four bytes at the cursor, after the inline INT32 tag in self-describing mode) holds a
count `c` greater than the capacity `k > 0`, and generic dispatch decodes `k` elements
successfully from the position after the header, then the call returns InadequateSpace,
the output count is still `k`, and destination and buffer are exactly what generic
dispatch produced for count `k`. -/
theorem unpack_partial_success {δ : Type}
    (reg : pmix_data_type_t → Option (pmix_bfrop_type_info_t δ))
    (buffer b1 : pmix_buffer_t) (dst : δ) (k c : Int) (type : pmix_data_type_t)
    (hk : 0 < k)
    (hmode : (buffer.type = PMIX_BFROP_BUFFER_NON_DESC ∧ b1 = buffer) ∨
      (buffer.type = PMIX_BFROP_BUFFER_FULLY_DESC ∧
        pmix_bfrop_get_data_type buffer = (PMIX_SUCCESS, b1, PMIX_INT32)))
    (hcnt : 4 ≤ b1.bytes_used - b1.unpack_ptr)
    (hc : to_int32 (ntohl (wire_bytes b1.base_ptr b1.unpack_ptr 4)) = c)
    (hgt : c > k)
    (helems : (pmix_bfrop_unpack_buffer reg { b1 with unpack_ptr := b1.unpack_ptr + 4 }
      dst k type).rc = PMIX_SUCCESS) :
    pmix_bfrop_unpack reg (some buffer) (some dst) (some k) type =
      ⟨PMIX_ERR_UNPACK_INADEQUATE_SPACE,
        some (pmix_bfrop_unpack_buffer reg { b1 with unpack_ptr := b1.unpack_ptr + 4 }
          dst k type).buffer,
        some (pmix_bfrop_unpack_buffer reg { b1 with unpack_ptr := b1.unpack_ptr + 4 }
          dst k type).dest,
        some k⟩ := by
  rw [unpack_after_header reg buffer b1 dst k type (by omega) hmode hcnt, hc]
  simp [hgt, helems]

/-- Witness: wire count 5 against capacity 3 yields InadequateSpace, output count
3, and the first three wire elements 1, 2, 3 in the destination (slot 3 is untouched). -/
theorem unpack_partial_success_witness :
    (pmix_bfrop_unpack int32_registry (some sample_batch) (some (fun _ => 0)) (some 3)
      PMIX_INT32).rc = PMIX_ERR_UNPACK_INADEQUATE_SPACE ∧
    (pmix_bfrop_unpack int32_registry (some sample_batch) (some (fun _ => 0)) (some 3)
      PMIX_INT32).num_vals = some 3 ∧
    (pmix_bfrop_unpack int32_registry (some sample_batch) (some (fun _ => 0)) (some 3)
      PMIX_INT32).dest.map (fun d => [d 0, d 1, d 2, d 3]) = some [1, 2, 3, 0] := by
  rw [unpack_partial_success int32_registry sample_batch sample_batch (fun _ => 0) 3 5
    PMIX_INT32 (by decide) (Or.inl ⟨rfl, rfl⟩) (by decide) (by decide) (by decide)
    (by decide)]
  exact ⟨rfl, rfl, by decide⟩

/-- C5: if the count header of the buffer (the four bytes at the cursor, after the inline
INT32 tag in self-describing mode) holds a count `c` with `0 ≤ c ≤ k` for the capacity
`k > 0`, and generic dispatch decodes `c` elements of the expected type successfully
from the position right after the header, then the call returns success, sets the
output count to `c`, and leaves in destination and buffer exactly what generic dispatch
produced. -/
theorem unpack_exact_count {δ : Type}
    (reg : pmix_data_type_t → Option (pmix_bfrop_type_info_t δ))
    (buffer b1 : pmix_buffer_t) (dst : δ) (k c : Int) (type : pmix_data_type_t)
    (hk : 0 < k)
    (hmode : (buffer.type = PMIX_BFROP_BUFFER_NON_DESC ∧ b1 = buffer) ∨
      (buffer.type = PMIX_BFROP_BUFFER_FULLY_DESC ∧
        pmix_bfrop_get_data_type buffer = (PMIX_SUCCESS, b1, PMIX_INT32)))
    (hcnt : 4 ≤ b1.bytes_used - b1.unpack_ptr)
    (hc : to_int32 (ntohl (wire_bytes b1.base_ptr b1.unpack_ptr 4)) = c)
    (hc0 : 0 ≤ c) (hle : c ≤ k)
    (helems : (pmix_bfrop_unpack_buffer reg { b1 with unpack_ptr := b1.unpack_ptr + 4 }
      dst c type).rc = PMIX_SUCCESS) :
    pmix_bfrop_unpack reg (some buffer) (some dst) (some k) type =
      ⟨PMIX_SUCCESS,
        some (pmix_bfrop_unpack_buffer reg { b1 with unpack_ptr := b1.unpack_ptr + 4 }
          dst c type).buffer,
        some (pmix_bfrop_unpack_buffer reg { b1 with unpack_ptr := b1.unpack_ptr + 4 }
          dst c type).dest,
        some c⟩ := by
  have hng : ¬ c > k := by omega
  have _ := hc0
  rw [unpack_after_header reg buffer b1 dst k type (by omega) hmode hcnt, hc]
  simp [hng, helems]

/-- Witness: wire count 5 against capacity 8 yields success, output count 5 and the
five wire elements, with the cursor at the end of the 24 bytes. -/
theorem unpack_exact_count_witness :
    (pmix_bfrop_unpack int32_registry (some sample_batch) (some (fun _ => 0)) (some 8)
      PMIX_INT32).rc = PMIX_SUCCESS ∧
    (pmix_bfrop_unpack int32_registry (some sample_batch) (some (fun _ => 0)) (some 8)
      PMIX_INT32).num_vals = some 5 ∧
    (pmix_bfrop_unpack int32_registry (some sample_batch) (some (fun _ => 0)) (some 8)
      PMIX_INT32).dest.map (fun d => [d 0, d 1, d 2, d 3, d 4, d 5]) =
        some [1, 2, 3, 4, 5, 0] ∧
    (pmix_bfrop_unpack int32_registry (some sample_batch) (some (fun _ => 0)) (some 8)
      PMIX_INT32).buffer = some { sample_batch with unpack_ptr := 24 } := by
  rw [unpack_exact_count int32_registry sample_batch sample_batch (fun _ => 0) 8 5
    PMIX_INT32 (by decide) (Or.inl ⟨rfl, rfl⟩) (by decide) (by decide) (by decide)
    (by decide) (by decide)]
  exact ⟨rfl, rfl, by decide, by decide⟩

/-- C6: whenever the element decode that the batch decoder invokes (generic dispatch on
the position after the count header, with the wire count `c` or, when `c` exceeds the
capacity `k`, with `k`) fails with status `e`, the batch decoder returns exactly `e` and
sets the output count to 0. -/
theorem unpack_element_failure {δ : Type}
    (reg : pmix_data_type_t → Option (pmix_bfrop_type_info_t δ))
    (buffer b1 : pmix_buffer_t) (dst : δ) (k c : Int) (type : pmix_data_type_t)
    (e : pmix_status_t)
    (hk : k ≠ 0)
    (hmode : (buffer.type = PMIX_BFROP_BUFFER_NON_DESC ∧ b1 = buffer) ∨
      (buffer.type = PMIX_BFROP_BUFFER_FULLY_DESC ∧
        pmix_bfrop_get_data_type buffer = (PMIX_SUCCESS, b1, PMIX_INT32)))
    (hcnt : 4 ≤ b1.bytes_used - b1.unpack_ptr)
    (hc : to_int32 (ntohl (wire_bytes b1.base_ptr b1.unpack_ptr 4)) = c)
    (hfail : (pmix_bfrop_unpack_buffer reg { b1 with unpack_ptr := b1.unpack_ptr + 4 }
      dst (if c > k then k else c) type).rc = e)
    (he : e ≠ PMIX_SUCCESS) :
    (pmix_bfrop_unpack reg (some buffer) (some dst) (some k) type).rc = e ∧
    (pmix_bfrop_unpack reg (some buffer) (some dst) (some k) type).num_vals = some 0 := by
  rw [unpack_after_header reg buffer b1 dst k type hk hmode hcnt, hc]
  by_cases hgt : c > k
  · simp only [hgt, if_true] at hfail ⊢
    rw [hfail]
    simp [he]
  · simp only [hgt, if_false] at hfail ⊢
    rw [hfail]
    simp [he]

/-- Witness: a batch that announces two int32 values and holds one fails with
ReadPastEndOfBuffer and output count 0. -/
theorem unpack_element_failure_witness :
    (pmix_bfrop_unpack int32_registry (some sample_short_batch) (some (fun _ => 0)) (some 4)
      PMIX_INT32).rc = PMIX_ERR_UNPACK_READ_PAST_END_OF_BUFFER ∧
    (pmix_bfrop_unpack int32_registry (some sample_short_batch) (some (fun _ => 0)) (some 4)
      PMIX_INT32).num_vals = some 0 :=
  unpack_element_failure int32_registry sample_short_batch sample_short_batch (fun _ => 0)
    4 2 PMIX_INT32 PMIX_ERR_UNPACK_READ_PAST_END_OF_BUFFER (by decide) (Or.inl ⟨rfl, rfl⟩)
    (by decide) (by decide) (by decide) (by decide)

/-- C7: for every buffer (in either mode), every destination and every expected type, the
batch decoder called with capacity 0 returns InadequateSpace and leaves the buffer, the
destination and the capacity as they were. -/
theorem unpack_zero_capacity {δ : Type}
    (reg : pmix_data_type_t → Option (pmix_bfrop_type_info_t δ))
    (buffer : pmix_buffer_t) (dst : δ) (type : pmix_data_type_t) :
    pmix_bfrop_unpack reg (some buffer) (some dst) (some 0) type =
      ⟨PMIX_ERR_UNPACK_INADEQUATE_SPACE, some buffer, some dst, some 0⟩ := by
  simp [pmix_bfrop_unpack]

/-- C8: in self-describing mode with a capacity other than 0, if the inline tag read
first is any value other than INT32, the batch decoder returns UnpackFailure and sets
the capacity to 0, whatever the expected type and the bytes that follow. -/
theorem unpack_header_tag_not_int32 {δ : Type}
    (reg : pmix_data_type_t → Option (pmix_bfrop_type_info_t δ))
    (buffer b1 : pmix_buffer_t) (dst : δ) (k : Int) (type t : pmix_data_type_t)
    (hk : k ≠ 0)
    (hm : buffer.type = PMIX_BFROP_BUFFER_FULLY_DESC)
    (hg : pmix_bfrop_get_data_type buffer = (PMIX_SUCCESS, b1, t))
    (ht : t ≠ PMIX_INT32) :
    (pmix_bfrop_unpack reg (some buffer) (some dst) (some k) type).rc =
      PMIX_ERR_UNPACK_FAILURE ∧
    (pmix_bfrop_unpack reg (some buffer) (some dst) (some k) type).num_vals = some 0 := by
  have ht2 : ¬ PMIX_INT32 = t := fun h => ht h.symm
  simp [pmix_bfrop_unpack, hk, hm, hg, ht2]

/-- Witness: a self-describing buffer that starts with the string tag is refused
by the batch decoder with UnpackFailure and capacity 0. -/
theorem unpack_header_tag_not_int32_witness :
    (pmix_bfrop_unpack int32_registry (some sample_described_string) (some (fun _ => 0))
      (some 3) PMIX_STRING).rc = PMIX_ERR_UNPACK_FAILURE ∧
    (pmix_bfrop_unpack int32_registry (some sample_described_string) (some (fun _ => 0))
      (some 3) PMIX_STRING).num_vals = some 0 :=
  unpack_header_tag_not_int32 int32_registry sample_described_string
    { sample_described_string with unpack_ptr := 4 } (fun _ => 0) 3 PMIX_STRING PMIX_STRING
    (by decide) rfl (by decide) (by decide)

/-! ## Generic dispatch -/

/-- C9: in self-describing mode, for every expected type and every buffer whose next
inline tag is a different type, generic dispatch returns PackMismatch, leaves the
destination and the count untouched, and leaves the cursor right after the four bytes
of the tag: no byte after the tag is consumed. -/
theorem unpack_buffer_tag_mismatch {δ : Type}
    (reg : pmix_data_type_t → Option (pmix_bfrop_type_info_t δ))
    (buffer b1 : pmix_buffer_t) (dst : δ) (n : Int) (type t : pmix_data_type_t)
    (hm : buffer.type = PMIX_BFROP_BUFFER_FULLY_DESC)
    (hg : pmix_bfrop_get_data_type buffer = (PMIX_SUCCESS, b1, t))
    (ht : t ≠ type) :
    pmix_bfrop_unpack_buffer reg buffer dst n type =
      ⟨PMIX_ERR_PACK_MISMATCH, { buffer with unpack_ptr := buffer.unpack_ptr + 4 }, dst, n⟩ := by
  have ht2 : ¬ type = t := fun h => ht h.symm
  have hb := (get_data_type_success buffer b1 t hg).1
  simp [pmix_bfrop_unpack_buffer, hm, hg, ht2, hb]

/-- Witness: expected INT32 against the inline tag STRING gives PackMismatch with
the cursor at offset 4, before the string payload. -/
theorem unpack_buffer_tag_mismatch_witness :
    pmix_bfrop_unpack_buffer int32_registry sample_described_string (fun _ => 0) 1
        PMIX_INT32 =
      ⟨PMIX_ERR_PACK_MISMATCH, { sample_described_string with unpack_ptr := 4 },
        fun _ => 0, 1⟩ :=
  unpack_buffer_tag_mismatch int32_registry sample_described_string
    { sample_described_string with unpack_ptr := 4 } (fun _ => 0) 1 PMIX_INT32 PMIX_STRING
    rfl (by decide) (by decide)

/-- Counterexample to C10: the string type has no entry in the sample registry, and on a
self-describing buffer that holds two bytes only generic dispatch for the string type
returns ReadPastEndOfBuffer, the status of the failed tag read, not UnpackFailure. -/
theorem unpack_buffer_unregistered_short :
    int32_registry PMIX_STRING = none ∧
    pmix_bfrop_unpack_buffer int32_registry sample_described_short (fun _ => 0) 1
        PMIX_STRING =
      ⟨PMIX_ERR_UNPACK_READ_PAST_END_OF_BUFFER, sample_described_short, fun _ => 0, 1⟩ := by
  refine ⟨rfl, rfl⟩

/-- C10, amended: for every expected type without an entry in the registry, generic
dispatch invokes no decoder and leaves destination and count untouched: in
non-described mode it returns UnpackFailure and the buffer is untouched too; in
self-describing mode a tag that differs from the expected type gives PackMismatch
first, and a matching tag gives UnpackFailure with the cursor after the tag. When the
type is registered and the tag check passes (or the buffer is non-described), the result
is exactly the result of the registered decoder, applied to the buffer after the tag (or
to the buffer itself). In self-describing mode a tag read that fails takes precedence
over all of this, whether the type is registered or not: its status is returned with
the buffer as the read left it. -/
theorem unpack_buffer_registry {δ : Type}
    (reg : pmix_data_type_t → Option (pmix_bfrop_type_info_t δ))
    (buffer b1 : pmix_buffer_t) (dst : δ) (n : Int) (type t : pmix_data_type_t) :
    (reg type = none → buffer.type = PMIX_BFROP_BUFFER_NON_DESC →
      pmix_bfrop_unpack_buffer reg buffer dst n type =
        ⟨PMIX_ERR_UNPACK_FAILURE, buffer, dst, n⟩) ∧
    (reg type = none → buffer.type = PMIX_BFROP_BUFFER_FULLY_DESC →
      pmix_bfrop_get_data_type buffer = (PMIX_SUCCESS, b1, t) → t ≠ type →
      (pmix_bfrop_unpack_buffer reg buffer dst n type).rc = PMIX_ERR_PACK_MISMATCH) ∧
    (reg type = none → buffer.type = PMIX_BFROP_BUFFER_FULLY_DESC →
      pmix_bfrop_get_data_type buffer = (PMIX_SUCCESS, b1, type) →
      pmix_bfrop_unpack_buffer reg buffer dst n type =
        ⟨PMIX_ERR_UNPACK_FAILURE, { buffer with unpack_ptr := buffer.unpack_ptr + 4 },
          dst, n⟩) ∧
    (∀ info, reg type = some info → buffer.type = PMIX_BFROP_BUFFER_NON_DESC →
      pmix_bfrop_unpack_buffer reg buffer dst n type =
        info.odti_unpack_fn buffer dst n type) ∧
    (∀ info, reg type = some info → buffer.type = PMIX_BFROP_BUFFER_FULLY_DESC →
      pmix_bfrop_get_data_type buffer = (PMIX_SUCCESS, b1, type) →
      pmix_bfrop_unpack_buffer reg buffer dst n type =
        info.odti_unpack_fn { buffer with unpack_ptr := buffer.unpack_ptr + 4 } dst n type) ∧
    (∀ rc, buffer.type = PMIX_BFROP_BUFFER_FULLY_DESC →
      pmix_bfrop_get_data_type buffer = (rc, b1, t) → rc ≠ PMIX_SUCCESS →
      pmix_bfrop_unpack_buffer reg buffer dst n type = ⟨rc, b1, dst, n⟩) := by
  refine ⟨fun hr hm => ?_, fun _ hm hg ht => ?_, fun hr hm hg => ?_, fun info hr hm => ?_,
    fun info hr hm hg => ?_, fun rc hm hg hrc => ?_⟩
  · simp [pmix_bfrop_unpack_buffer, hm, hr]
  · have ht2 : ¬ type = t := fun h => ht h.symm
    simp [pmix_bfrop_unpack_buffer, hm, hg, ht2]
  · have hb := (get_data_type_success buffer b1 type hg).1
    simp [pmix_bfrop_unpack_buffer, hm, hg, hr, hb]
  · simp [pmix_bfrop_unpack_buffer, hm, hr]
  · have hb := (get_data_type_success buffer b1 type hg).1
    simp [pmix_bfrop_unpack_buffer, hm, hg, hr, hb]
  · simp [pmix_bfrop_unpack_buffer, hm, hg, hrc]

/-- Witness: the string type has no entry in the sample registry, so generic
dispatch on a non-described buffer returns UnpackFailure and consumes nothing, and on
the self-describing string buffer it returns UnpackFailure with the cursor after the
tag; the int32 type is registered, and the self-describing int32 buffer decodes to 7,
while on the self-describing buffer of two bytes the tag read fails and its status,
ReadPastEndOfBuffer, is returned. -/
theorem unpack_buffer_registry_witness :
    pmix_bfrop_unpack_buffer int32_registry sample_buffer (fun _ => 0) 1 PMIX_STRING =
      ⟨PMIX_ERR_UNPACK_FAILURE, sample_buffer, fun _ => 0, 1⟩ ∧
    pmix_bfrop_unpack_buffer int32_registry sample_described_string (fun _ => 0) 1
        PMIX_STRING =
      ⟨PMIX_ERR_UNPACK_FAILURE, { sample_described_string with unpack_ptr := 4 },
        fun _ => 0, 1⟩ ∧
    (pmix_bfrop_unpack_buffer int32_registry sample_described_int32 (fun _ => 0) 1
        PMIX_INT32).dest 0 = 7 ∧
    pmix_bfrop_unpack_buffer int32_registry sample_described_short (fun _ => 0) 1
        PMIX_INT32 =
      ⟨PMIX_ERR_UNPACK_READ_PAST_END_OF_BUFFER, sample_described_short, fun _ => 0, 1⟩ := by
  refine ⟨(unpack_buffer_registry int32_registry sample_buffer sample_buffer (fun _ => 0) 1
      PMIX_STRING PMIX_STRING).1 rfl rfl,
    (unpack_buffer_registry int32_registry sample_described_string
      { sample_described_string with unpack_ptr := 4 } (fun _ => 0) 1
      PMIX_STRING PMIX_STRING).2.2.1 rfl rfl (by decide), ?_,
    (unpack_buffer_registry int32_registry sample_described_short sample_described_short
      (fun _ => 0) 1 PMIX_INT32
      (pmix_bfrop_get_data_type sample_described_short).2.2).2.2.2.2.2
      PMIX_ERR_UNPACK_READ_PAST_END_OF_BUFFER rfl (by decide) (by decide)⟩
  rw [(unpack_buffer_registry int32_registry sample_described_int32
      { sample_described_int32 with unpack_ptr := 4 } (fun _ => 0) 1
      PMIX_INT32 PMIX_INT32).2.2.2.2.1 ⟨pmix_bfrop_unpack_int32⟩ rfl rfl (by decide)]
  decide

/-! ## Counts of either sign -/

theorem to_int32_range (u : Nat) : -(2 : Int) ^ 31 ≤ to_int32 u ∧ to_int32 u < 2 ^ 31 := by
  unfold to_int32
  have h : u % 2 ^ 32 < 2 ^ 32 := Nat.mod_lt _ (by norm_num)
  split <;> omega

theorem to_size_t_of_neg (n : Int) (hlo : -(2 : Int) ^ 31 ≤ n) (hneg : n < 0) :
    (to_size_t n : Int) = 2 ^ 64 + n := by
  unfold to_size_t
  omega

theorem size_mul_of_neg (n : Int) (hlo : -(2 : Int) ^ 31 ≤ n) (hneg : n < 0) (w : Nat)
    (hw : w = 2 ∨ w = 4 ∨ w = 8) : 2 ^ 63 ≤ size_mul (to_size_t n) w := by
  have h := to_size_t_of_neg n hlo hneg
  unfold size_mul
  rcases hw with rfl | rfl | rfl <;> omega

theorem unpack_byte_cases (b : pmix_buffer_t) (d : Nat → uint8_t) (n : Int)
    (type : pmix_data_type_t) (hlo : -(2 : Int) ^ 31 ≤ n) (hhi : n < 2 ^ 31)
    (hsize : b.bytes_used < 2 ^ 63) :
    pmix_bfrop_unpack_byte b d n type =
        ⟨PMIX_ERR_UNPACK_READ_PAST_END_OF_BUFFER, b, d, n⟩ ∨
    (0 ≤ n ∧ n.toNat ≤ b.bytes_used - b.unpack_ptr ∧
      pmix_bfrop_unpack_byte b d n type =
        ⟨PMIX_SUCCESS, { b with unpack_ptr := b.unpack_ptr + n.toNat },
          memcpy d b n.toNat, n⟩) := by
  by_cases hs : (pmix_bfrop_unpack_byte b d n type).rc = PMIX_SUCCESS
  · right
    have hnot := unpack_byte_succeeds b d n type hs
    have h0 : 0 ≤ n := by
      by_contra hneg
      have h := to_size_t_of_neg n hlo (by omega)
      omega
    have hsz := to_size_t_of_nonneg n h0 hhi
    refine ⟨h0, by omega, ?_⟩
    rw [unpack_byte_ok b d n type h0 hnot, hsz]
  · left
    exact unpack_byte_failed b d n type hs

theorem unpack_fixed_cases (w : Nat) (conv : List uint8_t → Nat)
    (hw : w = 2 ∨ w = 4 ∨ w = 8) (b : pmix_buffer_t) (d : Nat → Nat) (n : Int)
    (type : pmix_data_type_t) (hlo : -(2 : Int) ^ 31 ≤ n) (hhi : n < 2 ^ 31)
    (hsize : b.bytes_used < 2 ^ 63) :
    unpack_fixed w conv b d n type =
        ⟨PMIX_ERR_UNPACK_READ_PAST_END_OF_BUFFER, b, d, n⟩ ∨
    (0 ≤ n ∧ n.toNat * w ≤ b.bytes_used - b.unpack_ptr ∧
      (unpack_fixed w conv b d n type).rc = PMIX_SUCCESS ∧
      (unpack_fixed w conv b d n type).buffer =
        { b with unpack_ptr := b.unpack_ptr + n.toNat * w }) := by
  by_cases hs : (unpack_fixed w conv b d n type).rc = PMIX_SUCCESS
  · right
    have hnot := unpack_fixed_succeeds w conv b d n type hs
    have h0 : 0 ≤ n := by
      by_contra hneg
      have h := size_mul_of_neg n hlo (by omega) w hw
      omega
    have hsz := size_mul_count n h0 hhi w (by omega)
    refine ⟨h0, by omega, hs, ?_⟩
    rw [unpack_fixed_ok w conv b d n type hnot]
  · left
    exact unpack_fixed_failed w conv b d n type hs

/-! ## One iteration of the string loop -/

theorem region_of_dest_memcpy (d : Nat → uint8_t) (b : pmix_buffer_t) (n : Nat) :
    region_of_dest n (memcpy d b n) = wire_bytes b.base_ptr b.unpack_ptr n := by
  unfold region_of_dest memcpy wire_bytes
  apply List.map_congr_left
  intro t ht
  simp [List.mem_range.mp ht]

theorem unpack_string_loop_step (malloc : Nat → Bool) (k i : Nat) (b : pmix_buffer_t)
    (d : Nat → c_string) (hsize : b.bytes_used < 2 ^ 63) :
    unpack_string_loop malloc (k + 1) i b d =
      if b.bytes_used - b.unpack_ptr < 4 then
        (PMIX_ERR_UNPACK_READ_PAST_END_OF_BUFFER, b, d)
      else if to_int32 (ntohl (wire_bytes b.base_ptr b.unpack_ptr 4)) = 0 then
        unpack_string_loop malloc k (i + 1) { b with unpack_ptr := b.unpack_ptr + 4 }
          (Function.update d i none)
      else if malloc (to_size_t (to_int32 (ntohl (wire_bytes b.base_ptr b.unpack_ptr 4))))
          = false then
        (PMIX_ERR_OUT_OF_RESOURCE, { b with unpack_ptr := b.unpack_ptr + 4 },
          Function.update d i none)
      else if to_int32 (ntohl (wire_bytes b.base_ptr b.unpack_ptr 4)) < 0 ∨
          b.bytes_used - (b.unpack_ptr + 4) <
            (to_int32 (ntohl (wire_bytes b.base_ptr b.unpack_ptr 4))).toNat then
        (PMIX_ERR_UNPACK_READ_PAST_END_OF_BUFFER, { b with unpack_ptr := b.unpack_ptr + 4 },
          Function.update d i (some (malloc_region
            (to_size_t (to_int32 (ntohl (wire_bytes b.base_ptr b.unpack_ptr 4)))))))
      else
        unpack_string_loop malloc k (i + 1)
          { b with unpack_ptr := b.unpack_ptr + 4 +
            (to_int32 (ntohl (wire_bytes b.base_ptr b.unpack_ptr 4))).toNat }
          (Function.update d i (some (wire_bytes b.base_ptr (b.unpack_ptr + 4)
            (to_int32 (ntohl (wire_bytes b.base_ptr b.unpack_ptr 4))).toNat))) := by
  by_cases hshort : b.bytes_used - b.unpack_ptr < 4
  · rw [unpack_string_loop, unpack_int32_one_short b _ PMIX_INT32 hshort]
    simp [hshort]
  · have h4 : 4 ≤ b.bytes_used - b.unpack_ptr := by omega
    rw [unpack_string_loop, unpack_int32_one b _ PMIX_INT32 h4]
    simp only [ne_eq, not_true_eq_false, if_false, hshort, Nat.lt_one_iff, if_true,
      Nat.zero_mul, Nat.add_zero]
    have hr := to_int32_range (ntohl (wire_bytes b.base_ptr b.unpack_ptr 4))
    generalize to_int32 (ntohl (wire_bytes b.base_ptr b.unpack_ptr 4)) = len at hr ⊢
    by_cases h0 : len = 0
    · simp [h0]
    · simp only [h0, if_false]
      by_cases hm : malloc (to_size_t len) = false
      · simp [hm]
      · simp only [hm, if_false]
        have hsize4 : ({ b with unpack_ptr := b.unpack_ptr + 4 } : pmix_buffer_t).bytes_used
            < 2 ^ 63 := hsize
        rcases unpack_byte_cases { b with unpack_ptr := b.unpack_ptr + 4 }
          (region_dest (malloc_region (to_size_t len))) len PMIX_BYTE hr.1 hr.2 hsize4
          with hf | ⟨hn, hle, hok⟩
        · have hcond : len < 0 ∨ b.bytes_used - (b.unpack_ptr + 4) < len.toNat := by
            by_contra hc
            have hc1 : 0 ≤ len := by omega
            have hc2 : ¬ b.bytes_used - (b.unpack_ptr + 4) < len.toNat := by omega
            have hsz := to_size_t_of_nonneg len hc1 hr.2
            have hnot : ¬ ({ b with unpack_ptr := b.unpack_ptr + 4 } : pmix_buffer_t).bytes_used -
                ({ b with unpack_ptr := b.unpack_ptr + 4 } : pmix_buffer_t).unpack_ptr <
                  to_size_t len := by
              rw [hsz]
              exact hc2
            rw [unpack_byte_ok _ _ len PMIX_BYTE hc1 hnot] at hf
            simp at hf
          rw [hf, if_pos hcond]
          simp
        · have hcond : ¬ (len < 0 ∨ b.bytes_used - (b.unpack_ptr + 4) < len.toNat) := by
            have hle2 : len.toNat ≤ b.bytes_used - (b.unpack_ptr + 4) := hle
            omega
          have hsz := to_size_t_of_nonneg len hn hr.2
          rw [hok, if_neg hcond]
          simp only [ne_eq, not_true_eq_false, if_false, hsz, region_of_dest_memcpy]

theorem unpack_string_loop_cursor (malloc : Nat → Bool) :
    ∀ (k i : Nat) (b : pmix_buffer_t) (d : Nat → c_string),
      b.bytes_used < 2 ^ 63 → b.unpack_ptr ≤ b.bytes_used →
      (unpack_string_loop malloc k i b d).2.1 =
          { b with unpack_ptr := (unpack_string_loop malloc k i b d).2.1.unpack_ptr } ∧
        b.unpack_ptr ≤ (unpack_string_loop malloc k i b d).2.1.unpack_ptr ∧
        (unpack_string_loop malloc k i b d).2.1.unpack_ptr ≤ b.bytes_used
  | 0, _, b, _, _, hi => by simp [unpack_string_loop, hi]
  | k + 1, i, b, d, hs, hi => by
    rw [unpack_string_loop_step malloc k i b d hs]
    split_ifs with h1 h2 h3 h4
    · simp [hi]
    · obtain ⟨e, m1, m2⟩ := unpack_string_loop_cursor malloc k (i + 1)
        { b with unpack_ptr := b.unpack_ptr + 4 } (Function.update d i none) hs
        (by show b.unpack_ptr + 4 ≤ b.bytes_used; omega)
      refine ⟨?_, ?_, m2⟩
      · rw [e]
      · have m1b : b.unpack_ptr + 4 ≤ _ := m1
        omega
    · refine ⟨rfl, ?_, ?_⟩
      · show b.unpack_ptr ≤ b.unpack_ptr + 4
        omega
      · show b.unpack_ptr + 4 ≤ b.bytes_used
        omega
    · refine ⟨rfl, ?_, ?_⟩
      · show b.unpack_ptr ≤ b.unpack_ptr + 4
        omega
      · show b.unpack_ptr + 4 ≤ b.bytes_used
        omega
    · obtain ⟨e, m1, m2⟩ := unpack_string_loop_cursor malloc k (i + 1)
        { b with unpack_ptr := b.unpack_ptr + 4 +
            (to_int32 (ntohl (wire_bytes b.base_ptr b.unpack_ptr 4))).toNat }
        (Function.update d i (some (wire_bytes b.base_ptr (b.unpack_ptr + 4)
            (to_int32 (ntohl (wire_bytes b.base_ptr b.unpack_ptr 4))).toNat))) hs
        (by
          show b.unpack_ptr + 4 +
            (to_int32 (ntohl (wire_bytes b.base_ptr b.unpack_ptr 4))).toNat ≤ b.bytes_used
          omega)
      refine ⟨?_, ?_, m2⟩
      · rw [e]
      · have m1b : b.unpack_ptr + 4 +
            (to_int32 (ntohl (wire_bytes b.base_ptr b.unpack_ptr 4))).toNat ≤ _ := m1
        omega

/-! ## The cursor invariant -/

/-- C11: for a buffer on a 64-bit host (used region below `2 ^ 63` bytes) whose cursor
lies within the used region, and for every int32 count (of either sign), a call of the
byte, null, int16, int32 or int64 decoder or of the string decoder, successful or
failing, leaves the cursor within the used region and not before its old position; the
other fields of the buffer are unchanged. -/
theorem cursor_invariant (buffer : pmix_buffer_t) (n : Int) (type : pmix_data_type_t)
    (hlo : -(2 : Int) ^ 31 ≤ n) (hhi : n < 2 ^ 31)
    (hsize : buffer.bytes_used < 2 ^ 63) (hinv : buffer.unpack_ptr ≤ buffer.bytes_used) :
    (∀ f ∈ [pmix_bfrop_unpack_byte, pmix_bfrop_unpack_null], ∀ dest : Nat → uint8_t,
      (f buffer dest n type).buffer =
          { buffer with unpack_ptr := (f buffer dest n type).buffer.unpack_ptr } ∧
        buffer.unpack_ptr ≤ (f buffer dest n type).buffer.unpack_ptr ∧
        (f buffer dest n type).buffer.unpack_ptr ≤ buffer.bytes_used) ∧
    (∀ f ∈ [pmix_bfrop_unpack_int16, pmix_bfrop_unpack_int32, pmix_bfrop_unpack_int64],
      ∀ dest : Nat → Nat,
      (f buffer dest n type).buffer =
          { buffer with unpack_ptr := (f buffer dest n type).buffer.unpack_ptr } ∧
        buffer.unpack_ptr ≤ (f buffer dest n type).buffer.unpack_ptr ∧
        (f buffer dest n type).buffer.unpack_ptr ≤ buffer.bytes_used) ∧
    (∀ (malloc : Nat → Bool) (dest : Nat → c_string),
      (pmix_bfrop_unpack_string malloc buffer dest n type).buffer =
          { buffer with unpack_ptr :=
            (pmix_bfrop_unpack_string malloc buffer dest n type).buffer.unpack_ptr } ∧
        buffer.unpack_ptr ≤
          (pmix_bfrop_unpack_string malloc buffer dest n type).buffer.unpack_ptr ∧
        (pmix_bfrop_unpack_string malloc buffer dest n type).buffer.unpack_ptr ≤
          buffer.bytes_used) := by
  refine ⟨fun f hf dest => ?_, fun f hf dest => ?_, fun malloc dest => ?_⟩
  · have hf2 : f = pmix_bfrop_unpack_byte := by
      simp only [List.mem_cons, List.mem_singleton, List.not_mem_nil, or_false] at hf
      rcases hf with rfl | rfl
      · rfl
      · exact pmix_bfrop_unpack_null_eq
    subst hf2
    rcases unpack_byte_cases buffer dest n type hlo hhi hsize with h | ⟨_, hle, h⟩
    · rw [h]
      exact ⟨rfl, le_refl _, hinv⟩
    · rw [h]
      refine ⟨rfl, ?_, ?_⟩
      · show buffer.unpack_ptr ≤ buffer.unpack_ptr + n.toNat
        omega
      · show buffer.unpack_ptr + n.toNat ≤ buffer.bytes_used
        omega
  · have key : ∀ (w : Nat) (conv : List uint8_t → Nat), (w = 2 ∨ w = 4 ∨ w = 8) →
        (unpack_fixed w conv buffer dest n type).buffer =
          { buffer with unpack_ptr := (unpack_fixed w conv buffer dest n type).buffer.unpack_ptr } ∧
        buffer.unpack_ptr ≤ (unpack_fixed w conv buffer dest n type).buffer.unpack_ptr ∧
        (unpack_fixed w conv buffer dest n type).buffer.unpack_ptr ≤ buffer.bytes_used := by
      intro w conv hw
      rcases unpack_fixed_cases w conv hw buffer dest n type hlo hhi hsize with
        h | ⟨_, hle, _, h⟩
      · rw [h]
        exact ⟨rfl, le_refl _, hinv⟩
      · rw [h]
        refine ⟨rfl, ?_, ?_⟩
        · show buffer.unpack_ptr ≤ buffer.unpack_ptr + n.toNat * w
          omega
        · show buffer.unpack_ptr + n.toNat * w ≤ buffer.bytes_used
          omega
    simp only [List.mem_cons, List.mem_singleton, List.not_mem_nil, or_false] at hf
    rcases hf with rfl | rfl | rfl
    · exact key 2 ntohs (by decide)
    · exact key 4 ntohl (by decide)
    · exact key 8 ntoh64 (by decide)
  · exact unpack_string_loop_cursor malloc n.toNat 0 buffer dest hsize hinv

/-- Witness: decoding three strings from the cut sample stops at offset 10 of 12, after
the second length, not before the start and not past the end. -/
theorem cursor_invariant_witness :
    sample_strings_cut.unpack_ptr ≤
      (pmix_bfrop_unpack_string malloc_always sample_strings_cut (fun _ => none) 3
        PMIX_STRING).buffer.unpack_ptr ∧
    (pmix_bfrop_unpack_string malloc_always sample_strings_cut (fun _ => none) 3
        PMIX_STRING).buffer.unpack_ptr ≤ sample_strings_cut.bytes_used :=
  ((cursor_invariant sample_strings_cut 3 PMIX_STRING (by decide) (by decide) (by decide)
    (by decide)).2.2 malloc_always (fun _ => none)).2

/-! ## The string decoder -/

/-- C12: for every buffer whose next int32 length is 0, the string decoder with count 1
returns success, stores the absent marker (NULL) in destination slot 0, not a region,
and moves the cursor by exactly the 4 bytes of the length. -/
theorem unpack_string_zero_length (malloc : Nat → Bool) (buffer : pmix_buffer_t)
    (dest : Nat → c_string) (type : pmix_data_type_t)
    (h4 : 4 ≤ buffer.bytes_used - buffer.unpack_ptr)
    (hlen : to_int32 (ntohl (wire_bytes buffer.base_ptr buffer.unpack_ptr 4)) = 0) :
    pmix_bfrop_unpack_string malloc buffer dest 1 type =
      ⟨PMIX_SUCCESS, { buffer with unpack_ptr := buffer.unpack_ptr + 4 },
        Function.update dest 0 none, 1⟩ := by
  unfold pmix_bfrop_unpack_string
  have e : (1 : Int).toNat = 1 := rfl
  rw [e, unpack_string_loop, unpack_int32_one buffer _ PMIX_INT32 h4]
  simp [hlen, unpack_string_loop]

/-- Witness: the second string of the sample (at offset 6) has length 0 and decodes to the
absent marker, the cursor moving from 6 to 10. -/
theorem unpack_string_zero_length_witness :
    pmix_bfrop_unpack_string malloc_always { sample_strings with unpack_ptr := 6 }
        (fun _ => some []) 1 PMIX_STRING =
      ⟨PMIX_SUCCESS, { sample_strings with unpack_ptr := 10 },
        Function.update (fun _ => some []) 0 none, 1⟩ :=
  unpack_string_zero_length malloc_always { sample_strings with unpack_ptr := 6 }
    (fun _ => some []) PMIX_STRING (by decide) (by decide)

/-- C13: for every length `L > 0` and every buffer that holds the int32 length `L`
followed by at least `L` bytes, the allocation of `L` bytes succeeding, the string
decoder with count 1 returns success, stores in slot 0 a region of exactly `L` bytes
equal to the `L` bytes that follow the length, and moves the cursor by exactly
`4 + L`. -/
theorem unpack_string_positive_length (malloc : Nat → Bool) (buffer : pmix_buffer_t)
    (dest : Nat → c_string) (type : pmix_data_type_t) (L : Int)
    (h4 : 4 ≤ buffer.bytes_used - buffer.unpack_ptr)
    (hlen : to_int32 (ntohl (wire_bytes buffer.base_ptr buffer.unpack_ptr 4)) = L)
    (hpos : 0 < L)
    (hbytes : 4 + L.toNat ≤ buffer.bytes_used - buffer.unpack_ptr)
    (halloc : malloc L.toNat = true) :
    pmix_bfrop_unpack_string malloc buffer dest 1 type =
      ⟨PMIX_SUCCESS, { buffer with unpack_ptr := buffer.unpack_ptr + 4 + L.toNat },
        Function.update dest 0
          (some (wire_bytes buffer.base_ptr (buffer.unpack_ptr + 4) L.toNat)), 1⟩ ∧
    (wire_bytes buffer.base_ptr (buffer.unpack_ptr + 4) L.toNat).length = L.toNat := by
  have hr := to_int32_range (ntohl (wire_bytes buffer.base_ptr buffer.unpack_ptr 4))
  rw [hlen] at hr
  have hsz := to_size_t_of_nonneg L (le_of_lt hpos) hr.2
  have hne : L ≠ 0 := ne_of_gt hpos
  have hnot : ¬ ({ buffer with unpack_ptr := buffer.unpack_ptr + 4 } : pmix_buffer_t).bytes_used -
      ({ buffer with unpack_ptr := buffer.unpack_ptr + 4 } : pmix_buffer_t).unpack_ptr <
        to_size_t L := by
    rw [hsz]
    show ¬ buffer.bytes_used - (buffer.unpack_ptr + 4) < L.toNat
    omega
  constructor
  · unfold pmix_bfrop_unpack_string
    have e : (1 : Int).toNat = 1 := rfl
    rw [e, unpack_string_loop, unpack_int32_one buffer _ PMIX_INT32 h4]
    simp only [ne_eq, not_true_eq_false, if_false, Nat.lt_one_iff, if_true, Nat.zero_mul,
      Nat.add_zero, hlen, hne]
    rw [unpack_byte_ok _ _ L PMIX_BYTE (le_of_lt hpos) hnot]
    simp [hsz, halloc, region_of_dest_memcpy, unpack_string_loop]
  · simp [wire_bytes]

/-- Witness: the first string of the sample has length 2 and decodes to the region `hi`,
the cursor moving from 0 to 6. -/
theorem unpack_string_positive_length_witness :
    pmix_bfrop_unpack_string malloc_always sample_strings (fun _ => none) 1 PMIX_STRING =
      ⟨PMIX_SUCCESS, { sample_strings with unpack_ptr := 6 },
        Function.update (fun _ => none) 0 (some [104, 105]), 1⟩ :=
  (unpack_string_positive_length malloc_always sample_strings (fun _ => none) PMIX_STRING 2
    (by decide) (by decide) (by decide) (by decide) rfl).1

theorem unpack_string_loop_frame (malloc : Nat → Bool) :
    ∀ (k i : Nat) (b : pmix_buffer_t) (d : Nat → c_string) (j : Nat),
      j < i ∨ i + k ≤ j → (unpack_string_loop malloc k i b d).2.2 j = d j
  | 0, _, _, _, _, _ => rfl
  | k + 1, i, b, d, j, hj => by
    have hne : j ≠ i := by omega
    have hj2 : j < i + 1 ∨ i + 1 + k ≤ j := by omega
    rw [unpack_string_loop]
    simp only []
    split_ifs
    · rfl
    · rw [unpack_string_loop_frame malloc k (i + 1) _ _ j hj2, Function.update_noteq hne]
    · simp only [Function.update_noteq hne]
    · simp only [Function.update_noteq hne]
    · rw [unpack_string_loop_frame malloc k (i + 1) _ _ j hj2, Function.update_noteq hne]

theorem unpack_string_loop_status (malloc : Nat → Bool) :
    ∀ (k i i2 : Nat) (b : pmix_buffer_t) (d d2 : Nat → c_string),
      (unpack_string_loop malloc k i b d).1 = (unpack_string_loop malloc k i2 b d2).1 ∧
      (unpack_string_loop malloc k i b d).2.1 = (unpack_string_loop malloc k i2 b d2).2.1
  | 0, _, _, _, _, _ => ⟨rfl, rfl⟩
  | k + 1, i, i2, b, d, d2 => by
    rw [unpack_string_loop, unpack_string_loop]
    simp only []
    split_ifs
    · exact ⟨rfl, rfl⟩
    · exact unpack_string_loop_status malloc k _ _ _ _ _
    · exact ⟨rfl, rfl⟩
    · exact ⟨rfl, rfl⟩
    · exact unpack_string_loop_status malloc k _ _ _ _ _

theorem unpack_string_loop_add (malloc : Nat → Bool) (m : Nat) :
    ∀ (k i : Nat) (b : pmix_buffer_t) (d : Nat → c_string),
      (unpack_string_loop malloc k i b d).1 = PMIX_SUCCESS →
      unpack_string_loop malloc (k + m) i b d =
        unpack_string_loop malloc m (i + k) (unpack_string_loop malloc k i b d).2.1
          (unpack_string_loop malloc k i b d).2.2
  | 0, _, _, _, _ => by simp [unpack_string_loop]
  | k + 1, i, b, d, h => by
    have e : k + 1 + m = (k + m) + 1 := by omega
    have e2 : i + (k + 1) = i + 1 + k := by omega
    rw [e, e2]
    rw [unpack_string_loop] at h ⊢
    rw [unpack_string_loop]
    simp only [] at h ⊢
    split_ifs at h ⊢
    all_goals first
      | exact unpack_string_loop_add malloc m k _ _ _ h
      | exact absurd h (by assumption)

theorem unpack_string_loop_first_fails (malloc : Nat → Bool) (k i : Nat) (b : pmix_buffer_t)
    (d : Nat → c_string) (h : (unpack_string_loop malloc 1 i b d).1 ≠ PMIX_SUCCESS) :
    unpack_string_loop malloc (k + 1) i b d = unpack_string_loop malloc 1 i b d := by
  have e : (1 : Nat) = 0 + 1 := rfl
  rw [e] at h ⊢
  rw [unpack_string_loop] at h ⊢
  rw [unpack_string_loop]
  simp only [] at h ⊢
  split_ifs at h ⊢
  all_goals first
    | rfl
    | exact absurd rfl h

/-- C14: if the string decoder, called for `N` strings, fails while processing element `K`
(`1 ≤ K ≤ N`: the first `K - 1` strings decode, and decoding one more string from where
they end fails with status `e`), then the call returns `e` with the buffer as the
failing element left it, destination slots `1 .. K - 1` (indices below `K - 1`) hold the
strings decoded for them, and slots `K + 1 .. N` (indices from `K` on) are exactly as
they were before the call. -/
theorem unpack_string_failure_at (malloc : Nat → Bool) (buffer : pmix_buffer_t)
    (dest : Nat → c_string) (type : pmix_data_type_t) (N K : Nat) (e : pmix_status_t)
    (hK : 1 ≤ K) (hKN : K ≤ N)
    (hfirst : (pmix_bfrop_unpack_string malloc buffer dest ((K - 1 : Nat) : Int) type).rc =
      PMIX_SUCCESS)
    (hfail : (pmix_bfrop_unpack_string malloc
      (pmix_bfrop_unpack_string malloc buffer dest ((K - 1 : Nat) : Int) type).buffer
      dest 1 type).rc = e)
    (he : e ≠ PMIX_SUCCESS) :
    (pmix_bfrop_unpack_string malloc buffer dest (N : Int) type).rc = e ∧
    (pmix_bfrop_unpack_string malloc buffer dest (N : Int) type).buffer =
      (pmix_bfrop_unpack_string malloc
        (pmix_bfrop_unpack_string malloc buffer dest ((K - 1 : Nat) : Int) type).buffer
        dest 1 type).buffer ∧
    (∀ j, j + 1 < K →
      (pmix_bfrop_unpack_string malloc buffer dest (N : Int) type).dest j =
        (pmix_bfrop_unpack_string malloc buffer dest ((K - 1 : Nat) : Int) type).dest j) ∧
    (∀ j, K ≤ j →
      (pmix_bfrop_unpack_string malloc buffer dest (N : Int) type).dest j = dest j) := by
  unfold pmix_bfrop_unpack_string at hfirst hfail ⊢
  have e1 : (1 : Int).toNat = 1 := rfl
  simp only [Int.toNat_ofNat, e1] at hfirst hfail ⊢
  obtain ⟨m, rfl⟩ : ∃ m, N = (K - 1) + (m + 1) := ⟨N - K, by omega⟩
  rw [unpack_string_loop_add malloc (m + 1) (K - 1) 0 buffer dest hfirst]
  have hst := unpack_string_loop_status malloc 1 (0 + (K - 1)) 0
    (unpack_string_loop malloc (K - 1) 0 buffer dest).2.1
    (unpack_string_loop malloc (K - 1) 0 buffer dest).2.2 dest
  have hne : (unpack_string_loop malloc 1 (0 + (K - 1))
      (unpack_string_loop malloc (K - 1) 0 buffer dest).2.1
      (unpack_string_loop malloc (K - 1) 0 buffer dest).2.2).1 ≠ PMIX_SUCCESS := by
    rw [hst.1, hfail]
    exact he
  rw [unpack_string_loop_first_fails malloc m _ _ _ hne]
  refine ⟨by rw [hst.1, hfail], hst.2, fun j hj => ?_, fun j hj => ?_⟩
  · exact unpack_string_loop_frame malloc 1 (0 + (K - 1)) _ _ j (by omega)
  · rw [unpack_string_loop_frame malloc 1 (0 + (K - 1)) _ _ j (by omega)]
    exact unpack_string_loop_frame malloc (K - 1) 0 buffer dest j (by omega)

/-- Witness: three strings are asked of the cut sample; the first decodes to `hi`, the
second fails with ReadPastEndOfBuffer, slot 0 keeps `hi` and slot 2 keeps its old
contents. -/
theorem unpack_string_failure_at_witness :
    (pmix_bfrop_unpack_string malloc_always sample_strings_cut (fun _ => some [7]) 3
      PMIX_STRING).rc = PMIX_ERR_UNPACK_READ_PAST_END_OF_BUFFER ∧
    (pmix_bfrop_unpack_string malloc_always sample_strings_cut (fun _ => some [7]) 3
      PMIX_STRING).dest 0 = some [104, 105] ∧
    (pmix_bfrop_unpack_string malloc_always sample_strings_cut (fun _ => some [7]) 3
      PMIX_STRING).dest 2 = some [7] := by
  have h := unpack_string_failure_at malloc_always sample_strings_cut (fun _ => some [7])
    PMIX_STRING 3 2 PMIX_ERR_UNPACK_READ_PAST_END_OF_BUFFER (by decide) (by decide)
    (by decide) (by decide) (by decide)
  exact ⟨h.1, (h.2.2.1 0 (by decide)).trans (by decide), h.2.2.2 2 (by decide)⟩

/-! ## Float and double against the string decoder -/

theorem unpack_text_loop_spec {F : Type} (malloc : Nat → Bool) (parse : c_string → F) :
    ∀ (k i : Nat) (b : pmix_buffer_t) (d : Nat → F),
      (unpack_text_loop malloc parse k i b d).1 = (successive_string_decodes malloc k b).1 ∧
      (unpack_text_loop malloc parse k i b d).2.1 =
        (successive_string_decodes malloc k b).2.1 ∧
      (∀ t (ht : t < (successive_string_decodes malloc k b).2.2.length),
        (unpack_text_loop malloc parse k i b d).2.2 (i + t) =
          parse ((successive_string_decodes malloc k b).2.2[t])) ∧
      (∀ j, j < i ∨ i + (successive_string_decodes malloc k b).2.2.length ≤ j →
        (unpack_text_loop malloc parse k i b d).2.2 j = d j)
  | 0, _, _, _ => by
    refine ⟨rfl, rfl, fun t ht => ?_, fun j _ => rfl⟩
    simp [successive_string_decodes] at ht
  | k + 1, i, b, d => by
    by_cases hs : (pmix_bfrop_unpack_string malloc b (fun _ => none) 1 PMIX_STRING).rc =
        PMIX_SUCCESS
    · obtain ⟨h1, h2, h3, h4⟩ := unpack_text_loop_spec malloc parse k (i + 1)
        (pmix_bfrop_unpack_string malloc b (fun _ => none) 1 PMIX_STRING).buffer
        (Function.update d i
          (parse ((pmix_bfrop_unpack_string malloc b (fun _ => none) 1 PMIX_STRING).dest 0)))
      have eL : unpack_text_loop malloc parse (k + 1) i b d =
          unpack_text_loop malloc parse k (i + 1)
            (pmix_bfrop_unpack_string malloc b (fun _ => none) 1 PMIX_STRING).buffer
            (Function.update d i (parse
              ((pmix_bfrop_unpack_string malloc b (fun _ => none) 1 PMIX_STRING).dest 0))) := by
        rw [unpack_text_loop]
        simp [hs]
      have eR : successive_string_decodes malloc (k + 1) b =
          ((successive_string_decodes malloc k
              (pmix_bfrop_unpack_string malloc b (fun _ => none) 1 PMIX_STRING).buffer).1,
            (successive_string_decodes malloc k
              (pmix_bfrop_unpack_string malloc b (fun _ => none) 1 PMIX_STRING).buffer).2.1,
            (pmix_bfrop_unpack_string malloc b (fun _ => none) 1 PMIX_STRING).dest 0 ::
              (successive_string_decodes malloc k
                (pmix_bfrop_unpack_string malloc b (fun _ => none) 1
                  PMIX_STRING).buffer).2.2) := by
        rw [successive_string_decodes]
        simp [hs]
      rw [eL, eR]
      refine ⟨h1, h2, fun t ht => ?_, fun j hj => ?_⟩
      · cases t with
        | zero =>
          have e0 : i + 0 = i := rfl
          rw [e0, h4 i (by omega)]
          simp
        | succ t =>
          have ht2 : t < (successive_string_decodes malloc k
              (pmix_bfrop_unpack_string malloc b (fun _ => none) 1
                PMIX_STRING).buffer).2.2.length := by
            simpa using ht
          have e : i + (t + 1) = i + 1 + t := by omega
          rw [e, h3 t ht2]
          simp
      · simp only [List.length_cons] at hj
        rw [h4 j (by omega), Function.update_noteq (by omega)]
    · have eL : unpack_text_loop malloc parse (k + 1) i b d =
          ((pmix_bfrop_unpack_string malloc b (fun _ => none) 1 PMIX_STRING).rc,
            (pmix_bfrop_unpack_string malloc b (fun _ => none) 1 PMIX_STRING).buffer, d) := by
        rw [unpack_text_loop]
        simp [hs]
      have eR : successive_string_decodes malloc (k + 1) b =
          ((pmix_bfrop_unpack_string malloc b (fun _ => none) 1 PMIX_STRING).rc,
            (pmix_bfrop_unpack_string malloc b (fun _ => none) 1 PMIX_STRING).buffer, []) := by
        rw [successive_string_decodes]
        simp [hs]
      rw [eL, eR]
      refine ⟨rfl, rfl, fun t ht => ?_, fun j _ => rfl⟩
      simp at ht

/-- Counterexample to C20: on a buffer that holds the single text `1` (five bytes), the
double decoder with count 1 fails with ReadPastEndOfBuffer and leaves the cursor at 0,
because fewer than `sizeof(double)` bytes remain, whereas one single-string decode
succeeds and leaves the cursor at 5. -/
theorem unpack_double_differs_from_strings :
    (pmix_bfrop_unpack_double malloc_always sample_parse sample_short_text (fun _ => 0) 1
      PMIX_DOUBLE).rc = PMIX_ERR_UNPACK_READ_PAST_END_OF_BUFFER ∧
    (pmix_bfrop_unpack_double malloc_always sample_parse sample_short_text (fun _ => 0) 1
      PMIX_DOUBLE).buffer.unpack_ptr = 0 ∧
    (successive_string_decodes malloc_always 1 sample_short_text).1 = PMIX_SUCCESS ∧
    (successive_string_decodes malloc_always 1 sample_short_text).2.1.unpack_ptr = 5 := by
  decide

/-- C20, amended: for every buffer state and int32 count `n ≥ 0`, the float decoder
(width 4) and the double decoder (width 8) first require `n * width` bytes to remain:
with fewer they return ReadPastEndOfBuffer and change nothing. Otherwise, provided every
string that `n` successive single-string decodes from the same starting cursor deliver
is present and NUL-terminated, they return the same status and leave the buffer (cursor
included) in the same state as those decodes, element `i` of the result being the local
text parse of the C string held by the `i`-th decoded string, and the slots beyond the
decoded strings being left alone. The parser `parse` is any function of the cell that
reads a C string: on a cell whose C string is `text` it yields `text_parse text`. -/
theorem unpack_float_double_as_strings {F : Type} (malloc : Nat → Bool)
    (parse : c_string → F) (text_parse : List uint8_t → F) (buffer : pmix_buffer_t)
    (dest : Nat → F) (n : Int) (type : pmix_data_type_t) (h0 : 0 ≤ n) (h31 : n < 2 ^ 31)
    (hparse : ∀ s text, c_str s = some text → parse s = text_parse text) :
    (∀ p ∈ [(pmix_bfrop_unpack_float malloc parse, 4),
        (pmix_bfrop_unpack_double malloc parse, 8)],
      (buffer.bytes_used - buffer.unpack_ptr < n.toNat * p.2 →
        p.1 buffer dest n type =
          ⟨PMIX_ERR_UNPACK_READ_PAST_END_OF_BUFFER, buffer, dest, n⟩) ∧
      (n.toNat * p.2 ≤ buffer.bytes_used - buffer.unpack_ptr →
        (∀ s ∈ (successive_string_decodes malloc n.toNat buffer).2.2, (c_str s).isSome) →
        (p.1 buffer dest n type).rc = (successive_string_decodes malloc n.toNat buffer).1 ∧
        (p.1 buffer dest n type).buffer =
          (successive_string_decodes malloc n.toNat buffer).2.1 ∧
        (∀ i (hi : i < (successive_string_decodes malloc n.toNat buffer).2.2.length),
          ∃ text,
            c_str ((successive_string_decodes malloc n.toNat buffer).2.2[i]) = some text ∧
            (p.1 buffer dest n type).dest i = text_parse text) ∧
        (∀ i, (successive_string_decodes malloc n.toNat buffer).2.2.length ≤ i →
          (p.1 buffer dest n type).dest i = dest i))) := by
  have key : ∀ w : Nat, w ≤ 8 →
      ∀ f : pmix_bfrop_unpack_fn_t (Nat → F),
      (f = fun buffer dest num_vals _type =>
        if pmix_bfrop_too_small buffer (size_mul (to_size_t num_vals) w) then
          ⟨PMIX_ERR_UNPACK_READ_PAST_END_OF_BUFFER, buffer, dest, num_vals⟩
        else
          ⟨(unpack_text_loop malloc parse num_vals.toNat 0 buffer dest).1,
            (unpack_text_loop malloc parse num_vals.toNat 0 buffer dest).2.1,
            (unpack_text_loop malloc parse num_vals.toNat 0 buffer dest).2.2, num_vals⟩) →
      (buffer.bytes_used - buffer.unpack_ptr < n.toNat * w →
        f buffer dest n type =
          ⟨PMIX_ERR_UNPACK_READ_PAST_END_OF_BUFFER, buffer, dest, n⟩) ∧
      (n.toNat * w ≤ buffer.bytes_used - buffer.unpack_ptr →
        (∀ s ∈ (successive_string_decodes malloc n.toNat buffer).2.2, (c_str s).isSome) →
        (f buffer dest n type).rc = (successive_string_decodes malloc n.toNat buffer).1 ∧
        (f buffer dest n type).buffer =
          (successive_string_decodes malloc n.toNat buffer).2.1 ∧
        (∀ i (hi : i < (successive_string_decodes malloc n.toNat buffer).2.2.length),
          ∃ text,
            c_str ((successive_string_decodes malloc n.toNat buffer).2.2[i]) = some text ∧
            (f buffer dest n type).dest i = text_parse text) ∧
        (∀ i, (successive_string_decodes malloc n.toNat buffer).2.2.length ≤ i →
          (f buffer dest n type).dest i = dest i)) := by
    intro w hw f hf
    have hsz := size_mul_count n h0 h31 w hw
    subst hf
    constructor
    · intro hlt
      simp [pmix_bfrop_too_small, hsz, hlt]
    · intro hge hterm
      have hnot : ¬ buffer.bytes_used - buffer.unpack_ptr < n.toNat * w := by omega
      obtain ⟨h1, h2, h3, h4⟩ := unpack_text_loop_spec malloc parse n.toNat 0 buffer dest
      simp only [pmix_bfrop_too_small, hsz, hnot, decide_False, Bool.false_eq_true, if_false]
      refine ⟨h1, h2, fun i hi => ?_, fun i hi => h4 i (by omega)⟩
      have := h3 i hi
      rw [Nat.zero_add] at this
      obtain ⟨text, ht⟩ := Option.isSome_iff_exists.mp
        (hterm _ (List.getElem_mem hi))
      exact ⟨text, ht, this.trans (hparse _ text ht)⟩
  intro p hp
  simp only [List.mem_cons, List.mem_singleton, List.not_mem_nil, or_false] at hp
  rcases hp with rfl | rfl
  · exact key 4 (by decide) _ rfl
  · exact key 8 (by decide) _ rfl

/-- Witness: with sixteen or more bytes at hand and both texts NUL-terminated, two doubles
decode as two successive strings do: success, cursor at 17, and the second slot holds the
parse of the text `2.25`, the bytes before the NUL. -/
theorem unpack_float_double_as_strings_witness :
    (∀ s ∈ (successive_string_decodes malloc_always 2 sample_texts_terminated).2.2,
      (c_str s).isSome) ∧
    (pmix_bfrop_unpack_double malloc_always sample_strtod sample_texts_terminated
      (fun _ => 0) 2 PMIX_DOUBLE).rc = PMIX_SUCCESS ∧
    (pmix_bfrop_unpack_double malloc_always sample_strtod sample_texts_terminated
      (fun _ => 0) 2 PMIX_DOUBLE).buffer = { sample_texts_terminated with unpack_ptr := 17 } ∧
    (∃ text,
      c_str ((successive_string_decodes malloc_always 2 sample_texts_terminated).2.2[1]) =
        some text ∧
      text = [50, 46, 50, 53] ∧
      (pmix_bfrop_unpack_double malloc_always sample_strtod sample_texts_terminated
        (fun _ => 0) 2 PMIX_DOUBLE).dest 1 = List.length text) := by
  have hterm : ∀ s ∈ (successive_string_decodes malloc_always 2 sample_texts_terminated).2.2,
      (c_str s).isSome := by decide
  have h := ((unpack_float_double_as_strings malloc_always sample_strtod List.length
    sample_texts_terminated (fun _ => 0) 2 PMIX_DOUBLE (by decide) (by decide)
    (fun s text hs => by simp [sample_strtod, hs])
    (pmix_bfrop_unpack_double malloc_always sample_strtod, 8) (by simp)).2 (by decide) hterm)
  obtain ⟨text, ht, hd⟩ := h.2.2.1 1 (by decide)
  refine ⟨hterm, h.1.trans (by decide), h.2.1.trans (by decide), text, ht, ?_, hd⟩
  have e : c_str ((successive_string_decodes malloc_always 2 sample_texts_terminated).2.2[1]) =
      some [50, 46, 50, 53] := by decide
  exact Option.some.inj (ht.symm.trans e)

/-! ## The switch of the value decoder -/

theorem pmix_value_switch_small :
    ∀ type, type < 64 →
      (pmix_value_switch type).map pmix_value_arm.member = designated_variant type := by
  decide

theorem designated_variants_small : ∀ p ∈ designated_variants, p.1 < 64 := by
  decide

theorem pmix_value_switch_large (type : pmix_data_type_t) (h : 64 ≤ type) :
    pmix_value_switch type = none := by
  have hne : ∀ c : pmix_data_type_t, c < 64 → ¬ type = c :=
    fun c hc e => absurd (e ▸ h) (Nat.not_le.mpr hc)
  unfold pmix_value_switch
  rw [if_neg (hne PMIX_BOOL (by decide)),
    if_neg (hne PMIX_BYTE (by decide)),
    if_neg (hne PMIX_STRING (by decide)),
    if_neg (hne PMIX_SIZE (by decide)),
    if_neg (hne PMIX_PID (by decide)),
    if_neg (hne PMIX_INT (by decide)),
    if_neg (hne PMIX_INT8 (by decide)),
    if_neg (hne PMIX_INT16 (by decide)),
    if_neg (hne PMIX_INT32 (by decide)),
    if_neg (hne PMIX_INT64 (by decide)),
    if_neg (hne PMIX_UINT (by decide)),
    if_neg (hne PMIX_UINT8 (by decide)),
    if_neg (hne PMIX_UINT16 (by decide)),
    if_neg (hne PMIX_UINT32 (by decide)),
    if_neg (hne PMIX_UINT64 (by decide)),
    if_neg (hne PMIX_BYTE_OBJECT (by decide)),
    if_neg (hne PMIX_FLOAT (by decide)),
    if_neg (hne PMIX_DOUBLE (by decide)),
    if_neg (hne PMIX_TIMEVAL (by decide)),
    if_neg (hne PMIX_FLOAT_ARRAY (by decide)),
    if_neg (hne PMIX_DOUBLE_ARRAY (by decide)),
    if_neg (hne PMIX_STRING_ARRAY (by decide)),
    if_neg (hne PMIX_BOOL_ARRAY (by decide)),
    if_neg (hne PMIX_SIZE_ARRAY (by decide)),
    if_neg (hne PMIX_BYTE_ARRAY (by decide)),
    if_neg (hne PMIX_INT_ARRAY (by decide)),
    if_neg (hne PMIX_INT8_ARRAY (by decide)),
    if_neg (hne PMIX_INT16_ARRAY (by decide)),
    if_neg (hne PMIX_INT32_ARRAY (by decide)),
    if_neg (hne PMIX_INT64_ARRAY (by decide)),
    if_neg (hne PMIX_UINT_ARRAY (by decide)),
    if_neg (hne PMIX_UINT8_ARRAY (by decide)),
    if_neg (hne PMIX_UINT16_ARRAY (by decide)),
    if_neg (hne PMIX_UINT32_ARRAY (by decide)),
    if_neg (hne PMIX_UINT64_ARRAY (by decide)),
    if_neg (hne PMIX_PID_ARRAY (by decide)),
    if_neg (hne PMIX_TIMEVAL_ARRAY (by decide))]

theorem pmix_value_switch_designated (type : pmix_data_type_t) :
    (pmix_value_switch type).map pmix_value_arm.member = designated_variant type := by
  by_cases h : type < 64
  · exact pmix_value_switch_small type h
  · rw [pmix_value_switch_large type (Nat.le_of_not_lt h)]
    unfold designated_variant
    have hnone : designated_variants.find? (fun p => p.1 = type) = none := by
      rw [List.find?_eq_none]
      intro p hp
      have hp64 := designated_variants_small p hp
      simp only [decide_eq_true_eq]
      intro e
      exact h (e ▸ hp64)
    rw [hnone]
    rfl

/-! ## The value decoder -/

theorem unpack_value_arm_member {δ : Type}
    (reg : pmix_data_type_t → Option (pmix_bfrop_type_info_t δ))
    (cells : pmix_value_cells δ) (malloc : Nat → Bool) (buffer : pmix_buffer_t)
    (arm : pmix_value_arm) :
    (unpack_value_arm reg cells malloc buffer arm).2.2.member = some arm.member := by
  cases arm with
  | scalar member type => rfl
  | byte_object =>
    simp only [unpack_value_arm]
    split_ifs <;> rfl
  | array member type =>
    simp only [unpack_value_arm]
    split_ifs <;> rfl

theorem unpack_value_element_arm {δ : Type}
    (reg : pmix_data_type_t → Option (pmix_bfrop_type_info_t δ))
    (cells : pmix_value_cells δ) (malloc : Nat → Bool) (buffer : pmix_buffer_t)
    (arm : pmix_value_arm)
    (hnew : cells.obj_new = true)
    (hks : (pmix_bfrop_unpack_string malloc buffer (fun _ => none) 1 PMIX_STRING).rc =
      PMIX_SUCCESS)
    (hts : (pmix_bfrop_unpack_data_type reg
      (pmix_bfrop_unpack_string malloc buffer (fun _ => none) 1 PMIX_STRING).buffer
      cells.cell 1 PMIX_DATA_TYPE).rc = PMIX_SUCCESS)
    (hsw : pmix_value_switch (cells.load_type (pmix_bfrop_unpack_data_type reg
      (pmix_bfrop_unpack_string malloc buffer (fun _ => none) 1 PMIX_STRING).buffer
      cells.cell 1 PMIX_DATA_TYPE).dest) = some arm) :
    unpack_value_element reg cells malloc buffer =
      ((unpack_value_arm reg cells malloc (pmix_bfrop_unpack_data_type reg
          (pmix_bfrop_unpack_string malloc buffer (fun _ => none) 1 PMIX_STRING).buffer
          cells.cell 1 PMIX_DATA_TYPE).buffer arm).1,
        (unpack_value_arm reg cells malloc (pmix_bfrop_unpack_data_type reg
          (pmix_bfrop_unpack_string malloc buffer (fun _ => none) 1 PMIX_STRING).buffer
          cells.cell 1 PMIX_DATA_TYPE).buffer arm).2.1,
        some ⟨(pmix_bfrop_unpack_string malloc buffer (fun _ => none) 1 PMIX_STRING).dest 0,
          (pmix_bfrop_unpack_data_type reg
            (pmix_bfrop_unpack_string malloc buffer (fun _ => none) 1 PMIX_STRING).buffer
            cells.cell 1 PMIX_DATA_TYPE).dest,
          (unpack_value_arm reg cells malloc (pmix_bfrop_unpack_data_type reg
            (pmix_bfrop_unpack_string malloc buffer (fun _ => none) 1 PMIX_STRING).buffer
            cells.cell 1 PMIX_DATA_TYPE).buffer arm).2.2⟩) := by
  unfold unpack_value_element
  simp [hnew, hks, hts, hsw]

theorem unpack_value_element_default {δ : Type}
    (reg : pmix_data_type_t → Option (pmix_bfrop_type_info_t δ))
    (cells : pmix_value_cells δ) (malloc : Nat → Bool) (buffer : pmix_buffer_t)
    (hnew : cells.obj_new = true)
    (hks : (pmix_bfrop_unpack_string malloc buffer (fun _ => none) 1 PMIX_STRING).rc =
      PMIX_SUCCESS)
    (hts : (pmix_bfrop_unpack_data_type reg
      (pmix_bfrop_unpack_string malloc buffer (fun _ => none) 1 PMIX_STRING).buffer
      cells.cell 1 PMIX_DATA_TYPE).rc = PMIX_SUCCESS)
    (hsw : pmix_value_switch (cells.load_type (pmix_bfrop_unpack_data_type reg
      (pmix_bfrop_unpack_string malloc buffer (fun _ => none) 1 PMIX_STRING).buffer
      cells.cell 1 PMIX_DATA_TYPE).dest) = none) :
    unpack_value_element reg cells malloc buffer =
      (PMIX_ERROR, (pmix_bfrop_unpack_data_type reg
          (pmix_bfrop_unpack_string malloc buffer (fun _ => none) 1 PMIX_STRING).buffer
          cells.cell 1 PMIX_DATA_TYPE).buffer,
        some ⟨(pmix_bfrop_unpack_string malloc buffer (fun _ => none) 1 PMIX_STRING).dest 0,
          (pmix_bfrop_unpack_data_type reg
            (pmix_bfrop_unpack_string malloc buffer (fun _ => none) 1 PMIX_STRING).buffer
            cells.cell 1 PMIX_DATA_TYPE).dest, .unset⟩) := by
  unfold unpack_value_element
  simp [hnew, hks, hts, hsw]

theorem unpack_value_element_success {δ : Type}
    (reg : pmix_data_type_t → Option (pmix_bfrop_type_info_t δ))
    (cells : pmix_value_cells δ) (malloc : Nat → Bool) (buffer : pmix_buffer_t)
    (h : (unpack_value_element reg cells malloc buffer).1 = PMIX_SUCCESS) :
    ∃ v m, (unpack_value_element reg cells malloc buffer).2.2 = some v ∧
      v.data.member = some m ∧ designated_variant (cells.load_type v.type) = some m := by
  have hnew : cells.obj_new = true := by
    by_contra c
    simp [unpack_value_element, c] at h
  have hks : (pmix_bfrop_unpack_string malloc buffer (fun _ => none) 1 PMIX_STRING).rc =
      PMIX_SUCCESS := by
    by_contra c
    simp [unpack_value_element, hnew, c] at h
  have hts : (pmix_bfrop_unpack_data_type reg
      (pmix_bfrop_unpack_string malloc buffer (fun _ => none) 1 PMIX_STRING).buffer
      cells.cell 1 PMIX_DATA_TYPE).rc = PMIX_SUCCESS := by
    by_contra c
    simp [unpack_value_element, hnew, hks, c] at h
  cases hsw : pmix_value_switch (cells.load_type (pmix_bfrop_unpack_data_type reg
      (pmix_bfrop_unpack_string malloc buffer (fun _ => none) 1 PMIX_STRING).buffer
      cells.cell 1 PMIX_DATA_TYPE).dest) with
  | none =>
    rw [unpack_value_element_default reg cells malloc buffer hnew hks hts hsw] at h
    simp at h
  | some arm =>
    rw [unpack_value_element_arm reg cells malloc buffer arm hnew hks hts hsw]
    refine ⟨_, arm.member, rfl, unpack_value_arm_member reg cells malloc _ arm, ?_⟩
    rw [← pmix_value_switch_designated, hsw]
    rfl

theorem unpack_value_loop_frame {δ : Type}
    (reg : pmix_data_type_t → Option (pmix_bfrop_type_info_t δ))
    (cells : pmix_value_cells δ) (malloc : Nat → Bool) :
    ∀ (k i : Nat) (b : pmix_buffer_t) (ptr : Nat → Option (pmix_value_t δ)) (j : Nat),
      j < i → (unpack_value_loop reg cells malloc k i b ptr).2.2 j = ptr j
  | 0, _, _, _, _, _ => rfl
  | k + 1, i, b, ptr, j, hj => by
    have hne : j ≠ i := by omega
    rw [unpack_value_loop]
    split_ifs
    · simp only [Function.update_noteq hne]
    · rw [unpack_value_loop_frame reg cells malloc k (i + 1) _ _ j (by omega),
        Function.update_noteq hne]

theorem unpack_value_loop_success {δ : Type}
    (reg : pmix_data_type_t → Option (pmix_bfrop_type_info_t δ))
    (cells : pmix_value_cells δ) (malloc : Nat → Bool) :
    ∀ (k i : Nat) (b : pmix_buffer_t) (ptr : Nat → Option (pmix_value_t δ)),
      (unpack_value_loop reg cells malloc k i b ptr).1 = PMIX_SUCCESS →
      ∀ j, i ≤ j → j < i + k →
        ∃ v m, (unpack_value_loop reg cells malloc k i b ptr).2.2 j = some v ∧
          v.data.member = some m ∧ designated_variant (cells.load_type v.type) = some m
  | 0, i, _, _, _, j, h1, h2 => by omega
  | k + 1, i, b, ptr, h, j, h1, h2 => by
    rw [unpack_value_loop] at h ⊢
    by_cases he : (unpack_value_element reg cells malloc b).1 = PMIX_SUCCESS
    · simp only [he, ne_eq, not_true_eq_false, if_false] at h ⊢
      by_cases hj : j = i
      · subst hj
        rw [unpack_value_loop_frame reg cells malloc k (j + 1) _ _ j (by omega),
          Function.update_same]
        exact unpack_value_element_success reg cells malloc b he
      · exact unpack_value_loop_success reg cells malloc k (i + 1) _ _ h j (by omega) (by omega)
    · simp only [he, ne_eq, not_false_eq_true, if_true] at h

/-- C15: for every successful call of the value decoder and every Value it produces (the
slots `0 .. n - 1` of the destination), the member of the union that holds the payload
is exactly the variant that the Value's decoded type tag designates (BOOL -> flag,
INT32 -> int32, BYTE_OBJECT -> bo, INT32_ARRAY -> int32_array, and so on); the union
holds that one member and no other. -/
theorem unpack_value_variant_matches_tag {δ : Type}
    (reg : pmix_data_type_t → Option (pmix_bfrop_type_info_t δ))
    (cells : pmix_value_cells δ) (malloc : Nat → Bool) (buffer : pmix_buffer_t)
    (ptr : Nat → Option (pmix_value_t δ)) (n : Int) (type : pmix_data_type_t)
    (hs : (pmix_bfrop_unpack_value reg cells malloc buffer ptr n type).rc = PMIX_SUCCESS) :
    ∀ j, j < n.toNat →
      ∃ v m, (pmix_bfrop_unpack_value reg cells malloc buffer ptr n type).dest j = some v ∧
        v.data.member = some m ∧ designated_variant (cells.load_type v.type) = some m := by
  intro j hj
  exact unpack_value_loop_success reg cells malloc n.toNat 0 buffer ptr hs j (by omega)
    (by omega)

/-- Witness: the sample Value with the tag of the int32 scalar and the value 7 decodes
with success, and its union holds the scalar member `int32`, the variant that the tag
designates. -/
theorem unpack_value_variant_matches_tag_witness :
    (∃ v m, (pmix_bfrop_unpack_value sample_registry sample_cells malloc_always
        sample_value_int32 (fun _ => none) 1 PMIX_DATA_TYPE).dest 0 = some v ∧
      v.data.member = some m ∧
      designated_variant (sample_cells.load_type v.type) = some m) ∧
    ((pmix_bfrop_unpack_value sample_registry sample_cells malloc_always
      sample_value_int32 (fun _ => none) 1 PMIX_DATA_TYPE).dest 0).map
        (fun v => (v.data.member, match v.data with
          | .scalar _ cell => some (cell 0)
          | _ => none)) = some (some .int32, some 7) :=
  ⟨unpack_value_variant_matches_tag sample_registry sample_cells malloc_always
    sample_value_int32 (fun _ => none) 1 PMIX_DATA_TYPE (by decide) 0 (by decide),
    by decide⟩

theorem unpack_value_first_fails {δ : Type}
    (reg : pmix_data_type_t → Option (pmix_bfrop_type_info_t δ))
    (cells : pmix_value_cells δ) (malloc : Nat → Bool) (buffer : pmix_buffer_t)
    (ptr : Nat → Option (pmix_value_t δ)) (n : Int) (type : pmix_data_type_t)
    (hn : 0 < n)
    (hf : (unpack_value_element reg cells malloc buffer).1 ≠ PMIX_SUCCESS) :
    pmix_bfrop_unpack_value reg cells malloc buffer ptr n type =
      ⟨(unpack_value_element reg cells malloc buffer).1,
        (unpack_value_element reg cells malloc buffer).2.1,
        Function.update ptr 0 (unpack_value_element reg cells malloc buffer).2.2, n⟩ := by
  obtain ⟨k, hk⟩ : ∃ k, n.toNat = k + 1 := ⟨n.toNat - 1, by omega⟩
  unfold pmix_bfrop_unpack_value
  rw [hk, unpack_value_loop]
  simp [hf]

theorem unpack_value_one {δ : Type}
    (reg : pmix_data_type_t → Option (pmix_bfrop_type_info_t δ))
    (cells : pmix_value_cells δ) (malloc : Nat → Bool) (buffer : pmix_buffer_t)
    (ptr : Nat → Option (pmix_value_t δ)) (type : pmix_data_type_t) :
    pmix_bfrop_unpack_value reg cells malloc buffer ptr 1 type =
      ⟨(unpack_value_element reg cells malloc buffer).1,
        (unpack_value_element reg cells malloc buffer).2.1,
        Function.update ptr 0 (unpack_value_element reg cells malloc buffer).2.2, 1⟩ := by
  unfold pmix_bfrop_unpack_value
  have e : (1 : Int).toNat = 0 + 1 := rfl
  rw [e, unpack_value_loop]
  by_cases hf : (unpack_value_element reg cells malloc buffer).1 = PMIX_SUCCESS
  · simp [hf, unpack_value_loop]
  · simp [hf]

/-- Counterexample to C16: on a buffer that holds an absent key and the type tag 99, which
designates no Value variant, the value decoder decodes the key and the tag and then
returns the generic PMIX_ERROR, which is not UnpackFailure. -/
theorem unpack_value_unsupported_tag_status :
    designated_variant 99 = none ∧
    (pmix_bfrop_unpack_data_type sample_registry
      (pmix_bfrop_unpack_string malloc_always sample_value_unsupported (fun _ => none) 1
        PMIX_STRING).buffer sample_cells.cell 1 PMIX_DATA_TYPE).dest 0 = 99 ∧
    (pmix_bfrop_unpack_value sample_registry sample_cells malloc_always
      sample_value_unsupported (fun _ => none) 1 PMIX_DATA_TYPE).rc = PMIX_ERROR ∧
    (pmix_bfrop_unpack_value sample_registry sample_cells malloc_always
      sample_value_unsupported (fun _ => none) 1 PMIX_DATA_TYPE).rc ≠
        PMIX_ERR_UNPACK_FAILURE := by
  decide

/-- C16, amended: for every buffer from which the value decoder (called for at least one
Value, the object allocation succeeding) decodes a key and then a type tag that
designates no supported Value variant, the call fails and the status it returns is the
generic PMIX_ERROR; the buffer is left right after the tag. -/
theorem unpack_value_unsupported_tag {δ : Type}
    (reg : pmix_data_type_t → Option (pmix_bfrop_type_info_t δ))
    (cells : pmix_value_cells δ) (malloc : Nat → Bool) (buffer : pmix_buffer_t)
    (ptr : Nat → Option (pmix_value_t δ)) (n : Int) (type : pmix_data_type_t)
    (hn : 0 < n)
    (hnew : cells.obj_new = true)
    (hks : (pmix_bfrop_unpack_string malloc buffer (fun _ => none) 1 PMIX_STRING).rc =
      PMIX_SUCCESS)
    (hts : (pmix_bfrop_unpack_data_type reg
      (pmix_bfrop_unpack_string malloc buffer (fun _ => none) 1 PMIX_STRING).buffer
      cells.cell 1 PMIX_DATA_TYPE).rc = PMIX_SUCCESS)
    (hdes : designated_variant (cells.load_type (pmix_bfrop_unpack_data_type reg
      (pmix_bfrop_unpack_string malloc buffer (fun _ => none) 1 PMIX_STRING).buffer
      cells.cell 1 PMIX_DATA_TYPE).dest) = none) :
    (pmix_bfrop_unpack_value reg cells malloc buffer ptr n type).rc = PMIX_ERROR ∧
    (pmix_bfrop_unpack_value reg cells malloc buffer ptr n type).buffer =
      (pmix_bfrop_unpack_data_type reg
        (pmix_bfrop_unpack_string malloc buffer (fun _ => none) 1 PMIX_STRING).buffer
        cells.cell 1 PMIX_DATA_TYPE).buffer := by
  have hsw : pmix_value_switch (cells.load_type (pmix_bfrop_unpack_data_type reg
      (pmix_bfrop_unpack_string malloc buffer (fun _ => none) 1 PMIX_STRING).buffer
      cells.cell 1 PMIX_DATA_TYPE).dest) = none := by
    have h := pmix_value_switch_designated (cells.load_type (pmix_bfrop_unpack_data_type reg
      (pmix_bfrop_unpack_string malloc buffer (fun _ => none) 1 PMIX_STRING).buffer
      cells.cell 1 PMIX_DATA_TYPE).dest)
    rw [hdes] at h
    simpa using h
  have he := unpack_value_element_default reg cells malloc buffer hnew hks hts hsw
  have hf : (unpack_value_element reg cells malloc buffer).1 ≠ PMIX_SUCCESS := by
    rw [he]
    simp
  rw [unpack_value_first_fails reg cells malloc buffer ptr n type hn hf, he]
  exact ⟨rfl, rfl⟩

/-- Witness: the sample Value with the tag 99 fails with PMIX_ERROR and leaves the cursor
at offset 8, right after the tag. -/
theorem unpack_value_unsupported_tag_witness :
    (pmix_bfrop_unpack_value sample_registry sample_cells malloc_always
      sample_value_unsupported (fun _ => none) 1 PMIX_DATA_TYPE).rc = PMIX_ERROR ∧
    (pmix_bfrop_unpack_value sample_registry sample_cells malloc_always
      sample_value_unsupported (fun _ => none) 1 PMIX_DATA_TYPE).buffer.unpack_ptr = 8 := by
  have h := unpack_value_unsupported_tag sample_registry sample_cells malloc_always
    sample_value_unsupported (fun _ => none) 1 PMIX_DATA_TYPE (by decide) rfl (by decide)
    (by decide) (by decide)
  exact ⟨h.1, by rw [h.2]; decide⟩

/-! ## Byte objects of size 0 -/

theorem unpack_value_arm_empty_bo {δ : Type}
    (reg : pmix_data_type_t → Option (pmix_bfrop_type_info_t δ))
    (cells : pmix_value_cells δ) (malloc : Nat → Bool) (buffer : pmix_buffer_t)
    (h4 : 4 ≤ buffer.bytes_used - buffer.unpack_ptr)
    (hsize : to_int32 (ntohl (wire_bytes buffer.base_ptr buffer.unpack_ptr 4)) = 0) :
    unpack_value_arm reg cells malloc buffer .byte_object =
      (PMIX_SUCCESS, { buffer with unpack_ptr := buffer.unpack_ptr + 4 }, .bo 0 none) := by
  simp only [unpack_value_arm]
  rw [unpack_int32_one buffer _ PMIX_INT32 h4]
  simp [hsize]

/-- C17: whenever a byte object is decoded with wire size 0, its bytes pointer is the
NULL marker, its size is 0, and the cursor moves by the 4 bytes of the size field only.
This holds for `pmix_bfrop_unpack_byte_object`, at every position `i` of its element
loop and in particular for a call with count 1, and for the BYTE_OBJECT arm of
`pmix_bfrop_unpack_value`, shown on a call with count 1 whose key and type tag decode
and leave the buffer at the size field. -/
theorem byte_object_size_zero (malloc : Nat → Bool) (buffer : pmix_buffer_t)
    (h4 : 4 ≤ buffer.bytes_used - buffer.unpack_ptr)
    (hsize : to_int32 (ntohl (wire_bytes buffer.base_ptr buffer.unpack_ptr 4)) = 0) :
    (malloc sizeof_pmix_byte_object_t = true →
      (∀ (k i : Nat) (dest : Nat → Option pmix_byte_object_t),
        unpack_byte_object_loop malloc (k + 1) i buffer dest =
          unpack_byte_object_loop malloc k (i + 1)
            { buffer with unpack_ptr := buffer.unpack_ptr + 4 }
            (Function.update dest i (some ⟨0, none⟩))) ∧
      (∀ (dest : Nat → Option pmix_byte_object_t) (type : pmix_data_type_t),
        pmix_bfrop_unpack_byte_object malloc buffer dest 1 type =
          ⟨PMIX_SUCCESS, { buffer with unpack_ptr := buffer.unpack_ptr + 4 },
            Function.update dest 0 (some ⟨0, none⟩), 1⟩)) ∧
    (∀ (δ : Type) (reg : pmix_data_type_t → Option (pmix_bfrop_type_info_t δ))
      (cells : pmix_value_cells δ) (start : pmix_buffer_t)
      (ptr : Nat → Option (pmix_value_t δ)) (type : pmix_data_type_t),
      cells.obj_new = true →
      (pmix_bfrop_unpack_string malloc start (fun _ => none) 1 PMIX_STRING).rc =
        PMIX_SUCCESS →
      (pmix_bfrop_unpack_data_type reg
        (pmix_bfrop_unpack_string malloc start (fun _ => none) 1 PMIX_STRING).buffer
        cells.cell 1 PMIX_DATA_TYPE).rc = PMIX_SUCCESS →
      (pmix_bfrop_unpack_data_type reg
        (pmix_bfrop_unpack_string malloc start (fun _ => none) 1 PMIX_STRING).buffer
        cells.cell 1 PMIX_DATA_TYPE).buffer = buffer →
      cells.load_type (pmix_bfrop_unpack_data_type reg
        (pmix_bfrop_unpack_string malloc start (fun _ => none) 1 PMIX_STRING).buffer
        cells.cell 1 PMIX_DATA_TYPE).dest = PMIX_BYTE_OBJECT →
      pmix_bfrop_unpack_value reg cells malloc start ptr 1 type =
        ⟨PMIX_SUCCESS, { buffer with unpack_ptr := buffer.unpack_ptr + 4 },
          Function.update ptr 0 (some
            ⟨(pmix_bfrop_unpack_string malloc start (fun _ => none) 1 PMIX_STRING).dest 0,
              (pmix_bfrop_unpack_data_type reg
                (pmix_bfrop_unpack_string malloc start (fun _ => none) 1 PMIX_STRING).buffer
                cells.cell 1 PMIX_DATA_TYPE).dest, .bo 0 none⟩), 1⟩) := by
  have hloop : malloc sizeof_pmix_byte_object_t = true →
      ∀ (k i : Nat) (dest : Nat → Option pmix_byte_object_t),
        unpack_byte_object_loop malloc (k + 1) i buffer dest =
          unpack_byte_object_loop malloc k (i + 1)
            { buffer with unpack_ptr := buffer.unpack_ptr + 4 }
            (Function.update dest i (some ⟨0, none⟩)) := by
    intro hm k i dest
    rw [unpack_byte_object_loop, unpack_int32_one buffer _ PMIX_INT32 h4]
    simp [hm, hsize]
  refine ⟨fun hm => ⟨hloop hm, fun dest type => ?_⟩, ?_⟩
  · unfold pmix_bfrop_unpack_byte_object
    have e : (1 : Int).toNat = 0 + 1 := rfl
    rw [e, hloop hm]
    simp [unpack_byte_object_loop]
  · intro δ reg cells start ptr type hnew hks hts1 hts2 htag
    have hsw : pmix_value_switch (cells.load_type (pmix_bfrop_unpack_data_type reg
        (pmix_bfrop_unpack_string malloc start (fun _ => none) 1 PMIX_STRING).buffer
        cells.cell 1 PMIX_DATA_TYPE).dest) = some .byte_object := by
      rw [htag]
      rfl
    rw [unpack_value_one, unpack_value_element_arm reg cells malloc start .byte_object hnew
      hks hts1 hsw, hts2, unpack_value_arm_empty_bo reg cells malloc buffer h4 hsize]

/-- Witness: the first byte object of the sample has size 0 and decodes to size 0 with a
NULL bytes pointer, the cursor moving from 0 to 4; the sample Value with the byte object
tag and size 0 decodes likewise, the cursor moving from 8 to 12. -/
theorem byte_object_size_zero_witness :
    pmix_bfrop_unpack_byte_object malloc_always sample_byte_objects (fun _ => none) 1
        PMIX_BYTE_OBJECT =
      ⟨PMIX_SUCCESS, { sample_byte_objects with unpack_ptr := 4 },
        Function.update (fun _ => none) 0 (some ⟨0, none⟩), 1⟩ ∧
    (pmix_bfrop_unpack_value sample_registry sample_cells malloc_always
      sample_value_empty_bo (fun _ => none) 1 PMIX_DATA_TYPE).buffer =
        { sample_value_empty_bo with unpack_ptr := 12 } := by
  constructor
  · exact ((byte_object_size_zero malloc_always sample_byte_objects (by decide)
      (by decide)).1 rfl).2 (fun _ => none) PMIX_BYTE_OBJECT
  · rw [(byte_object_size_zero malloc_always { sample_value_empty_bo with unpack_ptr := 8 }
      (by decide) (by decide)).2 (Nat → Nat) sample_registry sample_cells
      sample_value_empty_bo (fun _ => none) PMIX_DATA_TYPE rfl (by decide) (by decide)
      (by decide) (by decide)]

/-! ## Array variants of a Value -/

theorem array_variants_switch :
    ∀ p ∈ array_variants, pmix_value_switch p.1 = some (.array p.2.1 p.2.2) := by
  decide

theorem unpack_buffer_non_desc {δ : Type}
    (reg : pmix_data_type_t → Option (pmix_bfrop_type_info_t δ))
    (buffer : pmix_buffer_t) (dst : δ) (n : Int) (type : pmix_data_type_t)
    (info : pmix_bfrop_type_info_t δ)
    (hm : buffer.type = PMIX_BFROP_BUFFER_NON_DESC) (hr : reg type = some info) :
    pmix_bfrop_unpack_buffer reg buffer dst n type = info.odti_unpack_fn buffer dst n type := by
  simp [pmix_bfrop_unpack_buffer, hm, hr]

/-- C18, at the failing input: the non-described buffer holds a Value with key `k`, the
tag of the int32 array, the count 2 and the elements 7 and 9. The switch selects the
array arm for the member int32_array with the element type INT32; on the buffer after
the tag the arm decodes the count 2 and hands the element decoder that count together
with the `data` pointer, which `unpack.c` never allocates. The int32 decoder, run for 2
elements on the buffer after the count, passes its bound check and stores 7 and 9 into
whatever destination it is handed, so in C the two stores go through the unallocated
pointer. The Value that the embedding builds records the size 2 and holds no element
storage. -/
theorem unpack_value_array_unallocated :
    pmix_value_switch PMIX_INT32_ARRAY = some (.array .int32_array PMIX_INT32) ∧
    unpack_value_arm_unallocated sample_registry sample_cells
      { sample_value_int32_array with unpack_ptr := 9 }
      (.array .int32_array PMIX_INT32) = true ∧
    (∀ d : Nat → Nat,
      (pmix_bfrop_unpack_int32 { sample_value_int32_array with unpack_ptr := 13 } d 2
        PMIX_INT32).rc = PMIX_SUCCESS ∧
      (pmix_bfrop_unpack_int32 { sample_value_int32_array with unpack_ptr := 13 } d 2
        PMIX_INT32).dest 0 = 7 ∧
      (pmix_bfrop_unpack_int32 { sample_value_int32_array with unpack_ptr := 13 } d 2
        PMIX_INT32).dest 1 = 9) ∧
    ((pmix_bfrop_unpack_value sample_registry sample_cells malloc_always
      sample_value_int32_array (fun _ => none) 1 PMIX_DATA_TYPE).dest 0).map
        (fun v => match v.data with
          | .array member size => some (member, size)
          | _ => none) = some (some (.int32_array, 2)) := by
  refine ⟨by decide, by decide, fun d => ⟨rfl, rfl, rfl⟩, by decide⟩

/-! ## A Value with a truncated boolean payload -/

theorem unpack_buffer_desc_short {δ : Type}
    (reg : pmix_data_type_t → Option (pmix_bfrop_type_info_t δ))
    (buffer : pmix_buffer_t) (dst : δ) (n : Int) (type : pmix_data_type_t)
    (hm : buffer.type = PMIX_BFROP_BUFFER_FULLY_DESC)
    (h : buffer.bytes_used - buffer.unpack_ptr < 4) :
    pmix_bfrop_unpack_buffer reg buffer dst n type =
      ⟨PMIX_ERR_UNPACK_READ_PAST_END_OF_BUFFER, buffer, dst, n⟩ := by
  simp [pmix_bfrop_unpack_buffer, hm, get_data_type_short buffer h]

theorem unpack_buffer_desc_match {δ : Type}
    (reg : pmix_data_type_t → Option (pmix_bfrop_type_info_t δ))
    (buffer : pmix_buffer_t) (dst : δ) (n : Int) (type : pmix_data_type_t)
    (info : pmix_bfrop_type_info_t δ)
    (hm : buffer.type = PMIX_BFROP_BUFFER_FULLY_DESC)
    (h4 : 4 ≤ buffer.bytes_used - buffer.unpack_ptr)
    (htag : ntohl (wire_bytes buffer.base_ptr buffer.unpack_ptr 4) = type)
    (hr : reg type = some info) :
    pmix_bfrop_unpack_buffer reg buffer dst n type =
      info.odti_unpack_fn { buffer with unpack_ptr := buffer.unpack_ptr + 4 } dst n type := by
  simp [pmix_bfrop_unpack_buffer, hm, get_data_type_ok buffer h4, htag, hr]

theorem unpack_bool_short {δ : Type}
    (reg : pmix_data_type_t → Option (pmix_bfrop_type_info_t δ))
    (B : pmix_data_type_t)
    (slow : pmix_data_type_t → pmix_buffer_t → δ → Int → Outcome pmix_buffer_t δ Int)
    (buffer : pmix_buffer_t) (dst : δ) (n : Int) (type : pmix_data_type_t)
    (h : buffer.bytes_used - buffer.unpack_ptr < 4) :
    (pmix_bfrop_unpack_bool reg B slow buffer dst n type).rc =
      PMIX_ERR_UNPACK_READ_PAST_END_OF_BUFFER := by
  by_cases hm : buffer.type = PMIX_BFROP_BUFFER_FULLY_DESC
  · simp [pmix_bfrop_unpack_bool, pmix_bfrop_peek_type, hm, get_data_type_short buffer h]
  · simp [pmix_bfrop_unpack_bool, hm, get_data_type_short buffer h]

theorem unpack_bool_fast {δ : Type}
    (reg : pmix_data_type_t → Option (pmix_bfrop_type_info_t δ))
    (B : pmix_data_type_t)
    (slow : pmix_data_type_t → pmix_buffer_t → δ → Int → Outcome pmix_buffer_t δ Int)
    (buffer : pmix_buffer_t) (dst : δ) (n : Int) (type : pmix_data_type_t)
    (info : pmix_bfrop_type_info_t δ)
    (h4 : 4 ≤ buffer.bytes_used - buffer.unpack_ptr)
    (htag : ntohl (wire_bytes buffer.base_ptr buffer.unpack_ptr 4) = B)
    (hr : reg B = some info) :
    pmix_bfrop_unpack_bool reg B slow buffer dst n type =
      info.odti_unpack_fn { buffer with unpack_ptr := buffer.unpack_ptr + 4 } dst n B := by
  by_cases hm : buffer.type = PMIX_BFROP_BUFFER_FULLY_DESC
  · simp only [pmix_bfrop_unpack_bool, pmix_bfrop_peek_type, if_pos hm, if_true,
      get_data_type_ok buffer h4, htag, ne_eq, not_true_eq_false, if_false]
    exact unpack_buffer_desc_match reg buffer dst n B info hm h4 htag hr
  · have hm2 : buffer.type = PMIX_BFROP_BUFFER_NON_DESC := by
      cases hb : buffer.type
      · rfl
      · exact absurd hb hm
    simp only [pmix_bfrop_unpack_bool, if_neg hm, if_false, get_data_type_ok buffer h4, htag,
      ne_eq, not_true_eq_false, if_true]
    exact unpack_buffer_non_desc reg _ dst n B info hm2 hr

theorem unpack_bool_slow_rc {δ : Type}
    (reg : pmix_data_type_t → Option (pmix_bfrop_type_info_t δ))
    (B t : pmix_data_type_t) (tmpbuf : δ)
    (narrow : pmix_data_type_t → δ → δ → Int → pmix_status_t × δ)
    (buffer : pmix_buffer_t) (dst : δ) (n : Int) (type : pmix_data_type_t)
    (info : pmix_bfrop_type_info_t δ)
    (h4 : 4 ≤ buffer.bytes_used - buffer.unpack_ptr)
    (htag : ntohl (wire_bytes buffer.base_ptr buffer.unpack_ptr 4) = t)
    (hne : t ≠ B)
    (hr : reg t = some info)
    (hfail : (info.odti_unpack_fn { buffer with unpack_ptr := buffer.unpack_ptr + 4 } tmpbuf
      n t).rc ≠ PMIX_SUCCESS) :
    (pmix_bfrop_unpack_bool reg B (UNPACK_SIZE_MISMATCH reg tmpbuf narrow) buffer dst n
      type).rc =
      (info.odti_unpack_fn { buffer with unpack_ptr := buffer.unpack_ptr + 4 } tmpbuf
        n t).rc := by
  by_cases hm : buffer.type = PMIX_BFROP_BUFFER_FULLY_DESC
  · simp only [pmix_bfrop_unpack_bool, pmix_bfrop_peek_type, if_pos hm, if_true,
      get_data_type_ok buffer h4, htag, ne_eq, not_true_eq_false, if_false, if_neg hne,
      UNPACK_SIZE_MISMATCH]
    rw [unpack_buffer_desc_match reg buffer tmpbuf n t info hm h4 htag hr]
    rw [if_pos hfail]
  · have hm2 : buffer.type = PMIX_BFROP_BUFFER_NON_DESC := by
      cases hb : buffer.type
      · rfl
      · exact absurd hb hm
    simp only [pmix_bfrop_unpack_bool, if_neg hm, if_false, get_data_type_ok buffer h4, htag,
      ne_eq, not_true_eq_false, if_true, if_neg hne, UNPACK_SIZE_MISMATCH]
    rw [unpack_buffer_non_desc reg { buffer with unpack_ptr := buffer.unpack_ptr + 4 } tmpbuf
      n t info hm2 hr]
    rw [if_pos hfail]

/-- C19: for every buffer from which the value decoder (called for at least one Value, the
object allocation succeeding) decodes a complete key and a complete type tag equal to
BOOL, and which ends before the boolean payload is complete, the call returns
ReadPastEndOfBuffer. The bool decoder is registered for BOOL, with the host's wire type
`B` and the slow path for every other wire type. The payload is the wire type `t` of the
bool followed by the value, each preceded by an inline tag in self-describing mode; `t`
is any type, the host's or another, whose registered decoder `f` checks its bound of `w`
bytes. The payload is cut inside a tag, or it is cut inside the value. -/
theorem unpack_value_bool_truncated {δ : Type}
    (reg reg2 : pmix_data_type_t → Option (pmix_bfrop_type_info_t δ))
    (cells : pmix_value_cells δ) (malloc : Nat → Bool)
    (B t : pmix_data_type_t) (tmpbuf : δ)
    (narrow : pmix_data_type_t → δ → δ → Int → pmix_status_t × δ)
    (f : pmix_bfrop_unpack_fn_t δ) (w : Nat)
    (start buffer : pmix_buffer_t) (ptr : Nat → Option (pmix_value_t δ)) (n : Int)
    (type : pmix_data_type_t)
    (hn : 0 < n)
    (hnew : cells.obj_new = true)
    (hks : (pmix_bfrop_unpack_string malloc start (fun _ => none) 1 PMIX_STRING).rc =
      PMIX_SUCCESS)
    (hts1 : (pmix_bfrop_unpack_data_type reg
      (pmix_bfrop_unpack_string malloc start (fun _ => none) 1 PMIX_STRING).buffer
      cells.cell 1 PMIX_DATA_TYPE).rc = PMIX_SUCCESS)
    (hts2 : (pmix_bfrop_unpack_data_type reg
      (pmix_bfrop_unpack_string malloc start (fun _ => none) 1 PMIX_STRING).buffer
      cells.cell 1 PMIX_DATA_TYPE).buffer = buffer)
    (htag : cells.load_type (pmix_bfrop_unpack_data_type reg
      (pmix_bfrop_unpack_string malloc start (fun _ => none) 1 PMIX_STRING).buffer
      cells.cell 1 PMIX_DATA_TYPE).dest = PMIX_BOOL)
    (hbool : reg PMIX_BOOL = some ⟨pmix_bfrop_unpack_bool reg2 B
      (UNPACK_SIZE_MISMATCH reg2 tmpbuf narrow)⟩)
    (ht : reg2 t = some ⟨f⟩)
    (hf : ∀ (b : pmix_buffer_t) (d : δ),
      b.bytes_used - b.unpack_ptr < w → (f b d 1 t).rc = PMIX_ERR_UNPACK_READ_PAST_END_OF_BUFFER)
    (hcut :
      (buffer.type = PMIX_BFROP_BUFFER_NON_DESC ∧
        (buffer.bytes_used - buffer.unpack_ptr < 4 ∨
          (4 ≤ buffer.bytes_used - buffer.unpack_ptr ∧
            ntohl (wire_bytes buffer.base_ptr buffer.unpack_ptr 4) = t ∧
            buffer.bytes_used - buffer.unpack_ptr < 4 + w))) ∨
      (buffer.type = PMIX_BFROP_BUFFER_FULLY_DESC ∧
        (buffer.bytes_used - buffer.unpack_ptr < 4 ∨
          (4 ≤ buffer.bytes_used - buffer.unpack_ptr ∧
            ntohl (wire_bytes buffer.base_ptr buffer.unpack_ptr 4) = PMIX_BOOL ∧
            buffer.bytes_used - buffer.unpack_ptr < 8) ∨
          (8 ≤ buffer.bytes_used - buffer.unpack_ptr ∧
            ntohl (wire_bytes buffer.base_ptr buffer.unpack_ptr 4) = PMIX_BOOL ∧
            ntohl (wire_bytes buffer.base_ptr (buffer.unpack_ptr + 4) 4) = t ∧
            buffer.bytes_used - buffer.unpack_ptr < 8 + w)))) :
    (pmix_bfrop_unpack_value reg cells malloc start ptr n type).rc =
      PMIX_ERR_UNPACK_READ_PAST_END_OF_BUFFER := by
  have hsw : pmix_value_switch (cells.load_type (pmix_bfrop_unpack_data_type reg
      (pmix_bfrop_unpack_string malloc start (fun _ => none) 1 PMIX_STRING).buffer
      cells.cell 1 PMIX_DATA_TYPE).dest) = some (.scalar .flag PMIX_BOOL) := by
    rw [htag]
    rfl
  have hvalue : ∀ (b : pmix_buffer_t) (dst : δ) (ty : pmix_data_type_t),
      4 ≤ b.bytes_used - b.unpack_ptr →
      ntohl (wire_bytes b.base_ptr b.unpack_ptr 4) = t →
      b.bytes_used - b.unpack_ptr < 4 + w →
      (pmix_bfrop_unpack_bool reg2 B (UNPACK_SIZE_MISMATCH reg2 tmpbuf narrow) b dst 1 ty).rc =
        PMIX_ERR_UNPACK_READ_PAST_END_OF_BUFFER := by
    intro b dst ty h4 htg hw
    by_cases hB : t = B
    · rw [unpack_bool_fast reg2 B _ b dst 1 ty ⟨f⟩ h4 (htg.trans hB) (by rw [← hB]; exact ht)]
      rw [← hB]
      exact hf _ _ (by show b.bytes_used - (b.unpack_ptr + 4) < w; omega)
    · have hrpe : (f { b with unpack_ptr := b.unpack_ptr + 4 } tmpbuf 1 t).rc =
          PMIX_ERR_UNPACK_READ_PAST_END_OF_BUFFER :=
        hf _ _ (by show b.bytes_used - (b.unpack_ptr + 4) < w; omega)
      rw [unpack_bool_slow_rc reg2 B t tmpbuf narrow b dst 1 ty ⟨f⟩ h4 htg hB ht
        (by show (f _ tmpbuf 1 t).rc ≠ PMIX_SUCCESS; rw [hrpe]; decide)]
      exact hrpe
  have harm : (pmix_bfrop_unpack_buffer reg buffer cells.cell 1 PMIX_BOOL).rc =
      PMIX_ERR_UNPACK_READ_PAST_END_OF_BUFFER := by
    rcases hcut with ⟨hm, h | ⟨h4, htg, hw⟩⟩ | ⟨hm, h | ⟨h4, htg, h8⟩ | ⟨h8, htg, ht2, hw⟩⟩
    · rw [unpack_buffer_non_desc reg buffer _ 1 PMIX_BOOL _ hm hbool]
      exact unpack_bool_short reg2 B _ buffer _ 1 PMIX_BOOL h
    · rw [unpack_buffer_non_desc reg buffer _ 1 PMIX_BOOL _ hm hbool]
      exact hvalue buffer cells.cell PMIX_BOOL h4 htg hw
    · rw [unpack_buffer_desc_short reg buffer _ 1 PMIX_BOOL hm h]
    · rw [unpack_buffer_desc_match reg buffer _ 1 PMIX_BOOL _ hm h4 htg hbool]
      exact unpack_bool_short reg2 B _ _ _ 1 PMIX_BOOL
        (by show buffer.bytes_used - (buffer.unpack_ptr + 4) < 4; omega)
    · rw [unpack_buffer_desc_match reg buffer _ 1 PMIX_BOOL _ hm (by omega) htg hbool]
      exact hvalue { buffer with unpack_ptr := buffer.unpack_ptr + 4 } cells.cell PMIX_BOOL
        (by show 4 ≤ buffer.bytes_used - (buffer.unpack_ptr + 4); omega) ht2
        (by show buffer.bytes_used - (buffer.unpack_ptr + 4) < 4 + w; omega)
  have he := unpack_value_element_arm reg cells malloc start (.scalar .flag PMIX_BOOL) hnew
    hks hts1 hsw
  rw [hts2] at he
  have he1 : (unpack_value_element reg cells malloc start).1 =
      PMIX_ERR_UNPACK_READ_PAST_END_OF_BUFFER := by
    rw [he]
    exact harm
  have hfail : (unpack_value_element reg cells malloc start).1 ≠ PMIX_SUCCESS := by
    rw [he1]
    decide
  rw [unpack_value_first_fails reg cells malloc start ptr n type hn hfail]
  exact he1

/-- Witness: the sample Value with the bool tag stops after the wire type of the bool, the
host's 8-bit unsigned integer, and the value byte is missing; the other sample carries
the 32-bit integer as the wire type of the bool, which the slow path decodes, and two of
the four bytes of the value. On both the value decoder returns ReadPastEndOfBuffer. -/
theorem unpack_value_bool_truncated_witness :
    (pmix_bfrop_unpack_value sample_registry_slow sample_cells malloc_always
      sample_value_bool_cut (fun _ => none) 1 PMIX_DATA_TYPE).rc =
        PMIX_ERR_UNPACK_READ_PAST_END_OF_BUFFER ∧
    (pmix_bfrop_unpack_value sample_registry_slow sample_cells malloc_always
      sample_value_bool_wide_cut (fun _ => none) 1 PMIX_DATA_TYPE).rc =
        PMIX_ERR_UNPACK_READ_PAST_END_OF_BUFFER :=
  ⟨unpack_value_bool_truncated sample_registry_slow sample_fixed_registry sample_cells
    malloc_always PMIX_UINT8 PMIX_UINT8 (fun _ => 0) sample_narrow sample_unpack_uint8 1
    sample_value_bool_cut
    { sample_value_bool_cut with unpack_ptr := 8 } (fun _ => none) 1 PMIX_DATA_TYPE
    (by decide) rfl (by decide) (by decide) (by decide) (by decide) rfl rfl
    (fun b d h => (unpack_fixed_rc_iff 1 ntoh (by decide) b d 1 PMIX_UINT8 (by decide)
      (by decide)).2 (by simpa using h))
    (Or.inl ⟨rfl, Or.inr ⟨by decide, by decide, by decide⟩⟩),
  unpack_value_bool_truncated sample_registry_slow sample_fixed_registry sample_cells
    malloc_always PMIX_UINT8 PMIX_INT32 (fun _ => 0) sample_narrow pmix_bfrop_unpack_int32 4
    sample_value_bool_wide_cut
    { sample_value_bool_wide_cut with unpack_ptr := 8 } (fun _ => none) 1 PMIX_DATA_TYPE
    (by decide) rfl (by decide) (by decide) (by decide) (by decide) rfl rfl
    (fun b d h => (unpack_fixed_rc_iff 4 ntohl (by decide) b d 1 PMIX_INT32 (by decide)
      (by decide)).2 (by simpa using h))
    (Or.inl ⟨rfl, Or.inr ⟨by decide, by decide, by decide⟩⟩)⟩

/-! ## Negative counts and the size computation -/

theorem unpack_byte_too_small (b : pmix_buffer_t) (d : Nat → uint8_t) (n : Int)
    (type : pmix_data_type_t) (h : b.bytes_used - b.unpack_ptr < to_size_t n) :
    pmix_bfrop_unpack_byte b d n type =
      ⟨PMIX_ERR_UNPACK_READ_PAST_END_OF_BUFFER, b, d, n⟩ := by
  simp [pmix_bfrop_unpack_byte, pmix_bfrop_too_small, h]

theorem unpack_fixed_too_small (w : Nat) (conv : List uint8_t → Nat) (b : pmix_buffer_t)
    (d : Nat → Nat) (n : Int) (type : pmix_data_type_t)
    (h : b.bytes_used - b.unpack_ptr < size_mul (to_size_t n) w) :
    unpack_fixed w conv b d n type =
      ⟨PMIX_ERR_UNPACK_READ_PAST_END_OF_BUFFER, b, d, n⟩ := by
  simp [unpack_fixed, pmix_bfrop_too_small, h]

/-- C29: for every fixed-width decoder (byte, null, int16, int32, int64) and every
negative int32 count N, the required size, computed modulo 2^64, is at least 2^63, so on
every buffer with fewer than 2^63 bytes remaining the decoder returns
ReadPastEndOfBuffer and leaves the buffer (cursor included), the destination and the
count as they were; and for 0 <= N <= 2^31 - 1 the product N * width is below 2^64 and
is what the size computation yields. -/
theorem negative_count_read_past_end :
    (∀ f ∈ [pmix_bfrop_unpack_byte, pmix_bfrop_unpack_null],
      ∀ (buffer : pmix_buffer_t) (dest : Nat → uint8_t) (N : Int) (type : pmix_data_type_t),
        -(2 : Int) ^ 31 ≤ N → N < 0 →
        2 ^ 63 ≤ to_size_t N ∧
        (buffer.bytes_used - buffer.unpack_ptr < 2 ^ 63 →
          f buffer dest N type =
            ⟨PMIX_ERR_UNPACK_READ_PAST_END_OF_BUFFER, buffer, dest, N⟩)) ∧
    (∀ p ∈ [(pmix_bfrop_unpack_int16, 2), (pmix_bfrop_unpack_int32, 4),
        (pmix_bfrop_unpack_int64, 8)],
      ∀ (buffer : pmix_buffer_t) (dest : Nat → Nat) (N : Int) (type : pmix_data_type_t),
        -(2 : Int) ^ 31 ≤ N → N < 0 →
        2 ^ 63 ≤ size_mul (to_size_t N) p.2 ∧
        (buffer.bytes_used - buffer.unpack_ptr < 2 ^ 63 →
          p.1 buffer dest N type =
            ⟨PMIX_ERR_UNPACK_READ_PAST_END_OF_BUFFER, buffer, dest, N⟩)) ∧
    (∀ w ∈ [1, 2, 4, 8], ∀ N : Int, 0 ≤ N → N ≤ 2 ^ 31 - 1 →
        N.toNat * w < 2 ^ 64 ∧ to_size_t N = N.toNat ∧
        size_mul (to_size_t N) w = N.toNat * w) := by
  refine ⟨?_, ?_, ?_⟩
  · intro f hf buffer dest N type hlo hneg
    have hz := to_size_t_of_neg N hlo hneg
    have h63 : 2 ^ 63 ≤ to_size_t N := by omega
    refine ⟨h63, fun hrem => ?_⟩
    have hf2 : f = pmix_bfrop_unpack_byte := by
      simp only [List.mem_cons, List.mem_singleton, List.not_mem_nil, or_false] at hf
      rcases hf with rfl | rfl
      · rfl
      · exact pmix_bfrop_unpack_null_eq
    rw [hf2]
    exact unpack_byte_too_small buffer dest N type (by omega)
  · intro p hp buffer dest N type hlo hneg
    simp only [List.mem_cons, List.mem_singleton, List.not_mem_nil, or_false] at hp
    rcases hp with rfl | rfl | rfl
    · have h63 := size_mul_of_neg N hlo hneg 2 (by simp)
      refine ⟨h63, fun hrem => ?_⟩
      rw [pmix_bfrop_unpack_int16_eq]
      exact unpack_fixed_too_small 2 ntohs buffer dest N type (by omega)
    · have h63 := size_mul_of_neg N hlo hneg 4 (by simp)
      refine ⟨h63, fun hrem => ?_⟩
      rw [pmix_bfrop_unpack_int32_eq]
      exact unpack_fixed_too_small 4 ntohl buffer dest N type (by omega)
    · have h63 := size_mul_of_neg N hlo hneg 8 (by simp)
      refine ⟨h63, fun hrem => ?_⟩
      rw [pmix_bfrop_unpack_int64_eq]
      exact unpack_fixed_too_small 8 ntoh64 buffer dest N type (by omega)
  · intro w hw N h0 h31
    have hw8 : w ≤ 8 := by
      simp only [List.mem_cons, List.mem_singleton, List.not_mem_nil, or_false] at hw
      omega
    have hN : N.toNat < 2 ^ 31 := by omega
    refine ⟨?_, to_size_t_of_nonneg N h0 (by omega), size_mul_count N h0 (by omega) w hw8⟩
    calc N.toNat * w ≤ 2 ^ 31 * 8 := Nat.mul_le_mul (by omega) hw8
      _ < 2 ^ 64 := by norm_num

/-- Witness: the int32 decoder asked for -1 elements of the eight-byte sample buffer
needs 2^64 - 4 bytes and returns ReadPastEndOfBuffer with the buffer as it was. -/
theorem negative_count_read_past_end_witness :
    size_mul (to_size_t (-1)) 4 = 2 ^ 64 - 4 ∧
    pmix_bfrop_unpack_int32 sample_buffer (fun _ => 0) (-1) PMIX_INT32 =
      ⟨PMIX_ERR_UNPACK_READ_PAST_END_OF_BUFFER, sample_buffer, fun _ => 0, -1⟩ :=
  ⟨by decide,
    (negative_count_read_past_end.2.1 (pmix_bfrop_unpack_int32, 4) (by simp) sample_buffer
      (fun _ => 0) (-1) PMIX_INT32 (by decide) (by decide)).2 (by decide)⟩

/-! ## Timeval -/

theorem unpack_int64_two (b : pmix_buffer_t) (d : Nat → Nat) (type : pmix_data_type_t)
    (h : 16 ≤ b.bytes_used - b.unpack_ptr) :
    pmix_bfrop_unpack_int64 b d 2 type =
      ⟨PMIX_SUCCESS, { b with unpack_ptr := b.unpack_ptr + 16 },
        fun j => if j < 2 then ntoh64 (wire_bytes b.base_ptr (b.unpack_ptr + j * 8) 8)
          else d j, 2⟩ := by
  have hsz : size_mul (to_size_t 2) 8 = 16 := by decide
  rw [pmix_bfrop_unpack_int64_eq, unpack_fixed_ok 8 ntoh64 b d 2 type (by rw [hsz]; omega)]
  rfl

theorem unpack_timeval_loop_ok :
    ∀ (k i : Nat) (b : pmix_buffer_t) (d : Nat → timeval),
      16 * k ≤ b.bytes_used - b.unpack_ptr →
      unpack_timeval_loop k i b d =
        (PMIX_SUCCESS, { b with unpack_ptr := b.unpack_ptr + 16 * k },
          fun j => if i ≤ j ∧ j < i + k then
              ⟨to_int64 (ntoh64 (wire_bytes b.base_ptr (b.unpack_ptr + 16 * (j - i)) 8)),
                to_int64 (ntoh64 (wire_bytes b.base_ptr (b.unpack_ptr + 16 * (j - i) + 8) 8))⟩
            else d j)
  | 0, i, b, d, _ => by
    rw [unpack_timeval_loop]
    refine Prod.ext rfl (Prod.ext rfl ?_)
    funext j
    have h : ¬ (i ≤ j ∧ j < i + 0) := by omega
    simp only [if_neg h]
  | k + 1, i, b, d, h => by
    rw [unpack_timeval_loop, unpack_int64_two b (fun _ => 0) PMIX_INT64 (by omega)]
    simp only [ne_eq, not_true_eq_false, if_false]
    rw [unpack_timeval_loop_ok k (i + 1) _ _ (by show 16 * k ≤ b.bytes_used - (b.unpack_ptr + 16); omega)]
    refine Prod.ext rfl (Prod.ext ?_ ?_)
    · show ({ b with unpack_ptr := b.unpack_ptr + 16 + 16 * k } : pmix_buffer_t) = _
      have e : b.unpack_ptr + 16 + 16 * k = b.unpack_ptr + 16 * (k + 1) := by ring
      rw [e]
    · funext j
      dsimp only
      by_cases hj : j = i
      · subst hj
        have h1 : ¬ (j + 1 ≤ j ∧ j < j + 1 + k) := by omega
        have h2 : j ≤ j ∧ j < j + (k + 1) := by omega
        rw [if_neg h1, if_pos h2, Function.update_same]
        simp
      · by_cases hin : i + 1 ≤ j ∧ j < i + 1 + k
        · have h2 : i ≤ j ∧ j < i + (k + 1) := by omega
          rw [if_pos hin, if_pos h2]
          have e1 : b.unpack_ptr + 16 + 16 * (j - (i + 1)) = b.unpack_ptr + 16 * (j - i) := by
            omega
          rw [e1]
        · have h2 : ¬ (i ≤ j ∧ j < i + (k + 1)) := by omega
          rw [if_neg hin, if_neg h2, Function.update_noteq hj]

/-- C21: for every count N >= 0 (an int32) and every buffer with at least 16*N bytes
remaining, pmix_bfrop_unpack_timeval returns success, moves the cursor by exactly 16*N
bytes and changes nothing else in the buffer; element i < N has its seconds field equal
to the big-endian 64-bit integer at offset 16*i from the cursor and its microseconds
field equal to the big-endian 64-bit integer at offset 16*i + 8 (both read as signed
64-bit values); the destination slots from N on are untouched. -/
theorem unpack_timeval_spec (buffer : pmix_buffer_t) (dest : Nat → timeval) (N : Int)
    (type : pmix_data_type_t) (h0 : 0 ≤ N) (h31 : N < 2 ^ 31)
    (hrem : 16 * N.toNat ≤ buffer.bytes_used - buffer.unpack_ptr) :
    (pmix_bfrop_unpack_timeval buffer dest N type).rc = PMIX_SUCCESS ∧
    (pmix_bfrop_unpack_timeval buffer dest N type).buffer =
      { buffer with unpack_ptr := buffer.unpack_ptr + 16 * N.toNat } ∧
    (∀ i, i < N.toNat →
      ((pmix_bfrop_unpack_timeval buffer dest N type).dest i).tv_sec =
        to_int64 (ntoh64 (wire_bytes buffer.base_ptr (buffer.unpack_ptr + 16 * i) 8)) ∧
      ((pmix_bfrop_unpack_timeval buffer dest N type).dest i).tv_usec =
        to_int64 (ntoh64 (wire_bytes buffer.base_ptr (buffer.unpack_ptr + 16 * i + 8) 8))) ∧
    (∀ i, N.toNat ≤ i → (pmix_bfrop_unpack_timeval buffer dest N type).dest i = dest i) ∧
    (pmix_bfrop_unpack_timeval buffer dest N type).num_vals = N := by
  have hsz : size_mul (to_size_t N) sizeof_timeval = N.toNat * 16 := by
    rw [size_mul, to_size_t_of_nonneg N h0 h31]
    show N.toNat * 16 % 2 ^ 64 = N.toNat * 16
    apply Nat.mod_eq_of_lt
    have : N.toNat < 2 ^ 31 := by omega
    omega
  have hnot : ¬ buffer.bytes_used - buffer.unpack_ptr <
      size_mul (to_size_t N) sizeof_timeval := by rw [hsz]; omega
  have e : pmix_bfrop_unpack_timeval buffer dest N type =
      ⟨(unpack_timeval_loop N.toNat 0 buffer dest).1,
        (unpack_timeval_loop N.toNat 0 buffer dest).2.1,
        (unpack_timeval_loop N.toNat 0 buffer dest).2.2, N⟩ := by
    simp [pmix_bfrop_unpack_timeval, pmix_bfrop_too_small, hnot]
  rw [e, unpack_timeval_loop_ok N.toNat 0 buffer dest hrem]
  refine ⟨rfl, rfl, ?_, ?_, rfl⟩
  · intro i hi
    have hin : 0 ≤ i ∧ i < 0 + N.toNat := by omega
    simp only [if_pos hin, Nat.sub_zero, and_self]
  · intro i hi
    have hin : ¬ (0 ≤ i ∧ i < 0 + N.toNat) := by omega
    simp only [if_neg hin]

/-- Witness: the 32-byte sample holds the timevals (1 s, 2 us) and (-1 s, 3 us); decoding
two elements succeeds and leaves the cursor at 32. -/
theorem unpack_timeval_spec_witness :
    (pmix_bfrop_unpack_timeval sample_timevals (fun _ => ⟨0, 0⟩) 2 PMIX_TIMEVAL).rc =
        PMIX_SUCCESS ∧
      (pmix_bfrop_unpack_timeval sample_timevals (fun _ => ⟨0, 0⟩) 2 PMIX_TIMEVAL).buffer =
        { sample_timevals with unpack_ptr := 32 } ∧
      (pmix_bfrop_unpack_timeval sample_timevals (fun _ => ⟨0, 0⟩) 2 PMIX_TIMEVAL).dest 1 =
        ⟨-1, 3⟩ :=
  have h := unpack_timeval_spec sample_timevals (fun _ => ⟨0, 0⟩) 2 PMIX_TIMEVAL
    (by decide) (by decide) (by decide)
  ⟨h.1, h.2.1, by decide⟩

/-! ## The generic scalar decoders: the fast path -/

/-- C26: for the generic scalar decoders (bool, int, size_t, pid_t), each with its host
wire type `B` (`BFROP_TYPE_INT` for pmix_bfrop_unpack_int): in self-describing mode the
wire tag is the one pmix_bfrop_peek_type reports, the buffer staying as it is, and
whenever the peek succeeds with the tag `B` the decoder's whole outcome (status,
destination, buffer with its cursor, count) is that of pmix_bfrop_unpack_buffer called
with `B` on the unchanged buffer; in non-described mode the tag is read with
pmix_bfrop_get_data_type, which moves the cursor by the 4 bytes of the tag, and whenever
the read succeeds with the tag `B` the decoder's whole outcome is that of
pmix_bfrop_unpack_buffer called with `B` on the buffer after the read. -/
theorem scalar_decoder_fast_path {δ : Type}
    (reg : pmix_data_type_t → Option (pmix_bfrop_type_info_t δ))
    (B : pmix_data_type_t)
    (slow : pmix_data_type_t → pmix_buffer_t → δ → Int → Outcome pmix_buffer_t δ Int)
    (buffer : pmix_buffer_t) (dest : δ) (n : Int) (type : pmix_data_type_t) :
    ∀ f ∈ [@pmix_bfrop_unpack_bool δ, @pmix_bfrop_unpack_int δ, @pmix_bfrop_unpack_sizet δ,
        @pmix_bfrop_unpack_pid δ],
      (buffer.type = PMIX_BFROP_BUFFER_FULLY_DESC →
        pmix_bfrop_peek_type buffer = (PMIX_SUCCESS, B) →
        f reg B slow buffer dest n type = pmix_bfrop_unpack_buffer reg buffer dest n B) ∧
      (buffer.type = PMIX_BFROP_BUFFER_NON_DESC →
        ∀ b1 : pmix_buffer_t, pmix_bfrop_get_data_type buffer = (PMIX_SUCCESS, b1, B) →
        b1 = { buffer with unpack_ptr := buffer.unpack_ptr + 4 } ∧
        f reg B slow buffer dest n type = pmix_bfrop_unpack_buffer reg b1 dest n B) := by
  intro f hf
  simp only [List.mem_cons, List.mem_singleton, List.not_mem_nil, or_false] at hf
  refine ⟨fun hm hp => ?_, fun hm b1 hg => ⟨(get_data_type_success buffer b1 B hg).1, ?_⟩⟩
  · rcases hf with rfl | rfl | rfl | rfl
    · simp only [pmix_bfrop_unpack_bool, if_pos hm, hp, ne_eq, not_true_eq_false, if_false,
        if_true]
    · simp only [pmix_bfrop_unpack_int, if_pos hm, hp, ne_eq, not_true_eq_false, if_false,
        if_true]
    · simp only [pmix_bfrop_unpack_sizet, if_pos hm, hp, ne_eq, not_true_eq_false, if_false,
        if_true]
    · simp only [pmix_bfrop_unpack_pid, if_pos hm, hp, ne_eq, not_true_eq_false, if_false,
        if_true]
  · have hne : ¬ buffer.type = PMIX_BFROP_BUFFER_FULLY_DESC := by rw [hm]; decide
    rcases hf with rfl | rfl | rfl | rfl
    · simp only [pmix_bfrop_unpack_bool, if_neg hne, hg, ne_eq, not_true_eq_false, if_false,
        if_true]
    · simp only [pmix_bfrop_unpack_int, if_neg hne, hg, ne_eq, not_true_eq_false, if_false,
        if_true]
    · simp only [pmix_bfrop_unpack_sizet, if_neg hne, hg, ne_eq, not_true_eq_false, if_false,
        if_true]
    · simp only [pmix_bfrop_unpack_pid, if_neg hne, hg, ne_eq, not_true_eq_false, if_false,
        if_true]

/-- Witness: on the non-described sample the tag INT32 is read, and the int decoder
whose host wire type is INT32 yields what generic dispatch for INT32 yields on the buffer
with the cursor at 4: the value 7. -/
theorem scalar_decoder_fast_path_witness :
    pmix_bfrop_unpack_int sample_fixed_registry PMIX_INT32 sample_size_mismatch
        sample_tagged_int (fun _ => 0) 1 PMIX_INT =
      pmix_bfrop_unpack_buffer sample_fixed_registry
        { sample_tagged_int with unpack_ptr := 4 } (fun _ => 0) 1 PMIX_INT32 ∧
    (pmix_bfrop_unpack_buffer sample_fixed_registry
        { sample_tagged_int with unpack_ptr := 4 } (fun _ => 0) 1 PMIX_INT32).dest 0 = 7 :=
  ⟨((scalar_decoder_fast_path sample_fixed_registry PMIX_INT32 sample_size_mismatch
      sample_tagged_int (fun _ => 0) 1 PMIX_INT pmix_bfrop_unpack_int (by simp)).2 rfl
      { sample_tagged_int with unpack_ptr := 4 } (by decide)).2, by decide⟩

/-! ## The batch decoder on a negative wire count -/

/-- C28, at the failing input: on the non-described buffer whose count header holds the
int32 value -1, with the string decoder registered for STRING and a capacity of 3,
pmix_bfrop_unpack reads the count -1, which is not above the capacity, dispatches the
string decoder with that count (its element loop does not run) and returns success
with the output count -1 and the cursor after the header. -/
theorem unpack_negative_wire_count :
    (pmix_bfrop_unpack sample_string_registry (some sample_negative_count)
        (some (fun _ => none)) (some 3) PMIX_STRING).rc = PMIX_SUCCESS ∧
    (pmix_bfrop_unpack sample_string_registry (some sample_negative_count)
        (some (fun _ => none)) (some 3) PMIX_STRING).num_vals = some (-1) ∧
    (pmix_bfrop_unpack sample_string_registry (some sample_negative_count)
        (some (fun _ => none)) (some 3) PMIX_STRING).buffer =
      some { sample_negative_count with unpack_ptr := 4 } := by
  refine ⟨by decide, by decide, by decide⟩

/-! ## Byte objects: size and bytes -/

theorem unpack_byte_num_vals (b : pmix_buffer_t) (d : Nat → uint8_t) (n : Int)
    (type : pmix_data_type_t) : (pmix_bfrop_unpack_byte b d n type).num_vals = n := by
  unfold pmix_bfrop_unpack_byte
  split_ifs <;> rfl

theorem length_region_of_dest (size : Nat) (d : Nat → uint8_t) :
    (region_of_dest size d).length = size := by
  simp [region_of_dest]

theorem unpack_byte_object_loop_frame (malloc : Nat → Bool) :
    ∀ (k i : Nat) (b : pmix_buffer_t) (d : Nat → Option pmix_byte_object_t) (j : Nat),
      j < i → (unpack_byte_object_loop malloc k i b d).2.2 j = d j
  | 0, _, _, _, _, _ => rfl
  | k + 1, i, b, d, j, hj => by
    have hne : j ≠ i := by omega
    rw [unpack_byte_object_loop]
    simp only []
    split_ifs
    all_goals first
      | simp only [Function.update_noteq hne]
      | rw [unpack_byte_object_loop_frame malloc k (i + 1) _ _ j (by omega),
          Function.update_noteq hne]

theorem unpack_byte_object_loop_objects (malloc : Nat → Bool) :
    ∀ (k i : Nat) (b : pmix_buffer_t) (d : Nat → Option pmix_byte_object_t),
      (unpack_byte_object_loop malloc k i b d).1 = PMIX_SUCCESS →
      ∀ j, i ≤ j → j < i + k →
        ∃ obj, (unpack_byte_object_loop malloc k i b d).2.2 j = some obj ∧
          (obj.bytes = none ↔ obj.size ≤ 0) ∧
          (∀ bs, obj.bytes = some bs → 0 < obj.size ∧ bs.length = obj.size.toNat)
  | 0, i, _, _, _, j, h1, h2 => by omega
  | k + 1, i, b, d, hs, j, h1, h2 => by
    rw [unpack_byte_object_loop] at hs ⊢
    simp only [] at hs ⊢
    have hr31 := (to_int32_range
      ((pmix_bfrop_unpack_int32 b (fun _ => 0) 1 PMIX_INT32).dest 0)).2
    split_ifs at hs ⊢ with hm hr hpos hm2 hc
    all_goals first
      | exact absurd hs (by assumption)
      | (by_cases hj : j = i
         · subst hj
           rw [unpack_byte_object_loop_frame malloc k (j + 1) _ _ j (by omega),
             Function.update_same]
           refine ⟨_, rfl, ?_, ?_⟩
           · simp only [unpack_byte_num_vals]
             constructor
             · intro h
               exact absurd h (by simp)
             · intro h
               omega
           · intro bs hbs
             simp only [unpack_byte_num_vals] at hbs ⊢
             have e := Option.some.inj hbs
             rw [← e, length_region_of_dest, to_size_t_of_nonneg _ (le_of_lt hpos) hr31]
             exact ⟨hpos, rfl⟩
         · exact unpack_byte_object_loop_objects malloc k (i + 1) _ _ hs j (by omega)
             (by omega))
      | (by_cases hj : j = i
         · subst hj
           rw [unpack_byte_object_loop_frame malloc k (j + 1) _ _ j (by omega),
             Function.update_same]
           refine ⟨_, rfl, ?_, ?_⟩
           · dsimp only
             exact ⟨fun _ => by omega, fun _ => rfl⟩
           · intro bs hbs
             exact absurd hbs (by simp)
         · exact unpack_byte_object_loop_objects malloc k (i + 1) _ _ hs j (by omega)
             (by omega))

/-- Counterexample to C30: on the non-described buffer that holds the wire size -1, the
byte object decoder, called for one object, returns success and produces an object of
size -1 whose bytes are absent. -/
theorem byte_object_negative_size :
    (pmix_bfrop_unpack_byte_object malloc_always sample_negative_size (fun _ => none) 1
        PMIX_BYTE_OBJECT).rc = PMIX_SUCCESS ∧
    (pmix_bfrop_unpack_byte_object malloc_always sample_negative_size (fun _ => none) 1
        PMIX_BYTE_OBJECT).dest 0 = some ⟨-1, none⟩ := by
  refine ⟨by decide, by decide⟩

/-- C30, amended: every byte object that pmix_bfrop_unpack_byte_object (at each index
below the count) or the BYTE_OBJECT arm of pmix_bfrop_unpack_value produces on a
successful return has its bytes absent if and only if its size is at most 0, and when
its bytes are present its size is positive and it holds exactly size bytes. The size is
the int32 read from the wire and can be negative. -/
theorem byte_object_size_and_bytes (malloc : Nat → Bool) (buffer : pmix_buffer_t) :
    (∀ (dest : Nat → Option pmix_byte_object_t) (n : Int) (type : pmix_data_type_t),
      (pmix_bfrop_unpack_byte_object malloc buffer dest n type).rc = PMIX_SUCCESS →
      ∀ j, j < n.toNat →
        ∃ obj, (pmix_bfrop_unpack_byte_object malloc buffer dest n type).dest j = some obj ∧
          (obj.bytes = none ↔ obj.size ≤ 0) ∧
          (∀ bs, obj.bytes = some bs → 0 < obj.size ∧ bs.length = obj.size.toNat)) ∧
    (∀ (δ : Type) (reg : pmix_data_type_t → Option (pmix_bfrop_type_info_t δ))
      (cells : pmix_value_cells δ),
      (unpack_value_arm reg cells malloc buffer .byte_object).1 = PMIX_SUCCESS →
      ∃ size bytes,
        (unpack_value_arm reg cells malloc buffer .byte_object).2.2 = .bo size bytes ∧
        (bytes = none ↔ size ≤ 0) ∧
        (∀ bs, bytes = some bs → 0 < size ∧ bs.length = size.toNat)) := by
  refine ⟨fun dest n type hs j hj => ?_, fun δ reg cells hs => ?_⟩
  · exact unpack_byte_object_loop_objects malloc n.toNat 0 buffer dest hs j (by omega)
      (by omega)
  · simp only [unpack_value_arm] at hs ⊢
    have hr31 := (to_int32_range
      ((pmix_bfrop_unpack_int32 buffer (fun _ => 0) 1 PMIX_INT32).dest 0)).2
    split_ifs at hs ⊢ with hr hpos hm2 hc
    all_goals first
      | exact absurd hs (by assumption)
      | (simp at hs; done)
      | (refine ⟨_, _, rfl, ?_, ?_⟩
         · simp only [unpack_byte_num_vals]
           constructor
           · intro h
             exact absurd h (by simp)
           · intro h
             omega
         · intro bs hbs
           simp only [unpack_byte_num_vals] at hbs ⊢
           have e := Option.some.inj hbs
           rw [← e, length_region_of_dest, to_size_t_of_nonneg _ (le_of_lt hpos) hr31]
           exact ⟨hpos, rfl⟩)
      | (refine ⟨_, _, rfl, ?_, ?_⟩
         · dsimp only
           exact ⟨fun _ => by omega, fun _ => rfl⟩
         · intro bs hbs
           exact absurd hbs (by simp))

/-- Witness: the two byte objects of the sample decode with success; the second one has
size 3 and holds the three bytes `01 02 03`. -/
theorem byte_object_size_and_bytes_witness :
    (pmix_bfrop_unpack_byte_object malloc_always sample_byte_objects (fun _ => none) 2
        PMIX_BYTE_OBJECT).rc = PMIX_SUCCESS ∧
    (pmix_bfrop_unpack_byte_object malloc_always sample_byte_objects (fun _ => none) 2
        PMIX_BYTE_OBJECT).dest 1 = some ⟨3, some [1, 2, 3]⟩ ∧
    ∃ obj, (pmix_bfrop_unpack_byte_object malloc_always sample_byte_objects (fun _ => none) 2
        PMIX_BYTE_OBJECT).dest 1 = some obj ∧
      (obj.bytes = none ↔ obj.size ≤ 0) ∧
      (∀ bs, obj.bytes = some bs → 0 < obj.size ∧ bs.length = obj.size.toNat) :=
  ⟨by decide, by decide,
    (byte_object_size_and_bytes malloc_always sample_byte_objects).1 (fun _ => none) 2
      PMIX_BYTE_OBJECT (by decide) 1 (by decide)⟩

/-! ## Sub-buffers: the bookkeeping -/

/-- C22, at the failing input: the non-described parent holds the inline tag of the host
wire type of size_t, the byte count 2^32 + 5 and five bytes. The count converts to the
int32 value 5, so the decode of one sub-buffer returns success after copying five
bytes: the new buffer has bytes_allocated 2^32 + 5 but bytes_used 5 and its pack pointer
at base + 5, and the parent's cursor has moved past five payload bytes only. -/
theorem unpack_buffer_contents_wide_count :
    (pmix_bfrop_unpack_buffer_contents sample_fixed_registry PMIX_UINT64 sample_size_mismatch
      (fun _ => 0) (fun d => d 0) (some sample_new_buffer) malloc_always
      sample_parent_wide (fun _ => none) 1 PMIX_BUFFER).rc = PMIX_SUCCESS ∧
    ((pmix_bfrop_unpack_buffer_contents sample_fixed_registry PMIX_UINT64 sample_size_mismatch
      (fun _ => 0) (fun d => d 0) (some sample_new_buffer) malloc_always
      sample_parent_wide (fun _ => none) 1 PMIX_BUFFER).dest 0).map
        (fun sub => (sub.bytes_allocated, sub.bytes_used, sub.pack_ptr, sub.unpack_ptr)) =
      some (2 ^ 32 + 5, 5, 5, 0) ∧
    (pmix_bfrop_unpack_buffer_contents sample_fixed_registry PMIX_UINT64 sample_size_mismatch
      (fun _ => 0) (fun d => d 0) (some sample_new_buffer) malloc_always
      sample_parent_wide (fun _ => none) 1 PMIX_BUFFER).buffer =
      { sample_parent_wide with unpack_ptr := 17 } := by
  refine ⟨by decide, by decide, by decide⟩

/-! ## Sub-buffers decode like top-level buffers -/

theorem same_used_region_advance (a b : pmix_buffer_t) (h : same_used_region a b) (k : Int) :
    same_used_region (advance a k) (advance b k) := by
  obtain ⟨h1, h2, h3⟩ := h
  refine ⟨?_, h2, h3⟩
  show ((a.unpack_ptr : Int) + k).toNat = ((b.unpack_ptr : Int) + k).toNat
  rw [h1]

theorem unpack_byte_same (a b : pmix_buffer_t) (h : same_used_region a b)
    (d : Nat → uint8_t) (n : Int) (type : pmix_data_type_t) :
    (pmix_bfrop_unpack_byte a d n type).rc = (pmix_bfrop_unpack_byte b d n type).rc ∧
    (pmix_bfrop_unpack_byte a d n type).dest = (pmix_bfrop_unpack_byte b d n type).dest ∧
    same_used_region (pmix_bfrop_unpack_byte a d n type).buffer
      (pmix_bfrop_unpack_byte b d n type).buffer := by
  have h' := h
  obtain ⟨h1, h2, h3⟩ := h
  by_cases hs : a.bytes_used - a.unpack_ptr < to_size_t n
  · have hs2 : b.bytes_used - b.unpack_ptr < to_size_t n := by rw [← h1, ← h2]; exact hs
    rw [unpack_byte_too_small a d n type hs, unpack_byte_too_small b d n type hs2]
    exact ⟨rfl, rfl, h'⟩
  · have hs2 : ¬ b.bytes_used - b.unpack_ptr < to_size_t n := by rw [← h1, ← h2]; exact hs
    have ea : pmix_bfrop_unpack_byte a d n type =
        ⟨PMIX_SUCCESS, advance a n, memcpy d a (to_size_t n), n⟩ := by
      simp [pmix_bfrop_unpack_byte, pmix_bfrop_too_small, hs]
    have eb : pmix_bfrop_unpack_byte b d n type =
        ⟨PMIX_SUCCESS, advance b n, memcpy d b (to_size_t n), n⟩ := by
      simp [pmix_bfrop_unpack_byte, pmix_bfrop_too_small, hs2]
    rw [ea, eb]
    refine ⟨rfl, ?_, same_used_region_advance a b h' n⟩
    funext i
    show (if i < to_size_t n then byte_at a.base_ptr (a.unpack_ptr + i) else d i) =
      (if i < to_size_t n then byte_at b.base_ptr (b.unpack_ptr + i) else d i)
    by_cases hi : i < to_size_t n
    · rw [if_pos hi, if_pos hi, ← h1]
      exact h3 _ (by omega)
    · rw [if_neg hi, if_neg hi]

theorem unpack_fixed_same (w : Nat) (conv : List uint8_t → Nat) (hw : w ≤ 8)
    (a b : pmix_buffer_t) (h : same_used_region a b)
    (d : Nat → Nat) (n : Int) (type : pmix_data_type_t) (hhi : n < 2 ^ 31) :
    (unpack_fixed w conv a d n type).rc = (unpack_fixed w conv b d n type).rc ∧
    (unpack_fixed w conv a d n type).dest = (unpack_fixed w conv b d n type).dest ∧
    same_used_region (unpack_fixed w conv a d n type).buffer
      (unpack_fixed w conv b d n type).buffer := by
  have h' := h
  obtain ⟨h1, h2, h3⟩ := h
  by_cases hs : a.bytes_used - a.unpack_ptr < size_mul (to_size_t n) w
  · have hs2 : b.bytes_used - b.unpack_ptr < size_mul (to_size_t n) w := by
      rw [← h1, ← h2]; exact hs
    rw [unpack_fixed_too_small w conv a d n type hs,
      unpack_fixed_too_small w conv b d n type hs2]
    exact ⟨rfl, rfl, h'⟩
  · have hs2 : ¬ b.bytes_used - b.unpack_ptr < size_mul (to_size_t n) w := by
      rw [← h1, ← h2]; exact hs
    rw [unpack_fixed_ok w conv a d n type hs, unpack_fixed_ok w conv b d n type hs2]
    refine ⟨rfl, ?_, ?_, h2, h3⟩
    · funext j
      show (if j < n.toNat then conv (wire_bytes a.base_ptr (a.unpack_ptr + j * w) w)
        else d j) =
        (if j < n.toNat then conv (wire_bytes b.base_ptr (b.unpack_ptr + j * w) w) else d j)
      by_cases hj : j < n.toNat
      · have h0 : 0 ≤ n := by omega
        have hsz := size_mul_count n h0 hhi w hw
        rw [hsz] at hs
        rw [if_pos hj, if_pos hj, ← h1]
        congr 1
        symm
        apply wire_bytes_congr
        intro t ht
        symm
        apply h3
        have : (j + 1) * w ≤ n.toNat * w := Nat.mul_le_mul_right w hj
        have e : (j + 1) * w = j * w + w := by ring
        omega
      · rw [if_neg hj, if_neg hj]
    · show a.unpack_ptr + n.toNat * w = b.unpack_ptr + n.toNat * w
      rw [h1]

theorem unpack_string_loop_same (malloc : Nat → Bool) :
    ∀ (k i : Nat) (a b : pmix_buffer_t) (d : Nat → c_string),
      same_used_region a b →
      (unpack_string_loop malloc k i a d).1 = (unpack_string_loop malloc k i b d).1 ∧
      (unpack_string_loop malloc k i a d).2.2 = (unpack_string_loop malloc k i b d).2.2 ∧
      same_used_region (unpack_string_loop malloc k i a d).2.1
        (unpack_string_loop malloc k i b d).2.1
  | 0, _, _, _, _, h => ⟨rfl, rfl, h⟩
  | k + 1, i, a, b, d, h => by
    obtain ⟨r1, r2, r3⟩ := unpack_fixed_same 4 ntohl (by decide) a b h (fun _ => 0) 1
      PMIX_INT32 (by decide)
    rw [← pmix_bfrop_unpack_int32_eq] at r1 r2 r3
    rw [unpack_string_loop, unpack_string_loop]
    simp only []
    rw [← r1, ← r2]
    by_cases hrc : (pmix_bfrop_unpack_int32 a (fun _ => 0) 1 PMIX_INT32).rc ≠ PMIX_SUCCESS
    · rw [if_pos hrc, if_pos hrc]
      exact ⟨rfl, rfl, r3⟩
    · rw [if_neg hrc, if_neg hrc]
      by_cases hlen : to_int32 ((pmix_bfrop_unpack_int32 a (fun _ => 0) 1 PMIX_INT32).dest 0)
          = 0
      · rw [if_pos hlen, if_pos hlen]
        exact unpack_string_loop_same malloc k (i + 1) _ _ _ r3
      · rw [if_neg hlen, if_neg hlen]
        by_cases hm : malloc (to_size_t (to_int32
            ((pmix_bfrop_unpack_int32 a (fun _ => 0) 1 PMIX_INT32).dest 0))) = false
        · rw [if_pos hm, if_pos hm]
          exact ⟨rfl, rfl, r3⟩
        · rw [if_neg hm, if_neg hm]
          obtain ⟨c1, c2, c3⟩ := unpack_byte_same _ _ r3
            (region_dest (malloc_region (to_size_t (to_int32
              ((pmix_bfrop_unpack_int32 a (fun _ => 0) 1 PMIX_INT32).dest 0)))))
            (to_int32 ((pmix_bfrop_unpack_int32 a (fun _ => 0) 1 PMIX_INT32).dest 0))
            PMIX_BYTE
          rw [← c1, ← c2]
          by_cases hc : (pmix_bfrop_unpack_byte
              (pmix_bfrop_unpack_int32 a (fun _ => 0) 1 PMIX_INT32).buffer
              (region_dest (malloc_region (to_size_t (to_int32
                ((pmix_bfrop_unpack_int32 a (fun _ => 0) 1 PMIX_INT32).dest 0)))))
              (to_int32 ((pmix_bfrop_unpack_int32 a (fun _ => 0) 1 PMIX_INT32).dest 0))
              PMIX_BYTE).rc ≠ PMIX_SUCCESS
          · rw [if_pos hc, if_pos hc]
            exact ⟨rfl, rfl, c3⟩
          · rw [if_neg hc, if_neg hc]
            exact unpack_string_loop_same malloc k (i + 1) _ _ _ c3

theorem unpack_buffer_contents_one_cursor {δ : Type}
    (reg : pmix_data_type_t → Option (pmix_bfrop_type_info_t δ))
    (B : pmix_data_type_t)
    (slow : pmix_data_type_t → pmix_buffer_t → δ → Int → Outcome pmix_buffer_t δ Int)
    (cell : δ) (load : δ → Nat) (obj : Option pmix_buffer_t) (malloc : Nat → Bool)
    (parent : pmix_buffer_t) (ptr : Nat → Option pmix_buffer_t) (type : pmix_data_type_t)
    (sub : pmix_buffer_t)
    (hs : (pmix_bfrop_unpack_buffer_contents reg B slow cell load obj malloc parent ptr 1
      type).rc = PMIX_SUCCESS)
    (hsub : (pmix_bfrop_unpack_buffer_contents reg B slow cell load obj malloc parent ptr 1
      type).dest 0 = some sub) :
    sub.unpack_ptr = 0 := by
  have e1 : (1 : Int).toNat = 0 + 1 := rfl
  simp only [pmix_bfrop_unpack_buffer_contents, e1] at hs hsub
  cases obj with
  | none =>
    simp only [unpack_buffer_contents_loop] at hs
    exact absurd hs (by decide)
  | some o =>
    simp only [unpack_buffer_contents_loop] at hs hsub
    split_ifs at hs hsub
    all_goals first
      | exact absurd hs (by assumption)
      | (simp only [unpack_buffer_contents_loop, Function.update_same] at hsub
         rw [← Option.some.inj hsub])

theorem unpack_buffer_contents_one_payload {δ : Type}
    (reg : pmix_data_type_t → Option (pmix_bfrop_type_info_t δ))
    (B : pmix_data_type_t)
    (slow : pmix_data_type_t → pmix_buffer_t → δ → Int → Outcome pmix_buffer_t δ Int)
    (cell : δ) (load : δ → Nat) (obj : Option pmix_buffer_t) (malloc : Nat → Bool)
    (parent : pmix_buffer_t) (ptr : Nat → Option pmix_buffer_t) (type : pmix_data_type_t)
    (sub : pmix_buffer_t) (s : Outcome pmix_buffer_t δ Int)
    (hs : (pmix_bfrop_unpack_buffer_contents reg B slow cell load obj malloc parent ptr 1
      type).rc = PMIX_SUCCESS)
    (hsub : (pmix_bfrop_unpack_buffer_contents reg B slow cell load obj malloc parent ptr 1
      type).dest 0 = some sub)
    (hcount : s = pmix_bfrop_unpack_sizet reg B slow parent cell 1 PMIX_SIZE)
    (hsize : s.buffer.bytes_used < 2 ^ 63)
    (hmalloc : 0 < load s.dest → malloc (load s.dest) = true) :
    s.rc = PMIX_SUCCESS ∧ 0 ≤ to_int32 (load s.dest) ∧
    sub.unpack_ptr = 0 ∧ sub.bytes_used = (to_int32 (load s.dest)).toNat ∧
    (∀ j, j < sub.bytes_used →
      byte_at sub.base_ptr j = byte_at s.buffer.base_ptr (s.buffer.unpack_ptr + j)) := by
  have e1 : (1 : Int).toNat = 0 + 1 := rfl
  simp only [pmix_bfrop_unpack_buffer_contents, e1] at hs hsub
  cases obj with
  | none =>
    simp only [unpack_buffer_contents_loop] at hs
    exact absurd hs (by decide)
  | some o =>
    simp only [unpack_buffer_contents_loop] at hs hsub
    rw [← hcount] at hs hsub
    by_cases h1 : s.rc ≠ PMIX_SUCCESS
    · rw [if_pos h1] at hs
      exact absurd hs h1
    rw [if_neg h1] at hs hsub
    obtain ⟨hlo, hhi⟩ := to_int32_range (load s.dest)
    by_cases h2 : 0 < load s.dest
    · rw [if_pos h2] at hs hsub
      have hm := hmalloc h2
      simp only [hm, Bool.true_eq_false, if_false] at hs hsub
      by_cases hsmall : s.buffer.bytes_used - s.buffer.unpack_ptr <
          to_size_t (to_int32 (load s.dest))
      · rw [unpack_byte_too_small _ _ _ _ hsmall] at hs
        have hne : PMIX_ERR_UNPACK_READ_PAST_END_OF_BUFFER ≠ PMIX_SUCCESS := by decide
        rw [if_pos hne] at hs
        exact absurd hs hne
      · have h0 : 0 ≤ to_int32 (load s.dest) := by
          by_contra hneg
          have := to_size_t_of_neg _ hlo (by omega)
          omega
        rw [unpack_byte_ok _ _ _ _ h0 hsmall] at hs hsub
        simp only [ne_eq, not_true_eq_false, if_false, unpack_buffer_contents_loop,
          Function.update_same] at hsub
        have e := Option.some.inj hsub
        have hts := to_size_t_of_nonneg _ h0 hhi
        have hle : (to_int32 (load s.dest)).toNat ≤ load s.dest := by
          unfold to_int32 at h0 ⊢
          have := Nat.mod_le (load s.dest) (2 ^ 32)
          split_ifs at h0 ⊢ <;> omega
        rw [← e]
        refine ⟨not_not.mp h1, h0, rfl, hts, fun j hj => ?_⟩
        dsimp only at hj ⊢
        rw [hts] at hj ⊢
        have hj2 : j < load s.dest := by omega
        simp [byte_at, region_of_dest, malloc_region, memcpy, hj, hj2,
          List.getD_eq_getElem?_getD]
    · rw [if_neg h2] at hs hsub
      have hz : load s.dest = 0 := by omega
      simp only [unpack_buffer_contents_loop, Function.update_same] at hsub
      have e := Option.some.inj hsub
      rw [← e, hz]
      refine ⟨not_not.mp h1, by decide, rfl, rfl, fun j hj => ?_⟩
      have : to_size_t (to_int32 0) = 0 := by decide
      dsimp only at hj
      rw [this] at hj
      exact absurd hj (by omega)

theorem wire_bytes_getD (mem : List uint8_t) (off w j : Nat) (hj : j < w) :
    (wire_bytes mem off w).getD j 0 = byte_at mem (off + j) := by
  simp only [wire_bytes, List.getD_eq_getElem?_getD, List.getElem?_map]
  rw [List.getElem?_range hj]
  rfl

theorem wire_bytes_ext (mem1 mem2 : List uint8_t) (off1 off2 w : Nat)
    (h : ∀ j, j < w → byte_at mem1 (off1 + j) = byte_at mem2 (off2 + j)) :
    wire_bytes mem1 off1 w = wire_bytes mem2 off2 w := by
  unfold wire_bytes
  exact List.map_congr_left (fun j hj => h j (List.mem_range.mp hj))

/-- C23: let a decode of one sub-buffer succeed and produce the buffer `sub`, the storage
for its payload having been allocated, and let `bs` be its payload: the bytes that
follow the decoded byte count on the wire, as many as the decoder copies (the int32
value of the count). Then `sub` has its cursor at its start and its used region is
exactly `bs`. Let `top` be a top-level buffer whose used region is exactly `bs`, with its
cursor at its start. Then the byte and null decoders (any count), the int16, int32 and
int64 decoders (any int32 count) and the string decoder (any count, any allocator)
return on `sub` the same status, the same destination contents and the same cursor
offset as on `top`. -/
theorem sub_buffer_decodes_as_top_level {δ : Type}
    (reg : pmix_data_type_t → Option (pmix_bfrop_type_info_t δ))
    (B : pmix_data_type_t)
    (slow : pmix_data_type_t → pmix_buffer_t → δ → Int → Outcome pmix_buffer_t δ Int)
    (cell : δ) (load : δ → Nat) (obj : Option pmix_buffer_t) (malloc : Nat → Bool)
    (parent : pmix_buffer_t) (ptr : Nat → Option pmix_buffer_t) (type : pmix_data_type_t)
    (sub top : pmix_buffer_t) (s : Outcome pmix_buffer_t δ Int) (bs : List uint8_t)
    (hs : (pmix_bfrop_unpack_buffer_contents reg B slow cell load obj malloc parent ptr 1
      type).rc = PMIX_SUCCESS)
    (hsub : (pmix_bfrop_unpack_buffer_contents reg B slow cell load obj malloc parent ptr 1
      type).dest 0 = some sub)
    (hcount : s = pmix_bfrop_unpack_sizet reg B slow parent cell 1 PMIX_SIZE)
    (hsize : s.buffer.bytes_used < 2 ^ 63)
    (hmalloc : 0 < load s.dest → malloc (load s.dest) = true)
    (hbs : bs = wire_bytes s.buffer.base_ptr s.buffer.unpack_ptr
      (to_int32 (load s.dest)).toNat)
    (hcur : top.unpack_ptr = 0) (hused : top.bytes_used = bs.length)
    (hbytes : wire_bytes top.base_ptr 0 top.bytes_used = bs) :
    (sub.unpack_ptr = 0 ∧ sub.bytes_used = bs.length ∧
      wire_bytes sub.base_ptr 0 sub.bytes_used = bs) ∧
    (∀ f ∈ [pmix_bfrop_unpack_byte, pmix_bfrop_unpack_null],
      ∀ (d : Nat → uint8_t) (n : Int) (ty : pmix_data_type_t),
        (f sub d n ty).rc = (f top d n ty).rc ∧ (f sub d n ty).dest = (f top d n ty).dest ∧
        (f sub d n ty).buffer.unpack_ptr = (f top d n ty).buffer.unpack_ptr) ∧
    (∀ f ∈ [pmix_bfrop_unpack_int16, pmix_bfrop_unpack_int32, pmix_bfrop_unpack_int64],
      ∀ (d : Nat → Nat) (n : Int) (ty : pmix_data_type_t),
        -(2 : Int) ^ 31 ≤ n → n < 2 ^ 31 →
        (f sub d n ty).rc = (f top d n ty).rc ∧ (f sub d n ty).dest = (f top d n ty).dest ∧
        (f sub d n ty).buffer.unpack_ptr = (f top d n ty).buffer.unpack_ptr) ∧
    (∀ (malloc2 : Nat → Bool) (d : Nat → c_string) (n : Int) (ty : pmix_data_type_t),
      (pmix_bfrop_unpack_string malloc2 sub d n ty).rc =
        (pmix_bfrop_unpack_string malloc2 top d n ty).rc ∧
      (pmix_bfrop_unpack_string malloc2 sub d n ty).dest =
        (pmix_bfrop_unpack_string malloc2 top d n ty).dest ∧
      (pmix_bfrop_unpack_string malloc2 sub d n ty).buffer.unpack_ptr =
        (pmix_bfrop_unpack_string malloc2 top d n ty).buffer.unpack_ptr) := by
  obtain ⟨_, _, h0, hlen, hpay⟩ := unpack_buffer_contents_one_payload reg B slow cell load
    obj malloc parent ptr type sub s hs hsub hcount hsize hmalloc
  have hbl : bs.length = (to_int32 (load s.dest)).toNat := by
    rw [hbs]
    simp [wire_bytes]
  have hsubbs : wire_bytes sub.base_ptr 0 sub.bytes_used = bs := by
    rw [hbs, hlen]
    apply wire_bytes_ext
    intro j hj
    rw [Nat.zero_add]
    exact hpay j (by omega)
  have hsame : same_used_region sub top := by
    refine ⟨by rw [h0, hcur], by rw [hused, hlen, hbl], fun j hj => ?_⟩
    have e1 := wire_bytes_getD sub.base_ptr 0 sub.bytes_used j hj
    have e2 := wire_bytes_getD top.base_ptr 0 top.bytes_used j (by omega)
    rw [hsubbs] at e1
    rw [hbytes] at e2
    rw [Nat.zero_add] at e1 e2
    rw [← e1, ← e2]
  refine ⟨⟨h0, by rw [hlen, hbl], hsubbs⟩, ?_, ?_, ?_⟩
  · intro f hf d n ty
    have hf2 : f = pmix_bfrop_unpack_byte := by
      simp only [List.mem_cons, List.mem_singleton, List.not_mem_nil, or_false] at hf
      rcases hf with rfl | rfl
      · rfl
      · exact pmix_bfrop_unpack_null_eq
    rw [hf2]
    obtain ⟨c1, c2, c3⟩ := unpack_byte_same sub top hsame d n ty
    exact ⟨c1, c2, c3.1⟩
  · intro f hf d n ty _ hhi
    simp only [List.mem_cons, List.mem_singleton, List.not_mem_nil, or_false] at hf
    rcases hf with rfl | rfl | rfl
    · obtain ⟨c1, c2, c3⟩ := unpack_fixed_same 2 ntohs (by decide) sub top hsame d n ty hhi
      exact ⟨c1, c2, c3.1⟩
    · obtain ⟨c1, c2, c3⟩ := unpack_fixed_same 4 ntohl (by decide) sub top hsame d n ty hhi
      exact ⟨c1, c2, c3.1⟩
    · obtain ⟨c1, c2, c3⟩ := unpack_fixed_same 8 ntoh64 (by decide) sub top hsame d n ty hhi
      exact ⟨c1, c2, c3.1⟩
  · intro malloc2 d n ty
    obtain ⟨c1, c2, c3⟩ := unpack_string_loop_same malloc2 n.toNat 0 sub top d hsame
    exact ⟨c1, c2, c3.1⟩

/-- Witness: the sample parent holds a sub-buffer with the payload `01 02 07`, the three
bytes after the count; the decoded sub-buffer has exactly these bytes as its used region,
and the int16 decoder reads the value 258 from it as it does from the top-level sample
that holds the same three bytes. -/
theorem sub_buffer_decodes_as_top_level_witness :
    (pmix_bfrop_unpack_buffer_contents sample_fixed_registry PMIX_UINT64 sample_size_mismatch
      (fun _ => 0) (fun d => d 0) (some sample_new_buffer) malloc_always
      sample_parent (fun _ => none) 1 PMIX_BUFFER).dest 0 =
        some ⟨PMIX_BFROP_BUFFER_NON_DESC, [1, 2, 7], 3, 0, 3, 3⟩ ∧
    wire_bytes sample_parent.base_ptr 12 3 = [1, 2, 7] ∧
    wire_bytes (⟨PMIX_BFROP_BUFFER_NON_DESC, [1, 2, 7], 3, 0, 3, 3⟩ : pmix_buffer_t).base_ptr
      0 (⟨PMIX_BFROP_BUFFER_NON_DESC, [1, 2, 7], 3, 0, 3, 3⟩ : pmix_buffer_t).bytes_used =
      [1, 2, 7] ∧
    (pmix_bfrop_unpack_int16 ⟨PMIX_BFROP_BUFFER_NON_DESC, [1, 2, 7], 3, 0, 3, 3⟩
      (fun _ => 0) 1 PMIX_INT16).dest =
      (pmix_bfrop_unpack_int16 sample_top_level (fun _ => 0) 1 PMIX_INT16).dest ∧
    (pmix_bfrop_unpack_int16 sample_top_level (fun _ => 0) 1 PMIX_INT16).dest 0 = 258 :=
  have h := sub_buffer_decodes_as_top_level sample_fixed_registry PMIX_UINT64
    sample_size_mismatch (fun _ => 0) (fun d => d 0) (some sample_new_buffer) malloc_always
    sample_parent (fun _ => none) PMIX_BUFFER
    ⟨PMIX_BFROP_BUFFER_NON_DESC, [1, 2, 7], 3, 0, 3, 3⟩ sample_top_level
    (pmix_bfrop_unpack_sizet sample_fixed_registry PMIX_UINT64 sample_size_mismatch
      sample_parent (fun _ => 0) 1 PMIX_SIZE) [1, 2, 7]
    (by decide) (by decide) rfl (by decide) (fun _ => rfl) (by decide) (by decide)
    (by decide) (by decide)
  ⟨by decide, by decide, h.1.2.2,
    (h.2.2.1 pmix_bfrop_unpack_int16 (by simp) (fun _ => 0) 1 PMIX_INT16
      (by decide) (by decide)).2.1,
    by decide⟩

/-! ## The element loops are bounded by the bytes that remain -/

theorem unpack_string_loop_needs (malloc : Nat → Bool) :
    ∀ (k i : Nat) (b : pmix_buffer_t) (d : Nat → c_string),
      b.bytes_used < 2 ^ 63 →
      (unpack_string_loop malloc k i b d).1 = PMIX_SUCCESS →
      (unpack_string_loop malloc k i b d).2.1.bytes_used = b.bytes_used ∧
      b.unpack_ptr + 4 * k ≤ (unpack_string_loop malloc k i b d).2.1.unpack_ptr ∧
      (k ≠ 0 → (unpack_string_loop malloc k i b d).2.1.unpack_ptr ≤ b.bytes_used)
  | 0, _, b, _, _, _ => ⟨rfl, by simp [unpack_string_loop], fun h => absurd rfl h⟩
  | k + 1, i, b, d, hs, h => by
    rw [unpack_string_loop_step malloc k i b d hs] at h ⊢
    split_ifs at h ⊢
    all_goals
      obtain ⟨e1, e2, e3⟩ := unpack_string_loop_needs malloc k (i + 1) _ _ (by exact hs) h
      dsimp only at e1 e2 e3
      refine ⟨e1, by omega, fun _ => ?_⟩
      by_cases hk : k = 0
      · subst hk
        simp only [unpack_string_loop]
        omega
      · exact e3 hk

theorem unpack_string_loop_stops (malloc : Nat → Bool) (m : Nat) :
    ∀ (k i : Nat) (b : pmix_buffer_t) (d : Nat → c_string),
      (unpack_string_loop malloc k i b d).1 ≠ PMIX_SUCCESS →
      unpack_string_loop malloc (k + m) i b d = unpack_string_loop malloc k i b d
  | 0, _, _, _, h => absurd rfl h
  | k + 1, i, b, d, h => by
    have e : k + 1 + m = (k + m) + 1 := by omega
    rw [e]
    rw [unpack_string_loop] at h ⊢
    rw [unpack_string_loop]
    simp only [] at h ⊢
    split_ifs at h ⊢
    all_goals first
      | rfl
      | exact unpack_string_loop_stops malloc m k _ _ _ h

theorem unpack_string_one_consumes (malloc : Nat → Bool) (b : pmix_buffer_t)
    (d : Nat → c_string) (type : pmix_data_type_t) (hs : b.bytes_used < 2 ^ 63)
    (h : (pmix_bfrop_unpack_string malloc b d 1 type).rc = PMIX_SUCCESS) :
    (pmix_bfrop_unpack_string malloc b d 1 type).buffer.bytes_used = b.bytes_used ∧
    b.unpack_ptr + 4 ≤ (pmix_bfrop_unpack_string malloc b d 1 type).buffer.unpack_ptr ∧
    (pmix_bfrop_unpack_string malloc b d 1 type).buffer.unpack_ptr ≤ b.bytes_used := by
  obtain ⟨e1, e2, e3⟩ := unpack_string_loop_needs malloc 1 0 b d hs h
  exact ⟨e1, e2, e3 (by decide)⟩

theorem unpack_argv_loop_needs (malloc : Nat → Bool) :
    ∀ (k : Nat) (b : pmix_buffer_t) (argv : List c_string),
      b.bytes_used < 2 ^ 63 →
      (unpack_argv_loop malloc k b argv).1 = PMIX_SUCCESS →
      (unpack_argv_loop malloc k b argv).2.1.bytes_used = b.bytes_used ∧
      b.unpack_ptr + 4 * k ≤ (unpack_argv_loop malloc k b argv).2.1.unpack_ptr ∧
      (k ≠ 0 → (unpack_argv_loop malloc k b argv).2.1.unpack_ptr ≤ b.bytes_used)
  | 0, b, _, _, _ => ⟨rfl, by simp [unpack_argv_loop], fun h => absurd rfl h⟩
  | k + 1, b, argv, hs, h => by
    rw [unpack_argv_loop] at h ⊢
    by_cases hrc : (pmix_bfrop_unpack_string malloc b (fun _ => none) 1 PMIX_STRING).rc ≠
        PMIX_SUCCESS
    · rw [if_pos hrc] at h
      exact absurd h hrc
    · rw [if_neg hrc] at h ⊢
      obtain ⟨s1, s2, s3⟩ := unpack_string_one_consumes malloc b (fun _ => none) PMIX_STRING
        hs (not_not.mp hrc)
      obtain ⟨e1, e2, e3⟩ := unpack_argv_loop_needs malloc k _ _ (by rw [s1]; exact hs) h
      refine ⟨e1.trans s1, by omega, fun _ => ?_⟩
      by_cases hk : k = 0
      · subst hk
        simp only [unpack_argv_loop]
        exact s3
      · have := e3 hk
        omega

theorem unpack_argv_loop_stops (malloc : Nat → Bool) (m : Nat) :
    ∀ (k : Nat) (b : pmix_buffer_t) (argv : List c_string),
      (unpack_argv_loop malloc k b argv).1 ≠ PMIX_SUCCESS →
      unpack_argv_loop malloc (k + m) b argv = unpack_argv_loop malloc k b argv
  | 0, _, _, h => absurd rfl h
  | k + 1, b, argv, h => by
    have e : k + 1 + m = (k + m) + 1 := by omega
    rw [e]
    rw [unpack_argv_loop] at h ⊢
    rw [unpack_argv_loop]
    split_ifs at h ⊢
    all_goals first
      | rfl
      | exact unpack_argv_loop_stops malloc m k _ _ h

theorem unpack_info_one (malloc : Nat → Bool) (obj_new : Bool) (b : pmix_buffer_t)
    (d : Nat → Option pmix_info_t) (type : pmix_data_type_t) :
    pmix_bfrop_unpack_info malloc obj_new b d 1 type =
      ⟨(unpack_info_element malloc obj_new b).1, (unpack_info_element malloc obj_new b).2.1,
        Function.update d 0 (unpack_info_element malloc obj_new b).2.2, 1⟩ := by
  have e1 : (1 : Int).toNat = 0 + 1 := rfl
  simp only [pmix_bfrop_unpack_info, e1, unpack_info_loop]
  by_cases h : (unpack_info_element malloc obj_new b).1 = PMIX_SUCCESS
  · simp [h]
  · simp [h]

theorem unpack_info_element_consumes (malloc : Nat → Bool) (obj_new : Bool)
    (b : pmix_buffer_t) (hs : b.bytes_used < 2 ^ 63)
    (h : (unpack_info_element malloc obj_new b).1 = PMIX_SUCCESS) :
    (unpack_info_element malloc obj_new b).2.1.bytes_used = b.bytes_used ∧
    b.unpack_ptr + 8 ≤ (unpack_info_element malloc obj_new b).2.1.unpack_ptr ∧
    (unpack_info_element malloc obj_new b).2.1.unpack_ptr ≤ b.bytes_used := by
  unfold unpack_info_element at h ⊢
  simp only [] at h ⊢
  split_ifs at h ⊢ with hn hk
  all_goals first
    | exact absurd h (by assumption)
    | (obtain ⟨s1, s2, s3⟩ := unpack_string_one_consumes malloc b (fun _ => none)
        PMIX_STRING hs (not_not.mp hk)
       obtain ⟨t1, t2, t3⟩ := unpack_string_one_consumes malloc _ (fun _ => none)
        PMIX_STRING (by rw [s1]; exact hs) h
       rw [s1] at t3
       refine ⟨t1.trans s1, ?_, ?_⟩
       · dsimp only
         omega
       · exact t3)

theorem unpack_info_list_loop_needs (malloc : Nat → Bool) (info_new : Bool) :
    ∀ (k : Nat) (b : pmix_buffer_t) (list : List (Option pmix_info_t)),
      b.bytes_used < 2 ^ 63 →
      (unpack_info_list_loop malloc info_new k b list).1 = PMIX_SUCCESS →
      (unpack_info_list_loop malloc info_new k b list).2.1.bytes_used = b.bytes_used ∧
      b.unpack_ptr + 4 * k ≤ (unpack_info_list_loop malloc info_new k b list).2.1.unpack_ptr ∧
      (k ≠ 0 →
        (unpack_info_list_loop malloc info_new k b list).2.1.unpack_ptr ≤ b.bytes_used)
  | 0, b, _, _, _ => ⟨rfl, by simp [unpack_info_list_loop], fun h => absurd rfl h⟩
  | k + 1, b, list, hs, h => by
    rw [unpack_info_list_loop, unpack_info_one] at h ⊢
    by_cases hrc : (unpack_info_element malloc info_new b).1 ≠ PMIX_SUCCESS
    · rw [if_pos hrc] at h
      exact absurd h hrc
    · rw [if_neg hrc] at h ⊢
      obtain ⟨s1, s2, s3⟩ := unpack_info_element_consumes malloc info_new b hs
        (not_not.mp hrc)
      obtain ⟨e1, e2, e3⟩ := unpack_info_list_loop_needs malloc info_new k _ _
        (by rw [s1]; exact hs) h
      dsimp only at e1 e2 e3 ⊢
      refine ⟨e1.trans s1, by omega, fun _ => ?_⟩
      by_cases hk : k = 0
      · subst hk
        simp only [unpack_info_list_loop]
        exact s3
      · have := e3 hk
        omega

theorem unpack_info_list_loop_stops (malloc : Nat → Bool) (info_new : Bool) (m : Nat) :
    ∀ (k : Nat) (b : pmix_buffer_t) (list : List (Option pmix_info_t)),
      (unpack_info_list_loop malloc info_new k b list).1 ≠ PMIX_SUCCESS →
      unpack_info_list_loop malloc info_new (k + m) b list =
        unpack_info_list_loop malloc info_new k b list
  | 0, _, _, h => absurd rfl h
  | k + 1, b, list, h => by
    have e : k + 1 + m = (k + m) + 1 := by omega
    rw [e]
    rw [unpack_info_list_loop] at h ⊢
    rw [unpack_info_list_loop]
    split_ifs at h ⊢
    all_goals first
      | rfl
      | exact unpack_info_list_loop_stops malloc info_new m k _ _ h

/-- C27: for every buffer that holds fewer than 2^63 bytes, with r bytes remaining, and
every count k, each of the element loops of pmix_bfrop_unpack_string and of
pmix_bfrop_unpack_apps (arguments and environment, info list) is a total function
whose result is the one it reaches within r/4 + 1 iterations: it does not succeed
unless k <= r/4, since every successful iteration moves the cursor by at least 4 bytes
without passing the end of the used region, and with a larger count it returns what
the loop cut at r/4 + 1 iterations returns, a failure. -/
theorem element_loops_bounded (malloc : Nat → Bool) (b : pmix_buffer_t)
    (hsize : b.bytes_used < 2 ^ 63) :
    (∀ (k i : Nat) (d : Nat → c_string),
      ((unpack_string_loop malloc k i b d).1 = PMIX_SUCCESS →
        k ≤ (b.bytes_used - b.unpack_ptr) / 4) ∧
      unpack_string_loop malloc k i b d =
        unpack_string_loop malloc (min k ((b.bytes_used - b.unpack_ptr) / 4 + 1)) i b d) ∧
    (∀ (d : Nat → c_string) (n : Int) (type : pmix_data_type_t),
      (pmix_bfrop_unpack_string malloc b d n type).rc = PMIX_SUCCESS →
        n.toNat ≤ (b.bytes_used - b.unpack_ptr) / 4) ∧
    (∀ (k : Nat) (argv : List c_string),
      ((unpack_argv_loop malloc k b argv).1 = PMIX_SUCCESS →
        k ≤ (b.bytes_used - b.unpack_ptr) / 4) ∧
      unpack_argv_loop malloc k b argv =
        unpack_argv_loop malloc (min k ((b.bytes_used - b.unpack_ptr) / 4 + 1)) b argv) ∧
    (∀ (info_new : Bool) (k : Nat) (list : List (Option pmix_info_t)),
      ((unpack_info_list_loop malloc info_new k b list).1 = PMIX_SUCCESS →
        k ≤ (b.bytes_used - b.unpack_ptr) / 4) ∧
      unpack_info_list_loop malloc info_new k b list =
        unpack_info_list_loop malloc info_new
          (min k ((b.bytes_used - b.unpack_ptr) / 4 + 1)) b list) := by
  have key : ∀ (k p u : Nat), (k ≠ 0 → p ≤ b.bytes_used) → b.unpack_ptr + 4 * k ≤ p →
      u = b.bytes_used → k ≤ (b.bytes_used - b.unpack_ptr) / 4 := by
    intro k p u h1 h2 _
    by_cases hk : k = 0
    · subst hk
      exact Nat.zero_le _
    · have := h1 hk
      rw [Nat.le_div_iff_mul_le (by decide)]
      omega
  have hstr : ∀ (k i : Nat) (d : Nat → c_string),
      (unpack_string_loop malloc k i b d).1 = PMIX_SUCCESS →
        k ≤ (b.bytes_used - b.unpack_ptr) / 4 := by
    intro k i d h
    obtain ⟨e1, e2, e3⟩ := unpack_string_loop_needs malloc k i b d hsize h
    exact key k _ _ e3 e2 e1
  have hargv : ∀ (k : Nat) (argv : List c_string),
      (unpack_argv_loop malloc k b argv).1 = PMIX_SUCCESS →
        k ≤ (b.bytes_used - b.unpack_ptr) / 4 := by
    intro k argv h
    obtain ⟨e1, e2, e3⟩ := unpack_argv_loop_needs malloc k b argv hsize h
    exact key k _ _ e3 e2 e1
  have hinfo : ∀ (info_new : Bool) (k : Nat) (list : List (Option pmix_info_t)),
      (unpack_info_list_loop malloc info_new k b list).1 = PMIX_SUCCESS →
        k ≤ (b.bytes_used - b.unpack_ptr) / 4 := by
    intro info_new k list h
    obtain ⟨e1, e2, e3⟩ := unpack_info_list_loop_needs malloc info_new k b list hsize h
    exact key k _ _ e3 e2 e1
  refine ⟨fun k i d => ⟨hstr k i d, ?_⟩, fun d n type h => hstr n.toNat 0 d h,
    fun k argv => ⟨hargv k argv, ?_⟩, fun info_new k list => ⟨hinfo info_new k list, ?_⟩⟩
  · by_cases hk : k ≤ (b.bytes_used - b.unpack_ptr) / 4 + 1
    · rw [Nat.min_eq_left hk]
    · have hk2 : (b.bytes_used - b.unpack_ptr) / 4 + 1 ≤ k := by omega
      obtain ⟨m, rfl⟩ := Nat.exists_eq_add_of_le hk2
      rw [Nat.min_eq_right hk2]
      apply unpack_string_loop_stops
      intro hsucc
      have := hstr _ i d hsucc
      omega
  · by_cases hk : k ≤ (b.bytes_used - b.unpack_ptr) / 4 + 1
    · rw [Nat.min_eq_left hk]
    · have hk2 : (b.bytes_used - b.unpack_ptr) / 4 + 1 ≤ k := by omega
      obtain ⟨m, rfl⟩ := Nat.exists_eq_add_of_le hk2
      rw [Nat.min_eq_right hk2]
      apply unpack_argv_loop_stops
      intro hsucc
      have := hargv _ argv hsucc
      omega
  · by_cases hk : k ≤ (b.bytes_used - b.unpack_ptr) / 4 + 1
    · rw [Nat.min_eq_left hk]
    · have hk2 : (b.bytes_used - b.unpack_ptr) / 4 + 1 ≤ k := by omega
      obtain ⟨m, rfl⟩ := Nat.exists_eq_add_of_le hk2
      rw [Nat.min_eq_right hk2]
      apply unpack_info_list_loop_stops
      intro hsucc
      have := hinfo info_new _ list hsucc
      omega

/-- Witness: the sample of three strings has 17 bytes, so at most 4 iterations can
succeed; asked for 1000 strings, the loop returns what it returns when it is cut at 5
iterations, a failure with the cursor at the end of the buffer. -/
theorem element_loops_bounded_witness :
    unpack_string_loop malloc_always 1000 0 sample_strings (fun _ => none) =
      unpack_string_loop malloc_always 5 0 sample_strings (fun _ => none) ∧
    (unpack_string_loop malloc_always 5 0 sample_strings (fun _ => none)).1 =
      PMIX_ERR_UNPACK_READ_PAST_END_OF_BUFFER ∧
    (unpack_string_loop malloc_always 5 0 sample_strings (fun _ => none)).2.1.unpack_ptr =
      17 :=
  ⟨((element_loops_bounded malloc_always sample_strings (by decide)).1 1000 0
      (fun _ => none)).2, by decide, by decide⟩

/-! ## Application descriptors: the argument sequence -/

theorem unpack_info_loop_add (malloc : Nat → Bool) (obj_new : Bool) (m : Nat) :
    ∀ (k i : Nat) (b : pmix_buffer_t) (d : Nat → Option pmix_info_t),
      (unpack_info_loop malloc obj_new k i b d).1 = PMIX_SUCCESS →
      unpack_info_loop malloc obj_new (k + m) i b d =
        unpack_info_loop malloc obj_new m (i + k) (unpack_info_loop malloc obj_new k i b d).2.1
          (unpack_info_loop malloc obj_new k i b d).2.2
  | 0, _, _, _, _ => by simp [unpack_info_loop]
  | k + 1, i, b, d, h => by
    have e : k + 1 + m = (k + m) + 1 := by omega
    have e2 : i + (k + 1) = i + 1 + k := by omega
    rw [e, e2]
    rw [unpack_info_loop] at h ⊢
    rw [unpack_info_loop]
    by_cases hf : (unpack_info_element malloc obj_new b).1 ≠ PMIX_SUCCESS
    · simp only [if_pos hf] at h
      exact absurd h hf
    · simp only [if_neg hf] at h ⊢
      exact unpack_info_loop_add malloc obj_new m k _ _ _ h

theorem unpack_info_fails_at (malloc : Nat → Bool) (obj_new : Bool) (buffer : pmix_buffer_t)
    (dest : Nat → Option pmix_info_t) (n : Int) (type : pmix_data_type_t) (m : Nat)
    (b : pmix_buffer_t) (d : Nat → Option pmix_info_t) (hm : (m : Int) < n)
    (hpre : unpack_info_loop malloc obj_new m 0 buffer dest = (PMIX_SUCCESS, b, d))
    (hf : (unpack_info_element malloc obj_new b).1 ≠ PMIX_SUCCESS) :
    pmix_bfrop_unpack_info malloc obj_new buffer dest n type =
      ⟨(unpack_info_element malloc obj_new b).1, (unpack_info_element malloc obj_new b).2.1,
        Function.update d m (unpack_info_element malloc obj_new b).2.2, n⟩ := by
  have hlt : m < n.toNat := by omega
  obtain ⟨k, hk⟩ := Nat.exists_eq_add_of_lt hlt
  have hk2 : n.toNat = m + (k + 1) := by omega
  have hadd := unpack_info_loop_add malloc obj_new (k + 1) m 0 buffer dest (by rw [hpre])
  unfold pmix_bfrop_unpack_info
  simp only [hk2, hadd, hpre, Nat.zero_add]
  rw [unpack_info_loop]
  simp only [if_pos hf]

theorem unpack_value_loop_add {δ : Type}
    (reg : pmix_data_type_t → Option (pmix_bfrop_type_info_t δ))
    (cells : pmix_value_cells δ) (malloc : Nat → Bool) (m : Nat) :
    ∀ (k i : Nat) (b : pmix_buffer_t) (d : Nat → Option (pmix_value_t δ)),
      (unpack_value_loop reg cells malloc k i b d).1 = PMIX_SUCCESS →
      unpack_value_loop reg cells malloc (k + m) i b d =
        unpack_value_loop reg cells malloc m (i + k) (unpack_value_loop reg cells malloc k i b d).2.1
          (unpack_value_loop reg cells malloc k i b d).2.2
  | 0, _, _, _, _ => by simp [unpack_value_loop]
  | k + 1, i, b, d, h => by
    have e : k + 1 + m = (k + m) + 1 := by omega
    have e2 : i + (k + 1) = i + 1 + k := by omega
    rw [e, e2]
    rw [unpack_value_loop] at h ⊢
    rw [unpack_value_loop]
    by_cases hf : (unpack_value_element reg cells malloc b).1 ≠ PMIX_SUCCESS
    · simp only [if_pos hf] at h
      exact absurd h hf
    · simp only [if_neg hf] at h ⊢
      exact unpack_value_loop_add reg cells malloc m k _ _ _ h

theorem unpack_value_fails_at {δ : Type}
    (reg : pmix_data_type_t → Option (pmix_bfrop_type_info_t δ))
    (cells : pmix_value_cells δ) (malloc : Nat → Bool) (buffer : pmix_buffer_t)
    (dest : Nat → Option (pmix_value_t δ)) (n : Int) (type : pmix_data_type_t) (m : Nat)
    (b : pmix_buffer_t) (d : Nat → Option (pmix_value_t δ)) (hm : (m : Int) < n)
    (hpre : unpack_value_loop reg cells malloc m 0 buffer dest = (PMIX_SUCCESS, b, d))
    (hf : (unpack_value_element reg cells malloc b).1 ≠ PMIX_SUCCESS) :
    pmix_bfrop_unpack_value reg cells malloc buffer dest n type =
      ⟨(unpack_value_element reg cells malloc b).1, (unpack_value_element reg cells malloc b).2.1,
        Function.update d m (unpack_value_element reg cells malloc b).2.2, n⟩ := by
  have hlt : m < n.toNat := by omega
  obtain ⟨k, hk⟩ := Nat.exists_eq_add_of_lt hlt
  have hk2 : n.toNat = m + (k + 1) := by omega
  have hadd := unpack_value_loop_add reg cells malloc (k + 1) m 0 buffer dest (by rw [hpre])
  unfold pmix_bfrop_unpack_value
  simp only [hk2, hadd, hpre, Nat.zero_add]
  rw [unpack_value_loop]
  simp only [if_pos hf]

theorem unpack_apps_loop_add {δ : Type}
    (reg : pmix_data_type_t → Option (pmix_bfrop_type_info_t δ))
    (B : pmix_data_type_t)
    (slow : pmix_data_type_t → pmix_buffer_t → δ → Int → Outcome pmix_buffer_t δ Int)
    (cells : pmix_app_cells δ) (malloc : Nat → Bool) (m : Nat) :
    ∀ (k i : Nat) (b : pmix_buffer_t) (d : Nat → Option pmix_app_t),
      (unpack_apps_loop reg B slow cells malloc k i b d).1 = PMIX_SUCCESS →
      unpack_apps_loop reg B slow cells malloc (k + m) i b d =
        unpack_apps_loop reg B slow cells malloc m (i + k) (unpack_apps_loop reg B slow cells malloc k i b d).2.1
          (unpack_apps_loop reg B slow cells malloc k i b d).2.2
  | 0, _, _, _, _ => by simp [unpack_apps_loop]
  | k + 1, i, b, d, h => by
    have e : k + 1 + m = (k + m) + 1 := by omega
    have e2 : i + (k + 1) = i + 1 + k := by omega
    rw [e, e2]
    rw [unpack_apps_loop] at h ⊢
    rw [unpack_apps_loop]
    by_cases hf : (unpack_apps_element reg B slow cells malloc b).1 ≠ PMIX_SUCCESS
    · simp only [if_pos hf] at h
      exact absurd h hf
    · simp only [if_neg hf] at h ⊢
      exact unpack_apps_loop_add reg B slow cells malloc m k _ _ _ h

theorem unpack_apps_fails_at {δ : Type}
    (reg : pmix_data_type_t → Option (pmix_bfrop_type_info_t δ))
    (B : pmix_data_type_t)
    (slow : pmix_data_type_t → pmix_buffer_t → δ → Int → Outcome pmix_buffer_t δ Int)
    (cells : pmix_app_cells δ) (malloc : Nat → Bool) (buffer : pmix_buffer_t)
    (dest : Nat → Option pmix_app_t) (n : Int) (type : pmix_data_type_t) (m : Nat)
    (b : pmix_buffer_t) (d : Nat → Option pmix_app_t) (hm : (m : Int) < n)
    (hpre : unpack_apps_loop reg B slow cells malloc m 0 buffer dest = (PMIX_SUCCESS, b, d))
    (hf : (unpack_apps_element reg B slow cells malloc b).1 ≠ PMIX_SUCCESS) :
    pmix_bfrop_unpack_apps reg B slow cells malloc buffer dest n type =
      ⟨(unpack_apps_element reg B slow cells malloc b).1, (unpack_apps_element reg B slow cells malloc b).2.1,
        Function.update d m (unpack_apps_element reg B slow cells malloc b).2.2, n⟩ := by
  have hlt : m < n.toNat := by omega
  obtain ⟨k, hk⟩ := Nat.exists_eq_add_of_lt hlt
  have hk2 : n.toNat = m + (k + 1) := by omega
  have hadd := unpack_apps_loop_add reg B slow cells malloc (k + 1) m 0 buffer dest (by rw [hpre])
  unfold pmix_bfrop_unpack_apps
  simp only [hk2, hadd, hpre, Nat.zero_add]
  rw [unpack_apps_loop]
  simp only [if_pos hf]

theorem unpack_byte_object_loop_add (malloc : Nat → Bool) (m : Nat) :
    ∀ (k i : Nat) (b : pmix_buffer_t) (d : Nat → Option pmix_byte_object_t),
      (unpack_byte_object_loop malloc k i b d).1 = PMIX_SUCCESS →
      unpack_byte_object_loop malloc (k + m) i b d =
        unpack_byte_object_loop malloc m (i + k) (unpack_byte_object_loop malloc k i b d).2.1
          (unpack_byte_object_loop malloc k i b d).2.2
  | 0, _, _, _, _ => by simp [unpack_byte_object_loop]
  | k + 1, i, b, d, h => by
    have e : k + 1 + m = (k + m) + 1 := by omega
    have e2 : i + (k + 1) = i + 1 + k := by omega
    rw [e, e2]
    rw [unpack_byte_object_loop] at h ⊢
    rw [unpack_byte_object_loop]
    simp only [] at h ⊢
    split_ifs at h ⊢
    all_goals first
      | exact unpack_byte_object_loop_add malloc m k _ _ _ h
      | exact absurd h (by assumption)

theorem unpack_byte_object_continues (malloc : Nat → Bool) (buffer : pmix_buffer_t)
    (dest : Nat → Option pmix_byte_object_t) (n : Int) (type : pmix_data_type_t) (m : Nat)
    (b : pmix_buffer_t) (d : Nat → Option pmix_byte_object_t) (hm : (m : Int) < n)
    (hpre : unpack_byte_object_loop malloc m 0 buffer dest = (PMIX_SUCCESS, b, d)) :
    ∃ k, pmix_bfrop_unpack_byte_object malloc buffer dest n type =
      ⟨(unpack_byte_object_loop malloc (k + 1) m b d).1,
        (unpack_byte_object_loop malloc (k + 1) m b d).2.1,
        (unpack_byte_object_loop malloc (k + 1) m b d).2.2, n⟩ := by
  have hlt : m < n.toNat := by omega
  obtain ⟨k, hk⟩ := Nat.exists_eq_add_of_lt hlt
  have hk2 : n.toNat = m + (k + 1) := by omega
  have hadd := unpack_byte_object_loop_add malloc (k + 1) m 0 buffer dest (by rw [hpre])
  refine ⟨k, ?_⟩
  unfold pmix_bfrop_unpack_byte_object
  simp only [hk2, hadd, hpre, Nat.zero_add]


theorem unpack_info_element_chain (malloc : Nat → Bool) (b : pmix_buffer_t)
    (ks vs : Outcome pmix_buffer_t (Nat → c_string) Int)
    (hks : ks = pmix_bfrop_unpack_string malloc b (fun _ => none) 1 PMIX_STRING)
    (hvs : vs = pmix_bfrop_unpack_string malloc ks.buffer (fun _ => none) 1 PMIX_STRING) :
    unpack_info_element malloc true b =
      if ks.rc ≠ PMIX_SUCCESS then (ks.rc, ks.buffer, some ⟨ks.dest 0, none⟩)
      else (vs.rc, vs.buffer, some ⟨ks.dest 0, vs.dest 0⟩) := by
  subst hks hvs
  simp [unpack_info_element]

theorem unpack_value_arm_chain {δ : Type}
    (reg : pmix_data_type_t → Option (pmix_bfrop_type_info_t δ))
    (cells : pmix_value_cells δ) (malloc : Nat → Bool) (b : pmix_buffer_t)
    (r : Outcome pmix_buffer_t (Nat → Nat) Int)
    (c : Outcome pmix_buffer_t (Nat → uint8_t) Int)
    (s : Outcome pmix_buffer_t δ Int)
    (hr : r = pmix_bfrop_unpack_int32 b (fun _ => 0) 1 PMIX_INT32)
    (hc : c = pmix_bfrop_unpack_byte r.buffer
      (region_dest (malloc_region (to_size_t (to_int32 (r.dest 0))))) (to_int32 (r.dest 0))
      PMIX_BYTE)
    (hs : s = pmix_bfrop_unpack_buffer reg b cells.cell 1 PMIX_INT32) :
    (∀ member ty,
      ((unpack_value_arm reg cells malloc b (.scalar member ty)).1,
        (unpack_value_arm reg cells malloc b (.scalar member ty)).2.1) =
        ((pmix_bfrop_unpack_buffer reg b cells.cell 1 ty).rc,
          (pmix_bfrop_unpack_buffer reg b cells.cell 1 ty).buffer)) ∧
    ((unpack_value_arm reg cells malloc b .byte_object).1,
        (unpack_value_arm reg cells malloc b .byte_object).2.1) =
      (if r.rc ≠ PMIX_SUCCESS then (r.rc, r.buffer)
       else if 0 < to_int32 (r.dest 0) then
         if malloc (to_size_t (to_int32 (r.dest 0))) = false then
           (PMIX_ERR_OUT_OF_RESOURCE, r.buffer)
         else (c.rc, c.buffer)
       else (PMIX_SUCCESS, r.buffer)) ∧
    (∀ member ty (v : Outcome pmix_buffer_t δ Int),
      v = pmix_bfrop_unpack_buffer reg s.buffer cells.cell (cells.load_int32 s.dest) ty →
      ((unpack_value_arm reg cells malloc b (.array member ty)).1,
        (unpack_value_arm reg cells malloc b (.array member ty)).2.1) =
      (if s.rc ≠ PMIX_SUCCESS then (s.rc, s.buffer) else (v.rc, v.buffer))) := by
  subst hr hc hs
  refine ⟨fun member ty => rfl, ?_, fun member ty v hv => ?_⟩
  · simp only [unpack_value_arm]
    split_ifs
    all_goals first
      | rfl
      | (rename_i h
         rw [not_not.mp h])
  · subst hv
    simp only [unpack_value_arm]
    split_ifs <;> rfl

theorem unpack_value_element_chain {δ : Type}
    (reg : pmix_data_type_t → Option (pmix_bfrop_type_info_t δ))
    (cells : pmix_value_cells δ) (malloc : Nat → Bool) (b : pmix_buffer_t)
    (hnew : cells.obj_new = true)
    (ks : Outcome pmix_buffer_t (Nat → c_string) Int) (ts : Outcome pmix_buffer_t δ Int)
    (hks : ks = pmix_bfrop_unpack_string malloc b (fun _ => none) 1 PMIX_STRING)
    (hts : ts = pmix_bfrop_unpack_data_type reg ks.buffer cells.cell 1 PMIX_DATA_TYPE) :
    ((unpack_value_element reg cells malloc b).1,
      (unpack_value_element reg cells malloc b).2.1) =
      if ks.rc ≠ PMIX_SUCCESS then (ks.rc, ks.buffer)
      else if ts.rc ≠ PMIX_SUCCESS then (ts.rc, ts.buffer)
      else match pmix_value_switch (cells.load_type ts.dest) with
        | none => (PMIX_ERROR, ts.buffer)
        | some arm => ((unpack_value_arm reg cells malloc ts.buffer arm).1,
            (unpack_value_arm reg cells malloc ts.buffer arm).2.1) := by
  subst hks hts
  have hn : ¬ cells.obj_new = false := by rw [hnew]; decide
  unfold unpack_value_element
  rw [if_neg hn]
  simp only []
  split_ifs
  · rfl
  · rfl
  · cases pmix_value_switch (cells.load_type (pmix_bfrop_unpack_data_type reg
      (pmix_bfrop_unpack_string malloc b (fun _ => none) 1 PMIX_STRING).buffer cells.cell 1
      PMIX_DATA_TYPE).dest) <;> rfl

theorem unpack_apps_element_chain {δ : Type}
    (reg : pmix_data_type_t → Option (pmix_bfrop_type_info_t δ))
    (B : pmix_data_type_t)
    (slow : pmix_data_type_t → pmix_buffer_t → δ → Int → Outcome pmix_buffer_t δ Int)
    (cells : pmix_app_cells δ) (malloc : Nat → Bool) (b : pmix_buffer_t)
    (hnew : cells.obj_new = true)
    (cs : Outcome pmix_buffer_t (Nat → c_string) Int)
    (ac ec mp ic : Outcome pmix_buffer_t δ Int)
    (av ev : pmix_status_t × pmix_buffer_t × List c_string)
    (il : pmix_status_t × pmix_buffer_t × List (Option pmix_info_t))
    (hcs : cs = pmix_bfrop_unpack_string malloc b (fun _ => none) 1 PMIX_STRING)
    (hac : ac = pmix_bfrop_unpack_int reg B slow cs.buffer cells.cell 1 PMIX_INT)
    (hav : av = unpack_argv_loop malloc (cells.load_int ac.dest).toNat ac.buffer [])
    (hec : ec = pmix_bfrop_unpack_int reg B slow av.2.1 cells.cell 1 PMIX_INT)
    (hev : ev = unpack_argv_loop malloc (cells.load_int ec.dest).toNat ec.buffer av.2.2)
    (hmp : mp = pmix_bfrop_unpack_int reg B slow ev.2.1 cells.cell 1 PMIX_INT)
    (hic : ic = pmix_bfrop_unpack_int reg B slow mp.buffer ec.dest 1 PMIX_INT)
    (hil : il = unpack_info_list_loop malloc cells.info_new (cells.load_int ic.dest).toNat
      ic.buffer []) :
    ((unpack_apps_element reg B slow cells malloc b).1,
      (unpack_apps_element reg B slow cells malloc b).2.1) =
      if cs.rc ≠ PMIX_SUCCESS then (cs.rc, cs.buffer)
      else if ac.rc ≠ PMIX_SUCCESS then (ac.rc, ac.buffer)
      else if av.1 ≠ PMIX_SUCCESS then (av.1, av.2.1)
      else if ec.rc ≠ PMIX_SUCCESS then (ec.rc, ec.buffer)
      else if ev.1 ≠ PMIX_SUCCESS then (ev.1, ev.2.1)
      else if mp.rc ≠ PMIX_SUCCESS then (mp.rc, mp.buffer)
      else if ic.rc ≠ PMIX_SUCCESS then (ic.rc, ic.buffer)
      else (il.1, il.2.1) := by
  have hn : ¬ cells.obj_new = false := by rw [hnew]; decide
  unfold unpack_apps_element
  rw [if_neg hn]
  simp only []
  rw [← hcs, ← hac, ← hav, ← hec, ← hev, ← hmp, ← hic, ← hil]
  split_ifs <;> rfl


theorem unpack_argv_loop_add (malloc : Nat → Bool) (m : Nat) :
    ∀ (k : Nat) (b : pmix_buffer_t) (argv : List c_string),
      (unpack_argv_loop malloc k b argv).1 = PMIX_SUCCESS →
      unpack_argv_loop malloc (k + m) b argv =
        unpack_argv_loop malloc m (unpack_argv_loop malloc k b argv).2.1
          (unpack_argv_loop malloc k b argv).2.2
  | 0, _, _, _ => by simp [unpack_argv_loop]
  | k + 1, b, argv, h => by
    have e : k + 1 + m = (k + m) + 1 := by omega
    rw [e]
    rw [unpack_argv_loop] at h ⊢
    rw [unpack_argv_loop]
    by_cases hf : (pmix_bfrop_unpack_string malloc b (fun _ => none) 1 PMIX_STRING).rc ≠
        PMIX_SUCCESS
    · simp only [if_pos hf] at h
      exact absurd h hf
    · simp only [if_neg hf] at h ⊢
      exact unpack_argv_loop_add malloc m k _ _ h

theorem unpack_info_list_loop_add (malloc : Nat → Bool) (info_new : Bool) (m : Nat) :
    ∀ (k : Nat) (b : pmix_buffer_t) (list : List (Option pmix_info_t)),
      (unpack_info_list_loop malloc info_new k b list).1 = PMIX_SUCCESS →
      unpack_info_list_loop malloc info_new (k + m) b list =
        unpack_info_list_loop malloc info_new m
          (unpack_info_list_loop malloc info_new k b list).2.1
          (unpack_info_list_loop malloc info_new k b list).2.2
  | 0, _, _, _ => by simp [unpack_info_list_loop]
  | k + 1, b, list, h => by
    have e : k + 1 + m = (k + m) + 1 := by omega
    rw [e]
    rw [unpack_info_list_loop] at h ⊢
    rw [unpack_info_list_loop]
    by_cases hf : (pmix_bfrop_unpack_info malloc info_new b (fun _ => none) 1 PMIX_INFO).rc ≠
        PMIX_SUCCESS
    · simp only [if_pos hf] at h
      exact absurd h hf
    · simp only [if_neg hf] at h ⊢
      exact unpack_info_list_loop_add malloc info_new m k _ _ h

theorem unpack_argv_loop_fails_at (malloc : Nat → Bool) (j k : Nat)
    (b0 b1 : pmix_buffer_t) (argv argv1 : List c_string)
    (hpre : unpack_argv_loop malloc j b0 argv = (PMIX_SUCCESS, b1, argv1))
    (hf : (pmix_bfrop_unpack_string malloc b1 (fun _ => none) 1 PMIX_STRING).rc ≠
      PMIX_SUCCESS) :
    unpack_argv_loop malloc (j + (k + 1)) b0 argv =
      ((pmix_bfrop_unpack_string malloc b1 (fun _ => none) 1 PMIX_STRING).rc,
        (pmix_bfrop_unpack_string malloc b1 (fun _ => none) 1 PMIX_STRING).buffer, argv1) := by
  rw [unpack_argv_loop_add malloc (k + 1) j b0 argv (by rw [hpre]), hpre]
  simp only []
  rw [unpack_argv_loop]
  simp only [if_pos hf]

theorem unpack_info_list_loop_fails_at (malloc : Nat → Bool) (info_new : Bool) (j k : Nat)
    (b0 b1 : pmix_buffer_t) (list list1 : List (Option pmix_info_t))
    (hpre : unpack_info_list_loop malloc info_new j b0 list = (PMIX_SUCCESS, b1, list1))
    (hf : (pmix_bfrop_unpack_info malloc info_new b1 (fun _ => none) 1 PMIX_INFO).rc ≠
      PMIX_SUCCESS) :
    unpack_info_list_loop malloc info_new (j + (k + 1)) b0 list =
      ((pmix_bfrop_unpack_info malloc info_new b1 (fun _ => none) 1 PMIX_INFO).rc,
        (pmix_bfrop_unpack_info malloc info_new b1 (fun _ => none) 1 PMIX_INFO).buffer,
        list1) := by
  rw [unpack_info_list_loop_add malloc info_new (k + 1) j b0 list (by rw [hpre]), hpre]
  simp only []
  rw [unpack_info_list_loop]
  simp only [if_pos hf]

theorem unpack_byte_object_loop_sites (malloc : Nat → Bool) (k i : Nat) (b : pmix_buffer_t)
    (d : Nat → Option pmix_byte_object_t)
    (r : Outcome pmix_buffer_t (Nat → Nat) Int)
    (c : Outcome pmix_buffer_t (Nat → uint8_t) Int)
    (hm : malloc sizeof_pmix_byte_object_t = true)
    (hr : r = pmix_bfrop_unpack_int32 b (fun _ => 0) 1 PMIX_INT32)
    (hc : c = pmix_bfrop_unpack_byte r.buffer
      (region_dest (malloc_region (to_size_t (to_int32 (r.dest 0))))) (to_int32 (r.dest 0))
      PMIX_BYTE) :
    (r.rc ≠ PMIX_SUCCESS →
      (unpack_byte_object_loop malloc (k + 1) i b d).1 = r.rc ∧
      (unpack_byte_object_loop malloc (k + 1) i b d).2.1 = r.buffer) ∧
    (r.rc = PMIX_SUCCESS → 0 < to_int32 (r.dest 0) →
      malloc (to_size_t (to_int32 (r.dest 0))) = true → c.rc ≠ PMIX_SUCCESS →
      (unpack_byte_object_loop malloc (k + 1) i b d).1 = c.rc ∧
      (unpack_byte_object_loop malloc (k + 1) i b d).2.1 = c.buffer) := by
  subst hr hc
  have hm2 : ¬ malloc sizeof_pmix_byte_object_t = false := by rw [hm]; decide
  refine ⟨fun h1 => ?_, fun h1 h2 h3 h4 => ?_⟩
  · rw [unpack_byte_object_loop]
    simp only [if_neg hm2, if_pos h1, and_self]
  · have h1' : ¬ (pmix_bfrop_unpack_int32 b (fun _ => 0) 1 PMIX_INT32).rc ≠ PMIX_SUCCESS :=
      not_not.mpr h1
    have h3' : ¬ malloc (to_size_t (to_int32
        ((pmix_bfrop_unpack_int32 b (fun _ => 0) 1 PMIX_INT32).dest 0))) = false := by
      rw [h3]; decide
    rw [unpack_byte_object_loop]
    simp only [if_neg hm2, if_neg h1', if_pos h2, if_neg h3', if_pos h4, and_self]


/-- C25: let a composite decoder be called with count `n`, let its first `m < n`
elements decode, leaving the buffer `b`, and let a sub-decode of the next element
return a status other than success, every sub-decode before it in that element having
succeeded. Then the composite decoder returns exactly that status and the buffer as
the failing sub-decode left it. This holds for the info decoder (key, value; after a
failed key decode the value string is not decoded and stays NULL), the byte object
decoder (size, payload), the value decoder (key, type tag, and the sub-decodes of the
arm the tag selects: the payload of a scalar arm, the size and the payload of the byte
object arm, the count and the elements of an array arm) and the application decoder
(command, argument count, each argument, environment count, each environment string,
process count, info count, each info record). -/
theorem composite_failure_propagation (malloc : Nat → Bool) (buffer : pmix_buffer_t)
    (n : Int) (type : pmix_data_type_t) (m : Nat) (b : pmix_buffer_t)
    (hm : (m : Int) < n) :
    (∀ (dest d : Nat → Option pmix_info_t)
      (ks vs : Outcome pmix_buffer_t (Nat → c_string) Int),
      unpack_info_loop malloc true m 0 buffer dest = (PMIX_SUCCESS, b, d) →
      ks = pmix_bfrop_unpack_string malloc b (fun _ => none) 1 PMIX_STRING →
      vs = pmix_bfrop_unpack_string malloc ks.buffer (fun _ => none) 1 PMIX_STRING →
      (ks.rc ≠ PMIX_SUCCESS →
        pmix_bfrop_unpack_info malloc true buffer dest n type =
          ⟨ks.rc, ks.buffer, Function.update d m (some ⟨ks.dest 0, none⟩), n⟩) ∧
      (ks.rc = PMIX_SUCCESS → vs.rc ≠ PMIX_SUCCESS →
        (pmix_bfrop_unpack_info malloc true buffer dest n type).rc = vs.rc ∧
        (pmix_bfrop_unpack_info malloc true buffer dest n type).buffer = vs.buffer)) ∧
    (∀ (dest d : Nat → Option pmix_byte_object_t)
      (r : Outcome pmix_buffer_t (Nat → Nat) Int)
      (c : Outcome pmix_buffer_t (Nat → uint8_t) Int),
      malloc sizeof_pmix_byte_object_t = true →
      unpack_byte_object_loop malloc m 0 buffer dest = (PMIX_SUCCESS, b, d) →
      r = pmix_bfrop_unpack_int32 b (fun _ => 0) 1 PMIX_INT32 →
      c = pmix_bfrop_unpack_byte r.buffer
        (region_dest (malloc_region (to_size_t (to_int32 (r.dest 0)))))
        (to_int32 (r.dest 0)) PMIX_BYTE →
      (r.rc ≠ PMIX_SUCCESS →
        (pmix_bfrop_unpack_byte_object malloc buffer dest n type).rc = r.rc ∧
        (pmix_bfrop_unpack_byte_object malloc buffer dest n type).buffer = r.buffer) ∧
      (r.rc = PMIX_SUCCESS → 0 < to_int32 (r.dest 0) →
        malloc (to_size_t (to_int32 (r.dest 0))) = true → c.rc ≠ PMIX_SUCCESS →
        (pmix_bfrop_unpack_byte_object malloc buffer dest n type).rc = c.rc ∧
        (pmix_bfrop_unpack_byte_object malloc buffer dest n type).buffer = c.buffer)) ∧
    (∀ (δ : Type) (reg : pmix_data_type_t → Option (pmix_bfrop_type_info_t δ))
      (cells : pmix_value_cells δ) (dest d : Nat → Option (pmix_value_t δ))
      (ks : Outcome pmix_buffer_t (Nat → c_string) Int) (ts : Outcome pmix_buffer_t δ Int),
      cells.obj_new = true →
      unpack_value_loop reg cells malloc m 0 buffer dest = (PMIX_SUCCESS, b, d) →
      ks = pmix_bfrop_unpack_string malloc b (fun _ => none) 1 PMIX_STRING →
      ts = pmix_bfrop_unpack_data_type reg ks.buffer cells.cell 1 PMIX_DATA_TYPE →
      (ks.rc ≠ PMIX_SUCCESS →
        (pmix_bfrop_unpack_value reg cells malloc buffer dest n type).rc = ks.rc ∧
        (pmix_bfrop_unpack_value reg cells malloc buffer dest n type).buffer = ks.buffer) ∧
      (ks.rc = PMIX_SUCCESS → ts.rc ≠ PMIX_SUCCESS →
        (pmix_bfrop_unpack_value reg cells malloc buffer dest n type).rc = ts.rc ∧
        (pmix_bfrop_unpack_value reg cells malloc buffer dest n type).buffer = ts.buffer) ∧
      (ks.rc = PMIX_SUCCESS → ts.rc = PMIX_SUCCESS →
        ∀ arm, pmix_value_switch (cells.load_type ts.dest) = some arm →
        (unpack_value_arm reg cells malloc ts.buffer arm).1 ≠ PMIX_SUCCESS →
        (pmix_bfrop_unpack_value reg cells malloc buffer dest n type).rc =
          (unpack_value_arm reg cells malloc ts.buffer arm).1 ∧
        (pmix_bfrop_unpack_value reg cells malloc buffer dest n type).buffer =
          (unpack_value_arm reg cells malloc ts.buffer arm).2.1) ∧
      (∀ member ty,
        (unpack_value_arm reg cells malloc ts.buffer (.scalar member ty)).1 =
          (pmix_bfrop_unpack_buffer reg ts.buffer cells.cell 1 ty).rc ∧
        (unpack_value_arm reg cells malloc ts.buffer (.scalar member ty)).2.1 =
          (pmix_bfrop_unpack_buffer reg ts.buffer cells.cell 1 ty).buffer) ∧
      (∀ (r : Outcome pmix_buffer_t (Nat → Nat) Int)
        (c : Outcome pmix_buffer_t (Nat → uint8_t) Int),
        r = pmix_bfrop_unpack_int32 ts.buffer (fun _ => 0) 1 PMIX_INT32 →
        c = pmix_bfrop_unpack_byte r.buffer
          (region_dest (malloc_region (to_size_t (to_int32 (r.dest 0)))))
          (to_int32 (r.dest 0)) PMIX_BYTE →
        (r.rc ≠ PMIX_SUCCESS →
          (unpack_value_arm reg cells malloc ts.buffer .byte_object).1 = r.rc ∧
          (unpack_value_arm reg cells malloc ts.buffer .byte_object).2.1 = r.buffer) ∧
        (r.rc = PMIX_SUCCESS → 0 < to_int32 (r.dest 0) →
          malloc (to_size_t (to_int32 (r.dest 0))) = true → c.rc ≠ PMIX_SUCCESS →
          (unpack_value_arm reg cells malloc ts.buffer .byte_object).1 = c.rc ∧
          (unpack_value_arm reg cells malloc ts.buffer .byte_object).2.1 = c.buffer)) ∧
      (∀ member ty (s v : Outcome pmix_buffer_t δ Int),
        s = pmix_bfrop_unpack_buffer reg ts.buffer cells.cell 1 PMIX_INT32 →
        v = pmix_bfrop_unpack_buffer reg s.buffer cells.cell (cells.load_int32 s.dest) ty →
        (s.rc ≠ PMIX_SUCCESS →
          (unpack_value_arm reg cells malloc ts.buffer (.array member ty)).1 = s.rc ∧
          (unpack_value_arm reg cells malloc ts.buffer (.array member ty)).2.1 = s.buffer) ∧
        (s.rc = PMIX_SUCCESS →
          (unpack_value_arm reg cells malloc ts.buffer (.array member ty)).1 = v.rc ∧
          (unpack_value_arm reg cells malloc ts.buffer (.array member ty)).2.1 =
            v.buffer))) ∧
    (∀ (δ : Type) (reg : pmix_data_type_t → Option (pmix_bfrop_type_info_t δ))
      (B : pmix_data_type_t)
      (slow : pmix_data_type_t → pmix_buffer_t → δ → Int → Outcome pmix_buffer_t δ Int)
      (cells : pmix_app_cells δ) (dest d : Nat → Option pmix_app_t)
      (cs : Outcome pmix_buffer_t (Nat → c_string) Int)
      (ac ec mp ic : Outcome pmix_buffer_t δ Int)
      (av ev : pmix_status_t × pmix_buffer_t × List c_string)
      (il : pmix_status_t × pmix_buffer_t × List (Option pmix_info_t)),
      cells.obj_new = true →
      unpack_apps_loop reg B slow cells malloc m 0 buffer dest = (PMIX_SUCCESS, b, d) →
      cs = pmix_bfrop_unpack_string malloc b (fun _ => none) 1 PMIX_STRING →
      ac = pmix_bfrop_unpack_int reg B slow cs.buffer cells.cell 1 PMIX_INT →
      av = unpack_argv_loop malloc (cells.load_int ac.dest).toNat ac.buffer [] →
      ec = pmix_bfrop_unpack_int reg B slow av.2.1 cells.cell 1 PMIX_INT →
      ev = unpack_argv_loop malloc (cells.load_int ec.dest).toNat ec.buffer av.2.2 →
      mp = pmix_bfrop_unpack_int reg B slow ev.2.1 cells.cell 1 PMIX_INT →
      ic = pmix_bfrop_unpack_int reg B slow mp.buffer ec.dest 1 PMIX_INT →
      il = unpack_info_list_loop malloc cells.info_new (cells.load_int ic.dest).toNat
        ic.buffer [] →
      (cs.rc ≠ PMIX_SUCCESS →
        (pmix_bfrop_unpack_apps reg B slow cells malloc buffer dest n type).rc = cs.rc ∧
        (pmix_bfrop_unpack_apps reg B slow cells malloc buffer dest n type).buffer =
          cs.buffer) ∧
      (cs.rc = PMIX_SUCCESS → ac.rc ≠ PMIX_SUCCESS →
        (pmix_bfrop_unpack_apps reg B slow cells malloc buffer dest n type).rc = ac.rc ∧
        (pmix_bfrop_unpack_apps reg B slow cells malloc buffer dest n type).buffer =
          ac.buffer) ∧
      (cs.rc = PMIX_SUCCESS → ac.rc = PMIX_SUCCESS → av.1 ≠ PMIX_SUCCESS →
        (pmix_bfrop_unpack_apps reg B slow cells malloc buffer dest n type).rc = av.1 ∧
        (pmix_bfrop_unpack_apps reg B slow cells malloc buffer dest n type).buffer =
          av.2.1) ∧
      (cs.rc = PMIX_SUCCESS → ac.rc = PMIX_SUCCESS → av.1 = PMIX_SUCCESS →
        ec.rc ≠ PMIX_SUCCESS →
        (pmix_bfrop_unpack_apps reg B slow cells malloc buffer dest n type).rc = ec.rc ∧
        (pmix_bfrop_unpack_apps reg B slow cells malloc buffer dest n type).buffer =
          ec.buffer) ∧
      (cs.rc = PMIX_SUCCESS → ac.rc = PMIX_SUCCESS → av.1 = PMIX_SUCCESS →
        ec.rc = PMIX_SUCCESS → ev.1 ≠ PMIX_SUCCESS →
        (pmix_bfrop_unpack_apps reg B slow cells malloc buffer dest n type).rc = ev.1 ∧
        (pmix_bfrop_unpack_apps reg B slow cells malloc buffer dest n type).buffer =
          ev.2.1) ∧
      (cs.rc = PMIX_SUCCESS → ac.rc = PMIX_SUCCESS → av.1 = PMIX_SUCCESS →
        ec.rc = PMIX_SUCCESS → ev.1 = PMIX_SUCCESS → mp.rc ≠ PMIX_SUCCESS →
        (pmix_bfrop_unpack_apps reg B slow cells malloc buffer dest n type).rc = mp.rc ∧
        (pmix_bfrop_unpack_apps reg B slow cells malloc buffer dest n type).buffer =
          mp.buffer) ∧
      (cs.rc = PMIX_SUCCESS → ac.rc = PMIX_SUCCESS → av.1 = PMIX_SUCCESS →
        ec.rc = PMIX_SUCCESS → ev.1 = PMIX_SUCCESS → mp.rc = PMIX_SUCCESS →
        ic.rc ≠ PMIX_SUCCESS →
        (pmix_bfrop_unpack_apps reg B slow cells malloc buffer dest n type).rc = ic.rc ∧
        (pmix_bfrop_unpack_apps reg B slow cells malloc buffer dest n type).buffer =
          ic.buffer) ∧
      (cs.rc = PMIX_SUCCESS → ac.rc = PMIX_SUCCESS → av.1 = PMIX_SUCCESS →
        ec.rc = PMIX_SUCCESS → ev.1 = PMIX_SUCCESS → mp.rc = PMIX_SUCCESS →
        ic.rc = PMIX_SUCCESS → il.1 ≠ PMIX_SUCCESS →
        (pmix_bfrop_unpack_apps reg B slow cells malloc buffer dest n type).rc = il.1 ∧
        (pmix_bfrop_unpack_apps reg B slow cells malloc buffer dest n type).buffer =
          il.2.1)) ∧
    (∀ (j k : Nat) (b0 b1 : pmix_buffer_t) (argv argv1 : List c_string)
      (s : Outcome pmix_buffer_t (Nat → c_string) Int),
      unpack_argv_loop malloc j b0 argv = (PMIX_SUCCESS, b1, argv1) →
      s = pmix_bfrop_unpack_string malloc b1 (fun _ => none) 1 PMIX_STRING →
      s.rc ≠ PMIX_SUCCESS →
      unpack_argv_loop malloc (j + (k + 1)) b0 argv = (s.rc, s.buffer, argv1)) ∧
    (∀ (info_new : Bool) (j k : Nat) (b0 b1 : pmix_buffer_t)
      (list list1 : List (Option pmix_info_t))
      (r : Outcome pmix_buffer_t (Nat → Option pmix_info_t) Int),
      unpack_info_list_loop malloc info_new j b0 list = (PMIX_SUCCESS, b1, list1) →
      r = pmix_bfrop_unpack_info malloc info_new b1 (fun _ => none) 1 PMIX_INFO →
      r.rc ≠ PMIX_SUCCESS →
      unpack_info_list_loop malloc info_new (j + (k + 1)) b0 list =
        (r.rc, r.buffer, list1)) := by
  refine ⟨?_, ?_, ?_, ?_, ?_, ?_⟩
  · intro dest d ks vs hpre hks hvs
    have hch := unpack_info_element_chain malloc b ks vs hks hvs
    refine ⟨fun h1 => ?_, fun h1 h2 => ?_⟩
    · rw [if_pos h1] at hch
      rw [unpack_info_fails_at malloc true buffer dest n type m b d hm hpre
        (by rw [hch]; exact h1), hch]
    · rw [if_neg (not_not.mpr h1)] at hch
      rw [unpack_info_fails_at malloc true buffer dest n type m b d hm hpre
        (by rw [hch]; exact h2), hch]
      exact ⟨rfl, rfl⟩
  · intro dest d r c hmal hpre hr hc
    obtain ⟨k, hk⟩ := unpack_byte_object_continues malloc buffer dest n type m b d hm hpre
    rw [hk]
    exact unpack_byte_object_loop_sites malloc k m b d r c hmal hr hc
  · intro δ reg cells dest d ks ts hnew hpre hks hts
    have hch := unpack_value_element_chain reg cells malloc b hnew ks ts hks hts
    obtain ⟨a1, a2, a3⟩ := unpack_value_arm_chain reg cells malloc ts.buffer
      (pmix_bfrop_unpack_int32 ts.buffer (fun _ => 0) 1 PMIX_INT32)
      (pmix_bfrop_unpack_byte (pmix_bfrop_unpack_int32 ts.buffer (fun _ => 0) 1
        PMIX_INT32).buffer
        (region_dest (malloc_region (to_size_t (to_int32
          ((pmix_bfrop_unpack_int32 ts.buffer (fun _ => 0) 1 PMIX_INT32).dest 0)))))
        (to_int32 ((pmix_bfrop_unpack_int32 ts.buffer (fun _ => 0) 1 PMIX_INT32).dest 0))
        PMIX_BYTE)
      (pmix_bfrop_unpack_buffer reg ts.buffer cells.cell 1 PMIX_INT32) rfl rfl rfl
    refine ⟨fun h1 => ?_, fun h1 h2 => ?_, fun h1 h2 arm harm h3 => ?_,
      fun member ty => ?_, fun r c hr hc => ?_, fun member ty s v hs hv => ?_⟩
    · rw [if_pos h1] at hch
      have e := Prod.mk.inj hch
      rw [unpack_value_fails_at reg cells malloc buffer dest n type m b d hm hpre
        (by rw [e.1]; exact h1)]
      exact e
    · rw [if_neg (not_not.mpr h1), if_pos h2] at hch
      have e := Prod.mk.inj hch
      rw [unpack_value_fails_at reg cells malloc buffer dest n type m b d hm hpre
        (by rw [e.1]; exact h2)]
      exact e
    · rw [if_neg (not_not.mpr h1), if_neg (not_not.mpr h2), harm] at hch
      have e := Prod.mk.inj hch
      rw [unpack_value_fails_at reg cells malloc buffer dest n type m b d hm hpre
        (by rw [e.1]; exact h3)]
      exact e
    · exact Prod.mk.inj (a1 member ty)
    · subst hr hc
      refine ⟨fun h1 => ?_, fun h1 h2 h3 h4 => ?_⟩
      · rw [if_pos h1] at a2
        exact Prod.mk.inj a2
      · have h3' : ¬ malloc (to_size_t (to_int32
            ((pmix_bfrop_unpack_int32 ts.buffer (fun _ => 0) 1 PMIX_INT32).dest 0))) =
            false := by rw [h3]; decide
        rw [if_neg (not_not.mpr h1), if_pos h2, if_neg h3'] at a2
        exact Prod.mk.inj a2
    · subst hs
      have a := a3 member ty v hv
      refine ⟨fun h1 => ?_, fun h1 => ?_⟩
      · rw [if_pos h1] at a
        exact Prod.mk.inj a
      · rw [if_neg (not_not.mpr h1)] at a
        exact Prod.mk.inj a
  · intro δ reg B slow cells dest d cs ac ec mp ic av ev il hnew hpre hcs hac hav hec hev
      hmp hic hil
    have hch := unpack_apps_element_chain reg B slow cells malloc b hnew cs ac ec mp ic av ev
      il hcs hac hav hec hev hmp hic hil
    have key : ∀ (rc : pmix_status_t) (bf : pmix_buffer_t),
        ((unpack_apps_element reg B slow cells malloc b).1,
          (unpack_apps_element reg B slow cells malloc b).2.1) = (rc, bf) →
        rc ≠ PMIX_SUCCESS →
        (pmix_bfrop_unpack_apps reg B slow cells malloc buffer dest n type).rc = rc ∧
        (pmix_bfrop_unpack_apps reg B slow cells malloc buffer dest n type).buffer = bf := by
      intro rc bf e hne
      have e2 := Prod.mk.inj e
      rw [unpack_apps_fails_at reg B slow cells malloc buffer dest n type m b d hm hpre
        (by rw [e2.1]; exact hne)]
      exact e2
    refine ⟨fun h1 => ?_, fun h1 h2 => ?_, fun h1 h2 h3 => ?_, fun h1 h2 h3 h4 => ?_,
      fun h1 h2 h3 h4 h5 => ?_, fun h1 h2 h3 h4 h5 h6 => ?_,
      fun h1 h2 h3 h4 h5 h6 h7 => ?_, fun h1 h2 h3 h4 h5 h6 h7 h8 => ?_⟩
    · rw [if_pos h1] at hch
      exact key _ _ hch h1
    · rw [if_neg (not_not.mpr h1), if_pos h2] at hch
      exact key _ _ hch h2
    · rw [if_neg (not_not.mpr h1), if_neg (not_not.mpr h2), if_pos h3] at hch
      exact key _ _ hch h3
    · rw [if_neg (not_not.mpr h1), if_neg (not_not.mpr h2), if_neg (not_not.mpr h3),
        if_pos h4] at hch
      exact key _ _ hch h4
    · rw [if_neg (not_not.mpr h1), if_neg (not_not.mpr h2), if_neg (not_not.mpr h3),
        if_neg (not_not.mpr h4), if_pos h5] at hch
      exact key _ _ hch h5
    · rw [if_neg (not_not.mpr h1), if_neg (not_not.mpr h2), if_neg (not_not.mpr h3),
        if_neg (not_not.mpr h4), if_neg (not_not.mpr h5), if_pos h6] at hch
      exact key _ _ hch h6
    · rw [if_neg (not_not.mpr h1), if_neg (not_not.mpr h2), if_neg (not_not.mpr h3),
        if_neg (not_not.mpr h4), if_neg (not_not.mpr h5), if_neg (not_not.mpr h6),
        if_pos h7] at hch
      exact key _ _ hch h7
    · rw [if_neg (not_not.mpr h1), if_neg (not_not.mpr h2), if_neg (not_not.mpr h3),
        if_neg (not_not.mpr h4), if_neg (not_not.mpr h5), if_neg (not_not.mpr h6),
        if_neg (not_not.mpr h7)] at hch
      exact key _ _ hch h8
  · intro j k b0 b1 argv argv1 s hpre hs hf
    subst hs
    exact unpack_argv_loop_fails_at malloc j k b0 b1 argv argv1 hpre hf
  · intro info_new j k b0 b1 list list1 r hpre hr hf
    subst hr
    exact unpack_info_list_loop_fails_at malloc info_new j k b0 b1 list list1 hpre hf

/-- Witness: the sample info record is cut inside its key, after the length prefix 5.
The key decode returns ReadPastEndOfBuffer with the cursor at 4, and so does the info
decoder; the value of the record stays NULL. -/
theorem composite_failure_propagation_witness :
    pmix_bfrop_unpack_info malloc_always true sample_info_cut (fun _ => none) 1 PMIX_INFO =
      ⟨(pmix_bfrop_unpack_string malloc_always sample_info_cut (fun _ => none) 1
          PMIX_STRING).rc,
        (pmix_bfrop_unpack_string malloc_always sample_info_cut (fun _ => none) 1
          PMIX_STRING).buffer,
        Function.update (fun _ => none) 0 (some
          ⟨(pmix_bfrop_unpack_string malloc_always sample_info_cut (fun _ => none) 1
            PMIX_STRING).dest 0, none⟩), 1⟩ ∧
    (pmix_bfrop_unpack_string malloc_always sample_info_cut (fun _ => none) 1
      PMIX_STRING).rc = PMIX_ERR_UNPACK_READ_PAST_END_OF_BUFFER ∧
    (pmix_bfrop_unpack_string malloc_always sample_info_cut (fun _ => none) 1
      PMIX_STRING).buffer = { sample_info_cut with unpack_ptr := 4 } :=
  ⟨((composite_failure_propagation malloc_always sample_info_cut 1 PMIX_INFO 0
      sample_info_cut (by decide)).1 (fun _ => none) (fun _ => none) _ _ rfl rfl rfl).1
      (by decide), by decide, by decide⟩

/-! ## Float and double: the string handed to the text parser -/

/-- C31, at the failing input: the non-described buffer holds two strings of wire length
0. Called for one element, the float decoder and the double decoder pass the bound
check, decode the first string to the absent marker (NULL) and return success; for every
text parser, the element stored is the parser's result on the absent marker, so the
parser was handed NULL. -/
theorem unpack_float_double_parse_absent_string :
    (∀ (F : Type) (strtof : c_string → F) (dest : Nat → F),
      (pmix_bfrop_unpack_float malloc_always strtof sample_empty_texts dest 1
        PMIX_FLOAT).rc = PMIX_SUCCESS ∧
      (pmix_bfrop_unpack_float malloc_always strtof sample_empty_texts dest 1
        PMIX_FLOAT).dest 0 = strtof none ∧
      (pmix_bfrop_unpack_float malloc_always strtof sample_empty_texts dest 1
        PMIX_FLOAT).buffer = { sample_empty_texts with unpack_ptr := 4 }) ∧
    (∀ (F : Type) (strtod : c_string → F) (dest : Nat → F),
      (pmix_bfrop_unpack_double malloc_always strtod sample_empty_texts dest 1
        PMIX_DOUBLE).rc = PMIX_SUCCESS ∧
      (pmix_bfrop_unpack_double malloc_always strtod sample_empty_texts dest 1
        PMIX_DOUBLE).dest 0 = strtod none ∧
      (pmix_bfrop_unpack_double malloc_always strtod sample_empty_texts dest 1
        PMIX_DOUBLE).buffer = { sample_empty_texts with unpack_ptr := 4 }) := by
  refine ⟨fun F strtof dest => ⟨rfl, rfl, rfl⟩, fun F strtod dest => ⟨rfl, rfl, rfl⟩⟩

/-! ## The string decoder is not atomic on failure -/

theorem unpack_string_loop_cut (malloc : Nat → Bool) (k i : Nat) (b : pmix_buffer_t)
    (d : Nat → c_string) (h4 : 4 ≤ b.bytes_used - b.unpack_ptr)
    (hL : 0 < to_int32 (ntohl (wire_bytes b.base_ptr b.unpack_ptr 4)))
    (hshort : b.bytes_used - (b.unpack_ptr + 4) <
      (to_int32 (ntohl (wire_bytes b.base_ptr b.unpack_ptr 4))).toNat)
    (hmalloc : malloc (to_size_t (to_int32 (ntohl (wire_bytes b.base_ptr b.unpack_ptr 4)))) =
      true) :
    unpack_string_loop malloc (k + 1) i b d =
      (PMIX_ERR_UNPACK_READ_PAST_END_OF_BUFFER, { b with unpack_ptr := b.unpack_ptr + 4 },
        Function.update d i (some (malloc_region
          (to_size_t (to_int32 (ntohl (wire_bytes b.base_ptr b.unpack_ptr 4))))))) := by
  have hr := to_int32_range (ntohl (wire_bytes b.base_ptr b.unpack_ptr 4))
  rw [unpack_string_loop, unpack_int32_one b _ PMIX_INT32 h4]
  simp only [ne_eq, not_true_eq_false, if_false, Nat.lt_one_iff, if_true, Nat.zero_mul,
    Nat.add_zero]
  generalize to_int32 (ntohl (wire_bytes b.base_ptr b.unpack_ptr 4)) = len
    at hr hL hshort hmalloc ⊢
  have h0 : ¬ len = 0 := by omega
  have hm : ¬ malloc (to_size_t len) = false := by rw [hmalloc]; decide
  have hsz := to_size_t_of_nonneg len (le_of_lt hL) hr.2
  rw [if_neg h0, if_neg hm,
    unpack_byte_too_small { b with unpack_ptr := b.unpack_ptr + 4 } _ len PMIX_BYTE
      (by rw [hsz]; exact hshort)]
  simp

/-- C32: let the string decoder be called for `n` strings, let elements 1 .. K-1 decode
(K <= n), leaving the buffer `b`, and let element K have a complete 4-byte length prefix
L > 0 with fewer than L bytes after it (the allocation of L bytes succeeding). Then the
call returns ReadPastEndOfBuffer and leaves the buffer as `b` with the cursor
immediately after the length prefix of element K: the prefix and elements 1 .. K-1
stay consumed. On a buffer of fewer than 2^63 bytes that cursor is at least 4 * K bytes
past the cursor before the call, so it is not at its position before the call. -/
theorem unpack_string_not_atomic (malloc : Nat → Bool) (buffer : pmix_buffer_t)
    (dest : Nat → c_string) (n : Int) (type : pmix_data_type_t) (K : Nat)
    (b : pmix_buffer_t) (d : Nat → c_string)
    (hK : 1 ≤ K) (hKn : (K : Int) ≤ n)
    (hpre : unpack_string_loop malloc (K - 1) 0 buffer dest = (PMIX_SUCCESS, b, d))
    (h4 : 4 ≤ b.bytes_used - b.unpack_ptr)
    (hL : 0 < to_int32 (ntohl (wire_bytes b.base_ptr b.unpack_ptr 4)))
    (hshort : b.bytes_used - (b.unpack_ptr + 4) <
      (to_int32 (ntohl (wire_bytes b.base_ptr b.unpack_ptr 4))).toNat)
    (hmalloc : malloc (to_size_t (to_int32 (ntohl (wire_bytes b.base_ptr b.unpack_ptr 4)))) =
      true) :
    (pmix_bfrop_unpack_string malloc buffer dest n type).rc =
      PMIX_ERR_UNPACK_READ_PAST_END_OF_BUFFER ∧
    (pmix_bfrop_unpack_string malloc buffer dest n type).buffer =
      { b with unpack_ptr := b.unpack_ptr + 4 } ∧
    (buffer.bytes_used < 2 ^ 63 →
      buffer.unpack_ptr + 4 * K ≤
        (pmix_bfrop_unpack_string malloc buffer dest n type).buffer.unpack_ptr) := by
  have hlt : K - 1 < n.toNat := by omega
  obtain ⟨m, hm⟩ := Nat.exists_eq_add_of_lt hlt
  have hm2 : n.toNat = (K - 1) + (m + 1) := by omega
  have hadd := unpack_string_loop_add malloc (m + 1) (K - 1) 0 buffer dest (by rw [hpre])
  have hres : pmix_bfrop_unpack_string malloc buffer dest n type =
      ⟨PMIX_ERR_UNPACK_READ_PAST_END_OF_BUFFER, { b with unpack_ptr := b.unpack_ptr + 4 },
        Function.update d (0 + (K - 1)) (some (malloc_region
          (to_size_t (to_int32 (ntohl (wire_bytes b.base_ptr b.unpack_ptr 4)))))), n⟩ := by
    unfold pmix_bfrop_unpack_string
    simp only [hm2, hadd, hpre]
    rw [unpack_string_loop_cut malloc m (0 + (K - 1)) b d h4 hL hshort hmalloc]
  rw [hres]
  refine ⟨rfl, rfl, fun hsize => ?_⟩
  obtain ⟨_, e2, _⟩ := unpack_string_loop_needs malloc (K - 1) 0 buffer dest hsize
    (by rw [hpre])
  rw [hpre] at e2
  dsimp only at e2 ⊢
  omega

/-- Witness: three strings are asked of the cut sample. The first, `hi`, decodes and
leaves the cursor at 6; the second announces five bytes and holds two, so the call
returns ReadPastEndOfBuffer with the cursor at 10, after the second length prefix. -/
theorem unpack_string_not_atomic_witness :
    (pmix_bfrop_unpack_string malloc_always sample_strings_cut (fun _ => none) 3
      PMIX_STRING).rc = PMIX_ERR_UNPACK_READ_PAST_END_OF_BUFFER ∧
    (pmix_bfrop_unpack_string malloc_always sample_strings_cut (fun _ => none) 3
      PMIX_STRING).buffer = { sample_strings_cut with unpack_ptr := 10 } :=
  have h := unpack_string_not_atomic malloc_always sample_strings_cut (fun _ => none) 3
    PMIX_STRING 2 { sample_strings_cut with unpack_ptr := 6 }
    (unpack_string_loop malloc_always 1 0 sample_strings_cut (fun _ => none)).2.2
    (by decide) (by decide) (Prod.ext (by decide) (Prod.ext (by decide) rfl))
    (by decide) (by decide) (by decide) (by decide)
  ⟨h.1, h.2.1⟩

end PmixUnpack
